import Mathlib

/-!
# dirty-docs Name Server: directory trie, permissions and command dispatcher

A shallow embedding of `src/name_server/ns_utils.c` and of the command
handlers of `src/name_server/name_server.c`.

Modelling conventions
* A C string is a list of 7-bit characters (`CStr`); the trie indexes its
  128-entry child array with the character code.
* A `FileNode*` is either `FileNode.null` or a `FileNode.node` carrying the
  scalar fields of the struct and the 128 child pointers.
* `time(NULL)` is an explicit argument `now`.
* The fixed-size arrays `ss_ids`, `read_users`, `write_users` are modelled by
  the list of their live entries (the first `ss_count`, `read_count`,
  `write_count` slots). A list stands for its array as long as it holds no more
  entries than the array has slots; the store of the owner in the three inserts
  has no bound test in the source, and the model follows it for nodes with room
  (`insert_file_in`, `insert_file_with_replicas_in` and `insert_folder_in` are
  the runs on the array, where `none` stands for a store behind it).
* `list_files` and `list_trash` give the text that the `strcat` calls write when
  the arrays have room. `list_files_in` and `list_trash_in` are the same runs on
  arrays of known size, where `none` stands for a write past the end of an
  array; VIEW and VIEWTRASH pass arrays of `BUFFER_SIZE * 4` bytes.
* A handler takes the globals it reads and returns the reply together with the
  new globals and the commands it sent to storage servers; the answers of the
  storage servers are an explicit `Env`. One command reads the clock once.
* `persist_trie` rewrites the snapshot file and does not change the directory in
  memory; it is not part of the handlers below.
-/

namespace DirtyDocs

/-- One `char` of a name: an index into `children[128]`. -/
abbrev CChar := Fin 128

/-- A NUL-terminated C string, without its terminator. -/
abbrev CStr := List CChar

/-- The character `/`. -/
def SLASH : CChar := 47

/-- The character `.`. -/
def DOT : CChar := 46

/-- The character `\n`. -/
def NEWLINE : CChar := 10

/-- ns_utils.h: `MAX_FILENAME`. -/
def MAX_FILENAME : Nat := 256

/-- ns_utils.h: `MAX_USERS`. -/
def MAX_USERS : Nat := 50

/-- ns_utils.h: `MAX_SS`. -/
def MAX_SS : Nat := 10

/-- ns_utils.h: `MAX_CLIENTS`. -/
def MAX_CLIENTS : Nat := 100

/-- ns_utils.h: `REPLICATION_FACTOR`. -/
def REPLICATION_FACTOR : Nat := 2

/-- name_server.c: `CACHE_SIZE`. -/
def CACHE_SIZE : Nat := 1024

/-- name_server.c: `CACHE_EXPIRY_SECONDS`. -/
def CACHE_EXPIRY_SECONDS : Int := 300

/-- ns_utils.h: `PermissionLevel`, ordered `PERM_NONE < PERM_READ < PERM_WRITE`. -/
inductive PermissionLevel where
  | PERM_NONE
  | PERM_READ
  | PERM_WRITE
deriving DecidableEq, Repr

/-- Numeric value of the enum, used by the `<` and `>=` comparisons of the source. -/
def PermissionLevel.toNat : PermissionLevel → Nat
  | .PERM_NONE => 0
  | .PERM_READ => 1
  | .PERM_WRITE => 2

/-- The scalar fields of `struct FileNode` (everything but `children`). An `owner`
that is still `NULL` after `calloc` is the empty string; it is read on terminal
nodes only, where an insert has set it. -/
structure NodeData where
  owner : CStr
  ss_ids : List CStr
  size : Int
  word_count : Int
  char_count : Int
  creation_time : Int
  last_modified : Int
  last_access : Int
  read_users : List CStr
  write_users : List CStr
  is_end_of_word : Bool
  is_folder : Bool
  is_in_trash : Bool
deriving DecidableEq, Repr

/-- A `FileNode*`: `null`, or a node with its fields and its 128 child pointers. -/
inductive FileNode where
  | null : FileNode
  | node (d : NodeData) (children : CChar → FileNode) : FileNode

/-- The fields of a node fresh from `calloc` in `create_file_node`. -/
def NodeData.zero : NodeData :=
  { owner := [], ss_ids := [], size := 0, word_count := 0, char_count := 0,
    creation_time := 0, last_modified := 0, last_access := 0,
    read_users := [], write_users := [],
    is_end_of_word := false, is_folder := false, is_in_trash := false }

/-- ns_utils.c `create_file_node`. -/
def create_file_node : FileNode :=
  FileNode.node NodeData.zero (fun _ => FileNode.null)

/-- The pointer reached by the walk `current = current->children[filename[i]]`,
`null` as soon as a child is missing. -/
def walk : FileNode → CStr → FileNode
  | n, [] => n
  | FileNode.null, _ :: _ => FileNode.null
  | FileNode.node _ ch, c :: cs => walk (ch c) cs

/-- The fields of the node at a pointer, if the pointer is not `NULL`. -/
def FileNode.data : FileNode → Option NodeData
  | FileNode.null => none
  | FileNode.node d _ => some d

/-- The walk of `insert_file`, which creates every missing child before it
descends, followed by the write `f` through the final `current` pointer. -/
def walk_create (f : NodeData → NodeData) : CStr → FileNode → FileNode
  | _, FileNode.null => FileNode.null
  | [], FileNode.node d ch => FileNode.node (f d) ch
  | c :: cs, FileNode.node d ch =>
      FileNode.node d (Function.update ch c
        (walk_create f cs
          (match ch c with
           | FileNode.null => create_file_node
           | FileNode.node d1 ch1 => FileNode.node d1 ch1)))

/-- A write `f` through a pointer obtained by walking `filename` from the root
(no node is created). -/
def update_at (f : NodeData → NodeData) : CStr → FileNode → FileNode
  | _, FileNode.null => FileNode.null
  | [], FileNode.node d ch => FileNode.node (f d) ch
  | c :: cs, FileNode.node d ch =>
      FileNode.node d (Function.update ch c (update_at f cs (ch c)))

/-- ns_utils.c `insert_file`. The last statement,
`acl.write_users[acl.write_count++] = strdup(owner)`, has no bound test. The list
`write_users` stands for the array `char* write_users[MAX_USERS]` with its count:
the append is the store of the source when the node held fewer than `MAX_USERS`
entries before the call. At a node whose array is full the source stores behind the
array, which C leaves undefined and which no list describes: the model follows the
source for nodes with room (`insert_file_in` is the run on the array). -/
def insert_file (root : FileNode) (filename owner ss_id : CStr) (now : Int) : FileNode :=
  walk_create (fun d =>
    { d with
      is_end_of_word := true
      owner := owner
      ss_ids := [ss_id]
      creation_time := now
      last_modified := now
      write_users := d.write_users ++ [owner] }) filename root

/-- ns_utils.c `insert_file_with_replicas`. The owner is appended by the same
unchecked store as in `insert_file`, with the same reading of the list
(`insert_file_with_replicas_in` is the run on the array). -/
def insert_file_with_replicas (root : FileNode) (filename owner : CStr)
    (ss_ids : List CStr) (now : Int) : FileNode :=
  walk_create (fun d =>
    { d with
      is_end_of_word := true
      owner := owner
      ss_ids := ss_ids
      creation_time := now
      last_modified := now
      write_users := d.write_users ++ [owner] }) filename root

/-- ns_utils.c `insert_folder`. The owner is appended by the same unchecked store as
in `insert_file`, with the same reading of the list (`insert_folder_in` is the run
on the array). -/
def insert_folder (root : FileNode) (foldername owner ss_id : CStr) (now : Int) : FileNode :=
  walk_create (fun d =>
    { d with
      is_end_of_word := true
      is_folder := true
      owner := owner
      ss_ids := [ss_id]
      creation_time := now
      last_modified := now
      write_users := d.write_users ++ [owner] }) foldername root

/-- ns_utils.c `find_file`: the terminal node that is not in trash. -/
def find_file (root : FileNode) (filename : CStr) : Option NodeData :=
  match (walk root filename).data with
  | some d => if d.is_end_of_word && !d.is_in_trash then some d else none
  | none => none

/-- ns_utils.c `find_file_any_status`: the terminal node, in trash or not. -/
def find_file_any_status (root : FileNode) (filename : CStr) : Option NodeData :=
  match (walk root filename).data with
  | some d => if d.is_end_of_word then some d else none
  | none => none

/-- ns_utils.c `delete_file` (lazy delete): the return value and the new trie; the
parameter `depth` is never read. The freed `owner` and `ss_ids` strings are left in
place: no reader looks at them while `is_end_of_word` is clear, and the next insert
at the node overwrites them. The ACL arrays and their counts are not touched. -/
def delete_file (root : FileNode) (filename : CStr) : Int × FileNode :=
  match find_file root filename with
  | some _ => (1, update_at (fun d => { d with is_end_of_word := false }) filename root)
  | none => (0, root)

/-- The test `strcmp(a, b) == 0`. -/
def streq (a b : CStr) : Bool := a == b

/-- ns_utils.c `check_permission` on a non-`NULL` node and username. -/
def check_permission_node (node : NodeData) (username : CStr) : PermissionLevel :=
  if streq node.owner username then PermissionLevel.PERM_WRITE
  else if node.write_users.any (fun w => streq w username) then PermissionLevel.PERM_WRITE
  else if node.read_users.any (fun r => streq r username) then PermissionLevel.PERM_READ
  else PermissionLevel.PERM_NONE

/-- ns_utils.c `check_permission`; `none` stands for a `NULL` argument. -/
def check_permission (node : Option NodeData) (username : Option CStr) : PermissionLevel :=
  match node, username with
  | some n, some u => check_permission_node n u
  | _, _ => PermissionLevel.PERM_NONE

/-! ## Storage-server registry and lookup cache (name_server.c) -/

/-- ns_utils.h `StorageServer`. -/
structure StorageServer where
  id : CStr
  ip : CStr
  client_port : Int
  nm_port : Int
  is_active : Bool
  last_heartbeat : Int
deriving DecidableEq, Repr

/-- name_server.c `CacheEntry`. -/
structure CacheEntry where
  filename : CStr
  ss_id : CStr
  last_access : Int
  valid : Bool
deriving DecidableEq, Repr

/-- The verbs that the Name Server answers with a redirect. -/
inductive Verb where
  | READ
  | STREAM
  | WRITE
  | UNDO
  | CHECKPOINT
  | REVERT
  | VIEWCHECKPOINT
  | LISTCHECKPOINTS
deriving DecidableEq, Repr

/-- The replies written to the client socket by the modelled handlers.
`ACK_REDIRECT v ip port` is the line `ACK_<v> <ip> <port>`; `ACK_EMPTYTRASH n` is
`ACK_EMPTYTRASH <n> files permanently deleted.`. -/
inductive Reply where
  | ERR_NO_FILENAME
  | ERR_FILE_NOT_FOUND
  | ERR_FILE_EXISTS
  | ERR_FILE_IN_TRASH
  | ERR_NO_SS_AVAIL
  | ERR_SS_CREATE_FAILED
  | ERR_SS_DELETE_FAILED
  | ERR_SS_UNREACHABLE
  | ERR_PERMISSION_DENIED
  | ERR_READ_PERMISSION_DENIED
  | ERR_WRITE_PERMISSION_DENIED
  | ERR_ALREADY_IN_TRASH
  | ERR_NOT_IN_TRASH
  | ERR_CANNOT_DELETE_FOLDER
  | ERR_FILE_LOCKED
  | ERR_NO_FOLDERNAME
  | ERR_FOLDER_EXISTS
  | ERR_SS_CREATEFOLDER_FAILED
  | ERR_INVALID_ARGS
  | ERR_MOVE_FAILED
  | ERR_SS_MOVE_FAILED
  | ACK_CREATEFOLDER
  | ACK_MOVE
  | ACK_CREATE
  | ACK_TRASHED
  | ACK_RESTORED
  | ACK_DELETE
  | ACK_EMPTYTRASH (n : Nat)
  | ACK_REDIRECT (v : Verb) (ip : CStr) (port : Int)
  | ERR_INVALID_ID
  | ERR_REQ_NOT_FOUND
  | ERR_NOT_REQUEST_OWNER
  | ERR_REQ_NOT_PENDING
  | ACK_APPROVED
  | ACK_DENIED
  | ERR_FILE_NOT_FOUND_OR_NOT_OWNER
  | ERR_ACL_FULL
  | ERR_INVALID_FLAG
  | ACK_ADDACCESS_READ
  | ACK_ADDACCESS_WRITE
  | ERR_USERNAME_IN_USE
  | ERR_MAX_CLIENTS
  | ACK_REG
  | ERR_USER_NOT_IN_ACL
  | ACK_REMACCESS
  | ERR_FILE_NOT_FOUND_OR_NO_ACCESS
deriving DecidableEq, Repr

/-- A command line written by the Name Server to the NM port of a storage server. -/
inductive SSCommand where
  | NM_CREATE (name : CStr)
  | NM_DELETE (name : CStr)
  | NM_CHECK_LOCKS (name : CStr)
  | NM_CREATEFOLDER (name : CStr)
  | NM_MOVE (src dest : CStr)
deriving DecidableEq, Repr

/-- One command together with the id of the storage server it was sent to. -/
structure SSMsg where
  ss_id : CStr
  cmd : SSCommand
deriving DecidableEq, Repr

/-- The answers of the storage servers, as functions of the server and the name:
whether the answer to `NM_CREATE` starts with `ACK_NM_CREATE`, whether the answer to
`NM_CHECK_LOCKS` starts with `FILE_LOCKED`, and so on. `connect_to_server` never
returns a negative descriptor (it exits the process on failure), so a connection
that is attempted succeeds in every run the model describes. -/
structure Env where
  nm_create_ack : StorageServer → CStr → Bool
  nm_check_locks : StorageServer → CStr → Bool
  nm_delete_ack : StorageServer → CStr → Bool
  nm_createfolder_ack : StorageServer → CStr → Bool
  nm_move_ack : StorageServer → CStr → CStr → Bool

/-- The globals of name_server.c that the modelled handlers read and write:
`file_trie_root`, `ss_list[0..ss_count)`, `file_cache` and the static
`next_ss_index` of `get_ss_for_new_file`. -/
structure NSState where
  file_trie_root : FileNode
  ss_list : List StorageServer
  file_cache : Nat → CacheEntry
  next_ss_index : Nat

/-- What one command produces: the reply, the new globals, and the commands sent
to storage servers, in order. -/
structure Outcome where
  reply : Reply
  state : NSState
  sent : List SSMsg

/-- name_server.c `hash_filename` (`unsigned int` arithmetic). -/
def hash_filename (filename : CStr) : Nat :=
  (filename.foldl (fun hash c => (hash * 31 + c.val) % 2 ^ 32) 0) % CACHE_SIZE

/-- name_server.c `get_ss_by_id`: the first registered server with this id that
is active. -/
def get_ss_by_id (ss_list : List StorageServer) (ss_id : CStr) : Option StorageServer :=
  ss_list.find? (fun s => streq s.id ss_id && s.is_active)

/-- name_server.c `get_cached_ss`: the server found and the cache afterwards. -/
def get_cached_ss (file_cache : Nat → CacheEntry) (ss_list : List StorageServer)
    (filename : CStr) (now : Int) : Option StorageServer × (Nat → CacheEntry) :=
  let idx := hash_filename filename
  if (file_cache idx).valid && streq (file_cache idx).filename filename &&
      decide (now - (file_cache idx).last_access < CACHE_EXPIRY_SECONDS) then
    (get_ss_by_id ss_list (file_cache idx).ss_id,
     Function.update file_cache idx { file_cache idx with last_access := now })
  else (none, file_cache)

/-- name_server.c `cache_file_ss` (`strncpy` into `char[MAX_FILENAME]` and `char[50]`). -/
def cache_file_ss (file_cache : Nat → CacheEntry) (filename ss_id : CStr) (now : Int) :
    Nat → CacheEntry :=
  Function.update file_cache (hash_filename filename)
    { filename := filename.take (MAX_FILENAME - 1), ss_id := ss_id.take 49,
      last_access := now, valid := true }

/-- name_server.c `invalidate_cache_entry`. -/
def invalidate_cache_entry (file_cache : Nat → CacheEntry) (filename : CStr) :
    Nat → CacheEntry :=
  let idx := hash_filename filename
  if (file_cache idx).valid && streq (file_cache idx).filename filename then
    Function.update file_cache idx { file_cache idx with valid := false }
  else file_cache

/-- name_server.c `select_replica_servers`: the ids of the first `max_replicas`
active servers other than the primary, in registry order. -/
def select_replica_servers (ss_list : List StorageServer) (primary_ss_id : CStr)
    (max_replicas : Nat) : List CStr :=
  ((ss_list.filter (fun s => s.is_active && !streq s.id primary_ss_id)).map
    (fun s => s.id)).take max_replicas

/-- The replica scan of the READ/STREAM/WRITE handler: the first id of the list
for which `get_ss_by_id` finds an active server, with that server. -/
def first_active_replica (ss_list : List StorageServer) :
    List CStr → Option (CStr × StorageServer)
  | [] => none
  | id :: rest =>
      match get_ss_by_id ss_list id with
      | some ss => if ss.is_active then some (id, ss) else first_active_replica ss_list rest
      | none => first_active_replica ss_list rest

/-! ## Listings (ns_utils.c) and the EMPTYTRASH collector (name_server.c) -/

/-- The loop `for (int i = 0; i < 128; i++)` over the child array. -/
def child_indices : List CChar := List.finRange 128

/-- ns_utils.c `traverse_trie_recursive`: the text in the output buffer after the
call, for arrays with room for every `strcat` and every prefix (the callers pass
fixed arrays; `traverse_trie_recursive_in` is the run on arrays of known size).
`show_details` is passed along and never read, as in the source. -/
def traverse_trie_recursive : FileNode → CStr → Bool → Bool → CStr → CStr → CStr
  | FileNode.null, _, _, _, output_buffer, _ => output_buffer
  | FileNode.node d ch, username, list_all, show_details, output_buffer, cur_path =>
      let out1 :=
        if d.is_end_of_word && !d.is_in_trash then
          if list_all ||
              decide (PermissionLevel.PERM_READ.toNat ≤
                (check_permission (some d) (some username)).toNat) then
            output_buffer ++ cur_path ++ (if d.is_folder then [SLASH] else []) ++ [NEWLINE]
          else output_buffer
        else output_buffer
      child_indices.foldl
        (fun out i =>
          traverse_trie_recursive (ch i) username list_all show_details out
            (cur_path ++ [i]))
        out1

/-- ns_utils.c `list_files`: the text written into `output_buffer`, for an array with
room for it. VIEW passes `char file_list_buffer[BUFFER_SIZE * 4]`; `list_files_in`
is the run on an array of known size. -/
def list_files (root : FileNode) (username : CStr) (list_all show_details : Bool) : CStr :=
  traverse_trie_recursive root username list_all show_details [] []

/-- ns_utils.c `list_trash_recursive`: the text in the output buffer after the call,
for arrays with room (`list_trash_recursive_in` is the run on arrays of known
size). -/
def list_trash_recursive : FileNode → CStr → CStr → CStr → CStr
  | FileNode.null, _, output_buffer, _ => output_buffer
  | FileNode.node d ch, username, output_buffer, cur_path =>
      let out1 :=
        if d.is_end_of_word && d.is_in_trash then
          if streq d.owner username then
            output_buffer ++ cur_path ++ (if d.is_folder then [SLASH] else []) ++ [NEWLINE]
          else output_buffer
        else output_buffer
      child_indices.foldl
        (fun out i => list_trash_recursive (ch i) username out (cur_path ++ [i]))
        out1

/-- ns_utils.c `list_trash`: the text written into `output_buffer`, for an array with
room for it. VIEWTRASH passes `char trash_list_buffer[BUFFER_SIZE * 4]`;
`list_trash_in` is the run on an array of known size. -/
def list_trash (root : FileNode) (username : CStr) : CStr :=
  list_trash_recursive root username [] []

/-- name_server.c `empty_trash_recursive_helper`: `files_to_delete` after the call
(`*delete_count` is its length). -/
def empty_trash_recursive_helper : FileNode → CStr → List CStr → CStr → List CStr
  | FileNode.null, _, files_to_delete, _ => files_to_delete
  | FileNode.node d ch, username, files_to_delete, cur_path =>
      if MAX_CLIENTS ≤ files_to_delete.length then files_to_delete
      else
        let files1 :=
          if d.is_end_of_word && d.is_in_trash && streq d.owner username then
            files_to_delete ++ [cur_path]
          else files_to_delete
        child_indices.foldl
          (fun files i => empty_trash_recursive_helper (ch i) username files (cur_path ++ [i]))
          files1

/-- The pointer `strrchr(s, c) + 1`: the text after the last occurrence of `c`,
`none` when `strrchr` returns `NULL`. -/
def after_last (c : CChar) : CStr → Option CStr
  | [] => none
  | x :: xs =>
      match after_last c xs with
      | some r => some r
      | none => if x = c then some xs else none

/-- ns_utils.c `get_base_filename`: the part after the last `/`. -/
def get_base_filename (path : CStr) : CStr :=
  match after_last SLASH path with
  | none => path
  | some r => r

/-- ns_utils.c `find_folder`. -/
def find_folder (root : FileNode) (foldername : CStr) : Option NodeData :=
  match find_file root foldername with
  | some node => if node.is_folder then some node else none
  | none => none

/-! ## Command handlers (name_server.c `handle_client_commands`) -/

/-- The two permission tests that end the READ/STREAM/WRITE branch, and the
redirect line that follows them. -/
def redirect_after_permission (command : Verb) (perm : PermissionLevel) (ip : CStr)
    (port : Int) : Reply :=
  if command = Verb.WRITE ∧ perm.toNat < PermissionLevel.PERM_WRITE.toNat then
    Reply.ERR_WRITE_PERMISSION_DENIED
  else if command ≠ Verb.WRITE ∧ perm.toNat < PermissionLevel.PERM_READ.toNat then
    Reply.ERR_READ_PERMISSION_DENIED
  else Reply.ACK_REDIRECT command ip port

/-- The branch `READ` / `STREAM` / `WRITE` of `handle_client_commands`. -/
def handle_READ_STREAM_WRITE (st : NSState) (command : Verb) (username filename : CStr)
    (now : Int) : Outcome :=
  if filename.length = 0 then ⟨Reply.ERR_NO_FILENAME, st, []⟩
  else
    let cached := get_cached_ss st.file_cache st.ss_list filename now
    let st1 : NSState := { st with file_cache := cached.2 }
    match cached.1.filter (fun ss => ss.is_active) with
    | some ss =>
        -- cache hit on an active server: only the permission is looked up
        let perm :=
          match find_file st.file_trie_root filename with
          | some node => check_permission (some node) (some username)
          | none => PermissionLevel.PERM_NONE
        if perm = PermissionLevel.PERM_NONE then
          ⟨Reply.ERR_FILE_NOT_FOUND,
           { st1 with file_cache := invalidate_cache_entry st1.file_cache filename }, []⟩
        else ⟨redirect_after_permission command perm ss.ip ss.client_port, st1, []⟩
    | none =>
        -- cache miss, or cached server inactive: full lookup
        let st2 : NSState :=
          if cached.1.isSome then
            { st1 with file_cache := invalidate_cache_entry st1.file_cache filename }
          else st1
        match find_file st.file_trie_root filename with
        | none => ⟨Reply.ERR_FILE_NOT_FOUND, st2, []⟩
        | some node =>
            let perm := check_permission (some node) (some username)
            match first_active_replica st.ss_list node.ss_ids with
            | none => ⟨Reply.ERR_SS_UNREACHABLE, st2, []⟩
            | some (selected_ss_id, ss) =>
                ⟨redirect_after_permission command perm ss.ip ss.client_port,
                 { st2 with file_cache := cache_file_ss st2.file_cache filename selected_ss_id now },
                 []⟩

/-- The branch `UNDO`. The primary is `ss_ids[0]`; every insert stores at least
one id, so the slot is never `NULL` on a terminal node. -/
def handle_UNDO (st : NSState) (username filename : CStr) : Outcome :=
  match find_file st.file_trie_root filename with
  | none => ⟨Reply.ERR_FILE_NOT_FOUND, st, []⟩
  | some node =>
      if (check_permission (some node) (some username)).toNat <
          PermissionLevel.PERM_WRITE.toNat then
        ⟨Reply.ERR_PERMISSION_DENIED, st, []⟩
      else
        match get_ss_by_id st.ss_list (node.ss_ids.headD []) with
        | none => ⟨Reply.ERR_SS_UNREACHABLE, st, []⟩
        | some ss =>
            if ss.is_active then ⟨Reply.ACK_REDIRECT Verb.UNDO ss.ip ss.client_port, st, []⟩
            else ⟨Reply.ERR_SS_UNREACHABLE, st, []⟩

/-- The branch `CHECKPOINT` / `REVERT` / `VIEWCHECKPOINT` / `LISTCHECKPOINTS`. -/
def handle_CHECKPOINT_family (st : NSState) (command : Verb) (username filename : CStr) :
    Outcome :=
  if filename.length = 0 then ⟨Reply.ERR_NO_FILENAME, st, []⟩
  else
    match find_file st.file_trie_root filename with
    | none => ⟨Reply.ERR_FILE_NOT_FOUND, st, []⟩
    | some node =>
        let perm := check_permission (some node) (some username)
        let need_write : Bool := command = Verb.CHECKPOINT ∨ command = Verb.REVERT
        if (need_write ∧ perm.toNat < PermissionLevel.PERM_WRITE.toNat) ∨
            (¬ need_write ∧ perm.toNat < PermissionLevel.PERM_READ.toNat) then
          ⟨Reply.ERR_PERMISSION_DENIED, st, []⟩
        else
          match get_ss_by_id st.ss_list (node.ss_ids.headD []) with
          | none => ⟨Reply.ERR_SS_UNREACHABLE, st, []⟩
          | some ss =>
              if ss.is_active then
                ⟨Reply.ACK_REDIRECT
                  (if command = Verb.CHECKPOINT then Verb.CHECKPOINT
                   else if command = Verb.REVERT then Verb.REVERT
                   else if command = Verb.VIEWCHECKPOINT then Verb.VIEWCHECKPOINT
                   else Verb.LISTCHECKPOINTS) ss.ip ss.client_port, st, []⟩
              else ⟨Reply.ERR_SS_UNREACHABLE, st, []⟩

/-- The `if / else if` chain of `handle_client_commands` over the redirected verbs. -/
def handle_redirect_command (st : NSState) (command : Verb) (username filename : CStr)
    (now : Int) : Outcome :=
  match command with
  | Verb.READ | Verb.STREAM | Verb.WRITE =>
      handle_READ_STREAM_WRITE st command username filename now
  | Verb.UNDO => handle_UNDO st username filename
  | Verb.CHECKPOINT | Verb.REVERT | Verb.VIEWCHECKPOINT | Verb.LISTCHECKPOINTS =>
      handle_CHECKPOINT_family st command username filename

/-- The branch `CREATE`. `get_ss_for_new_file` returns `ss_list[next_ss_index]`
(whether or not that server is active) and advances the index; the index stays
below `ss_count`, so the `none` case of the lookup does not arise. -/
def handle_CREATE (env : Env) (st : NSState) (username arg1 : CStr) (now : Int) : Outcome :=
  match find_file_any_status st.file_trie_root arg1 with
  | some existing =>
      if existing.is_in_trash then ⟨Reply.ERR_FILE_IN_TRASH, st, []⟩
      else ⟨Reply.ERR_FILE_EXISTS, st, []⟩
  | none =>
      if st.ss_list.length = 0 then ⟨Reply.ERR_NO_SS_AVAIL, st, []⟩
      else
        match st.ss_list.get? st.next_ss_index with
        | none => ⟨Reply.ERR_NO_SS_AVAIL, st, []⟩
        | some ss =>
            let st1 : NSState :=
              { st with next_ss_index := (st.next_ss_index + 1) % st.ss_list.length }
            let sent := [SSMsg.mk ss.id (SSCommand.NM_CREATE arg1)]
            if env.nm_create_ack ss arg1 then
              let replica_ids :=
                if 1 < REPLICATION_FACTOR ∧ 1 < st.ss_list.length then
                  select_replica_servers st.ss_list ss.id (REPLICATION_FACTOR - 1)
                else []
              let all_ss_ids := ss.id :: replica_ids
              let root1 :=
                if 1 < all_ss_ids.length then
                  insert_file_with_replicas st.file_trie_root arg1 username all_ss_ids now
                else insert_file st.file_trie_root arg1 username ss.id now
              ⟨Reply.ACK_CREATE,
               { st1 with file_trie_root := root1,
                          file_cache := cache_file_ss st1.file_cache arg1 ss.id now },
               sent⟩
            else ⟨Reply.ERR_SS_CREATE_FAILED, st1, sent⟩

/-- The branch `TRASH`. Only the primary `ss_ids[0]` is asked for locks. -/
def handle_TRASH (env : Env) (st : NSState) (username arg1 : CStr) (now : Int) : Outcome :=
  match find_file_any_status st.file_trie_root arg1 with
  | none => ⟨Reply.ERR_FILE_NOT_FOUND, st, []⟩
  | some node =>
      if ¬ streq node.owner username then ⟨Reply.ERR_PERMISSION_DENIED, st, []⟩
      else if node.is_in_trash then ⟨Reply.ERR_ALREADY_IN_TRASH, st, []⟩
      else if node.is_folder then ⟨Reply.ERR_CANNOT_DELETE_FOLDER, st, []⟩
      else
        let trashed : NSState :=
          { st with file_trie_root :=
              (update_at (fun d => { d with is_in_trash := true, last_modified := now })
                arg1 st.file_trie_root) }
        match node.ss_ids with
        | [] => ⟨Reply.ACK_TRASHED, trashed, []⟩
        | primary :: _ =>
            match get_ss_by_id st.ss_list primary with
            | none => ⟨Reply.ACK_TRASHED, trashed, []⟩
            | some ss =>
                let sent := [SSMsg.mk ss.id (SSCommand.NM_CHECK_LOCKS arg1)]
                if env.nm_check_locks ss arg1 then ⟨Reply.ERR_FILE_LOCKED, st, sent⟩
                else ⟨Reply.ACK_TRASHED, trashed, sent⟩

/-- The branch `RESTORE`. -/
def handle_RESTORE (st : NSState) (username arg1 : CStr) (now : Int) : Outcome :=
  match find_file_any_status st.file_trie_root arg1 with
  | none => ⟨Reply.ERR_FILE_NOT_FOUND, st, []⟩
  | some node =>
      if ¬ streq node.owner username then ⟨Reply.ERR_PERMISSION_DENIED, st, []⟩
      else if ¬ node.is_in_trash then ⟨Reply.ERR_NOT_IN_TRASH, st, []⟩
      else
        ⟨Reply.ACK_RESTORED,
         { st with file_trie_root :=
             (update_at (fun d => { d with is_in_trash := false, last_modified := now })
               arg1 st.file_trie_root) },
         []⟩

/-- The lock loop of `DELETE` over the replica ids: `has_locks` and the
`NM_CHECK_LOCKS` commands sent. The loop stops at the first `FILE_LOCKED`. -/
def delete_check_locks (env : Env) (ss_list : List StorageServer) (arg1 : CStr) :
    List CStr → Bool × List SSMsg
  | [] => (false, [])
  | id :: rest =>
      match (get_ss_by_id ss_list id).filter (fun ss => ss.is_active) with
      | none => delete_check_locks env ss_list arg1 rest
      | some ss =>
          if env.nm_check_locks ss arg1 then
            (true, [SSMsg.mk ss.id (SSCommand.NM_CHECK_LOCKS arg1)])
          else
            ((delete_check_locks env ss_list arg1 rest).1,
             SSMsg.mk ss.id (SSCommand.NM_CHECK_LOCKS arg1) ::
               (delete_check_locks env ss_list arg1 rest).2)

/-- The loop of `DELETE` that sends `NM_DELETE` to every active replica:
`deleted_count` and the commands sent. -/
def delete_on_replicas (env : Env) (ss_list : List StorageServer) (arg1 : CStr) :
    List CStr → Nat × List SSMsg
  | [] => (0, [])
  | id :: rest =>
      match (get_ss_by_id ss_list id).filter (fun ss => ss.is_active) with
      | none => delete_on_replicas env ss_list arg1 rest
      | some ss =>
          ((if env.nm_delete_ack ss arg1 then 1 else 0) +
             (delete_on_replicas env ss_list arg1 rest).1,
           SSMsg.mk ss.id (SSCommand.NM_DELETE arg1) ::
             (delete_on_replicas env ss_list arg1 rest).2)

/-- The branch `DELETE`. -/
def handle_DELETE (env : Env) (st : NSState) (username arg1 : CStr) : Outcome :=
  match find_file st.file_trie_root arg1 with
  | none => ⟨Reply.ERR_FILE_NOT_FOUND, st, []⟩
  | some node =>
      if ¬ streq node.owner username then ⟨Reply.ERR_PERMISSION_DENIED, st, []⟩
      else if node.is_folder then ⟨Reply.ERR_CANNOT_DELETE_FOLDER, st, []⟩
      else
        let locks := delete_check_locks env st.ss_list arg1 node.ss_ids
        if locks.1 then ⟨Reply.ERR_FILE_LOCKED, st, locks.2⟩
        else
          let deleted := delete_on_replicas env st.ss_list arg1 node.ss_ids
          if 0 < deleted.1 then
            ⟨Reply.ACK_DELETE,
             { st with file_trie_root := (delete_file st.file_trie_root arg1).2,
                       file_cache := invalidate_cache_entry st.file_cache arg1 },
             locks.2 ++ deleted.2⟩
          else ⟨Reply.ERR_SS_DELETE_FAILED, st, locks.2 ++ deleted.2⟩

/-- The `NM_DELETE` commands of one round of the `EMPTYTRASH` loop: one for each
replica id that `get_ss_by_id` resolves to an active server. -/
def empty_trash_notify (ss_list : List StorageServer) (filename : CStr) :
    List CStr → List SSMsg
  | [] => []
  | id :: rest =>
      match (get_ss_by_id ss_list id).filter (fun ss => ss.is_active) with
      | none => empty_trash_notify ss_list filename rest
      | some ss =>
          SSMsg.mk ss.id (SSCommand.NM_DELETE filename) ::
            empty_trash_notify ss_list filename rest

/-- The loop "2. Delete them one by one" of `EMPTYTRASH`: the trie, `deleted_count`
and the commands sent after the remaining names have been processed. -/
def empty_trash_loop (ss_list : List StorageServer) :
    List CStr → FileNode → Nat → List SSMsg → FileNode × Nat × List SSMsg
  | [], root, deleted_count, sent => (root, deleted_count, sent)
  | filename :: rest, root, deleted_count, sent =>
      match find_file_any_status root filename with
      | none => empty_trash_loop ss_list rest root deleted_count sent
      | some node =>
          empty_trash_loop ss_list rest (delete_file root filename).2 (deleted_count + 1)
            (sent ++ empty_trash_notify ss_list filename node.ss_ids)

/-- The branch `EMPTYTRASH`. -/
def handle_EMPTYTRASH (st : NSState) (username : CStr) : Outcome :=
  let files_to_delete := empty_trash_recursive_helper st.file_trie_root username [] []
  let r := empty_trash_loop st.ss_list files_to_delete st.file_trie_root 0 []
  ⟨Reply.ACK_EMPTYTRASH r.2.1, { st with file_trie_root := r.1 }, r.2.2⟩

/-- The branch `VIEWTRASH`: the text written to the client (`none` stands for the
line `Trash is empty.`), for a listing that fits
`char trash_list_buffer[BUFFER_SIZE * 4]` with its NUL. -/
def handle_VIEWTRASH (st : NSState) (username : CStr) : Option CStr :=
  let trash_list_buffer := list_trash st.file_trie_root username
  if trash_list_buffer.length = 0 then none else some trash_list_buffer

/-! ## MOVE in the trie (ns_utils.c) -/

/-- The destination name that `move_file` builds with `snprintf` into
`char new_path[MAX_FILENAME * 2]`; `none` when the destination folder is not found. -/
def move_new_path (root : FileNode) (src_path dest_folder_path : CStr) : Option CStr :=
  if streq dest_folder_path [DOT] then
    some ((get_base_filename src_path).take (MAX_FILENAME * 2 - 1))
  else
    match find_folder root dest_folder_path with
    | none => none
    | some _ =>
        some ((dest_folder_path ++ [SLASH] ++ get_base_filename src_path).take
          (MAX_FILENAME * 2 - 1))

/-- ns_utils.c `move_file`: the return value and the new trie. -/
def move_file (root : FileNode) (src_path dest_folder_path : CStr) (now : Int) :
    Int × FileNode :=
  match find_file root src_path with
  | none => (0, root)
  | some file_node =>
      match move_new_path root src_path dest_folder_path with
      | none => (0, root)
      | some new_path =>
          if (find_file root new_path).isSome then (0, root)
          else
            let root1 :=
              if file_node.is_folder then
                insert_folder root new_path file_node.owner (file_node.ss_ids.headD []) now
              else if 1 < file_node.ss_ids.length then
                insert_file_with_replicas root new_path file_node.owner file_node.ss_ids now
              else insert_file root new_path file_node.owner (file_node.ss_ids.headD []) now
            let root2 :=
              match find_file root1 new_path with
              | none => root1
              | some _ =>
                  update_at (fun d =>
                    { d with
                      size := file_node.size
                      creation_time := file_node.creation_time
                      last_modified := now
                      is_in_trash := file_node.is_in_trash
                      read_users := d.read_users ++ file_node.read_users
                      write_users := d.write_users ++
                        file_node.write_users.filter (fun w => !streq w file_node.owner) })
                    new_path root1
            (1, (delete_file root2 src_path).2)

/-- The branch `CREATEFOLDER`. The replicas are selected before the primary is
contacted; the node is stored with `insert_file_with_replicas` and then marked as
a folder through the pointer that `find_file` returns. -/
def handle_CREATEFOLDER (env : Env) (st : NSState) (username foldername : CStr)
    (now : Int) : Outcome :=
  if foldername.length = 0 then ⟨Reply.ERR_NO_FOLDERNAME, st, []⟩
  else if (find_file st.file_trie_root foldername).isSome then
    ⟨Reply.ERR_FOLDER_EXISTS, st, []⟩
  else if st.ss_list.length = 0 then ⟨Reply.ERR_NO_SS_AVAIL, st, []⟩
  else
    match st.ss_list.get? st.next_ss_index with
    | none => ⟨Reply.ERR_NO_SS_AVAIL, st, []⟩
    | some primary_ss =>
        let st1 : NSState :=
          { st with next_ss_index := (st.next_ss_index + 1) % st.ss_list.length }
        let replica_ss_ids :=
          select_replica_servers st.ss_list primary_ss.id (REPLICATION_FACTOR - 1)
        let sent := [SSMsg.mk primary_ss.id (SSCommand.NM_CREATEFOLDER foldername)]
        if env.nm_createfolder_ack primary_ss foldername then
          let root1 :=
            insert_file_with_replicas st.file_trie_root foldername username
              (primary_ss.id :: replica_ss_ids) now
          let root2 :=
            match find_file root1 foldername with
            | none => root1
            | some _ => update_at (fun d => { d with is_folder := true }) foldername root1
          ⟨Reply.ACK_CREATEFOLDER, { st1 with file_trie_root := root2 }, sent⟩
        else ⟨Reply.ERR_SS_CREATEFOLDER_FAILED, st1, sent⟩

/-! ## Round-robin choice of the primary (name_server.c) -/

/-- name_server.c `get_ss_for_new_file`: the server returned (`none` for `NULL`, and
for an index outside the registry, which the `% ss_count` update rules out) and
the static `next_ss_index` afterwards. -/
def get_ss_for_new_file (ss_list : List StorageServer) (next_ss_index : Nat) :
    Option StorageServer × Nat :=
  if ss_list.length = 0 then (none, next_ss_index)
  else (ss_list.get? next_ss_index, (next_ss_index + 1) % ss_list.length)

/-! ## Access requests (name_server.c) -/

/-- name_server.c `RequestType`. -/
inductive RequestType where
  | REQ_READ
  | REQ_WRITE
deriving DecidableEq, Repr

/-- name_server.c `RequestStatus`. -/
inductive RequestStatus where
  | RSTATUS_PENDING
  | RSTATUS_APPROVED
  | RSTATUS_DENIED
deriving DecidableEq, Repr

/-- name_server.c `AccessRequest`. -/
structure AccessRequest where
  id : Int
  filename : CStr
  requester : CStr
  owner : CStr
  type : RequestType
  status : RequestStatus
  created_at : Int
deriving DecidableEq, Repr

/-- name_server.c `MAX_REQUESTS`. -/
def MAX_REQUESTS : Nat := 1024

/-- The test of the duplicate scan in `create_request`. -/
def same_pending_request (filename requester : CStr) (type : RequestType)
    (r : AccessRequest) : Bool :=
  r.status == RequestStatus.RSTATUS_PENDING && streq r.filename filename &&
    streq r.requester requester && r.type == type

/-- name_server.c `create_request` on the records `requests[0..request_count)`:
the return value and the records afterwards. `snprintf` cuts the three strings to
the size of their fields. -/
def create_request (requests : List AccessRequest) (filename requester owner : CStr)
    (type : RequestType) (now : Int) : Int × List AccessRequest :=
  if MAX_REQUESTS ≤ requests.length then (-1, requests)
  else
    match requests.find? (same_pending_request filename requester type) with
    | some r => (r.id, requests)
    | none =>
        let id : Int :=
          match requests.getLast? with
          | none => 1
          | some last => last.id + 1
        (id, requests ++
          [{ id := id, filename := filename.take (MAX_FILENAME - 1),
             requester := requester.take 99, owner := owner.take 99, type := type,
             status := RequestStatus.RSTATUS_PENDING, created_at := now }])

/-- name_server.c `find_request_by_id`: the first record with this id. -/
def find_request_by_id (requests : List AccessRequest) (id : Int) : Option AccessRequest :=
  requests.find? (fun r => r.id == id)

/-- The write `r->status = ...` through the pointer that `find_request_by_id`
returned: the first record with this id gets the status. -/
def set_request_status (id : Int) (status : RequestStatus) :
    List AccessRequest → List AccessRequest
  | [] => []
  | r :: rest =>
      if r.id == id then { r with status := status } :: rest
      else r :: set_request_status id status rest

/-- What APPROVE, DENY and ADDACCESS produce: the reply, the request records and
the directory afterwards. -/
structure AclOutcome where
  reply : Reply
  requests : List AccessRequest
  root : FileNode

/-- The branch `APPROVE` / `DENY`; `id` is the value of `atoi(arg1)`. -/
def handle_APPROVE_DENY (requests : List AccessRequest) (root : FileNode) (approve : Bool)
    (username : CStr) (id : Int) : AclOutcome :=
  if id ≤ 0 then ⟨Reply.ERR_INVALID_ID, requests, root⟩
  else
    match find_request_by_id requests id with
    | none => ⟨Reply.ERR_REQ_NOT_FOUND, requests, root⟩
    | some r =>
        if ¬ streq r.owner username then ⟨Reply.ERR_NOT_REQUEST_OWNER, requests, root⟩
        else if r.status ≠ RequestStatus.RSTATUS_PENDING then
          ⟨Reply.ERR_REQ_NOT_PENDING, requests, root⟩
        else if approve then
          let root1 :=
            match find_file root r.filename with
            | none => root
            | some node =>
                if r.type = RequestType.REQ_WRITE then
                  if node.write_users.length < MAX_USERS then
                    update_at (fun d => { d with write_users := d.write_users ++ [r.requester] })
                      r.filename root
                  else root
                else
                  if node.read_users.length < MAX_USERS then
                    update_at (fun d => { d with read_users := d.read_users ++ [r.requester] })
                      r.filename root
                  else root
          ⟨Reply.ACK_APPROVED,
           set_request_status id RequestStatus.RSTATUS_APPROVED requests, root1⟩
        else
          ⟨Reply.ACK_DENIED, set_request_status id RequestStatus.RSTATUS_DENIED requests, root⟩

/-- The flag `-R`. -/
def FLAG_R : CStr := [45, 82]

/-- The flag `-W`. -/
def FLAG_W : CStr := [45, 87]

/-- The branch `ADDACCESS`: the reply and the directory afterwards. -/
def handle_ADDACCESS (root : FileNode) (username flag filename user_to_add : CStr) :
    Reply × FileNode :=
  if flag.length = 0 ∨ filename.length = 0 ∨ user_to_add.length = 0 then
    (Reply.ERR_INVALID_ARGS, root)
  else
    match find_file root filename with
    | none => (Reply.ERR_FILE_NOT_FOUND_OR_NOT_OWNER, root)
    | some node =>
        if ¬ streq node.owner username then (Reply.ERR_FILE_NOT_FOUND_OR_NOT_OWNER, root)
        else if streq flag FLAG_R then
          if node.read_users.length < MAX_USERS then
            (Reply.ACK_ADDACCESS_READ,
             update_at (fun d => { d with read_users := d.read_users ++ [user_to_add] })
               filename root)
          else (Reply.ERR_ACL_FULL, root)
        else if streq flag FLAG_W then
          if node.write_users.length < MAX_USERS then
            (Reply.ACK_ADDACCESS_WRITE,
             update_at (fun d => { d with write_users := d.write_users ++ [user_to_add] })
               filename root)
          else (Reply.ERR_ACL_FULL, root)
        else (Reply.ERR_INVALID_FLAG, root)

/-! ## Session table (name_server.c) -/

/-- ns_utils.h `ClientSession`. -/
structure ClientSession where
  username : CStr
  socket_fd : Int
  is_active : Bool
deriving DecidableEq, Repr

/-- The `REG_CLIENT` branch of `worker_thread` on the slots
`client_list[0..client_count)`: the reply and the slots afterwards. -/
def handle_REG_CLIENT (client_list : List ClientSession) (username : CStr) (sock : Int) :
    Reply × List ClientSession :=
  if client_list.any (fun s => s.is_active && streq s.username username) then
    (Reply.ERR_USERNAME_IN_USE, client_list)
  else
    match client_list.findIdx? (fun s => !s.is_active && streq s.username username) with
    | some client_slot =>
        (Reply.ACK_REG,
         client_list.set client_slot
           { username := username, socket_fd := sock, is_active := true })
    | none =>
        if client_list.length < MAX_CLIENTS then
          (Reply.ACK_REG,
           client_list ++ [{ username := username, socket_fd := sock, is_active := true }])
        else (Reply.ERR_MAX_CLIENTS, client_list)

/-- The end of `handle_client_commands` after `read` returned 0: the first slot
with this username is marked inactive. -/
def disconnect_client (username : CStr) : List ClientSession → List ClientSession
  | [] => []
  | s :: rest =>
      if streq s.username username then { s with is_active := false } :: rest
      else s :: disconnect_client username rest

/-- The session tables that REG_CLIENT and disconnects build from the empty table. -/
inductive ReachableSessions : List ClientSession → Prop
  | start : ReachableSessions []
  | by_reg_client (client_list : List ClientSession) (username : CStr) (sock : Int) :
      ReachableSessions client_list →
      ReachableSessions (handle_REG_CLIENT client_list username sock).2
  | by_disconnect (client_list : List ClientSession) (username : CStr) :
      ReachableSessions client_list →
      ReachableSessions (disconnect_client username client_list)

/-! ## Views of the trie used to state properties -/

/-- The fields stored for a name: those of the node the walk reaches, those of a
fresh node when the walk meets `NULL`. -/
def node_at (root : FileNode) (name : CStr) : NodeData :=
  ((walk root name).data).getD NodeData.zero

/-- In every directory the handlers build, a trash flag sits on terminal nodes
only: TRASH flags a node that `find_file_any_status` returned, and `delete_file`
clears `is_end_of_word` on a node that `find_file` returned, which is not flagged. -/
def TrashOnTerminalsOnly (root : FileNode) : Prop :=
  ∀ name, (node_at root name).is_in_trash = true → (node_at root name).is_end_of_word = true

/-- The directories that the modelled operations build from the empty root:
the three inserts, `delete_file`, the flag writes of TRASH, RESTORE and
CREATEFOLDER through a found pointer, and `move_file`. -/
inductive ReachableDir : FileNode → Prop
  | start : ReachableDir create_file_node
  | by_insert_file (t : FileNode) (n owner ss_id : CStr) (now : Int) :
      ReachableDir t → ReachableDir (insert_file t n owner ss_id now)
  | by_insert_file_with_replicas (t : FileNode) (n owner : CStr) (ss_ids : List CStr)
      (now : Int) :
      ReachableDir t → ReachableDir (insert_file_with_replicas t n owner ss_ids now)
  | by_insert_folder (t : FileNode) (n owner ss_id : CStr) (now : Int) :
      ReachableDir t → ReachableDir (insert_folder t n owner ss_id now)
  | by_delete_file (t : FileNode) (n : CStr) :
      ReachableDir t → ReachableDir (delete_file t n).2
  | by_trash (t : FileNode) (n : CStr) (d : NodeData) (now : Int) :
      ReachableDir t → find_file_any_status t n = some d →
      ReachableDir
        (update_at (fun d => { d with is_in_trash := true, last_modified := now }) n t)
  | by_restore (t : FileNode) (n : CStr) (d : NodeData) (now : Int) :
      ReachableDir t → find_file_any_status t n = some d →
      ReachableDir
        (update_at (fun d => { d with is_in_trash := false, last_modified := now }) n t)
  | by_mark_folder (t : FileNode) (n : CStr) (d : NodeData) :
      ReachableDir t → find_file t n = some d →
      ReachableDir (update_at (fun d => { d with is_folder := true }) n t)
  | by_move_file (t : FileNode) (src dest : CStr) (now : Int) :
      ReachableDir t → ReachableDir (move_file t src dest now).2

/-! ## Sample data used by the worked instances -/

/-- The user name `alice`. -/
def alice : CStr := [97, 108, 105, 99, 101]

/-- The user name `bob`. -/
def bob : CStr := [98, 111, 98]

/-- The file name `c.txt`. -/
def c_txt : CStr := [99, 46, 116, 120, 116]

/-- The file name `b`. -/
def name_b : CStr := [98]

/-- The folder name `F`. -/
def name_F : CStr := [70]

/-- The name `F/b`. -/
def name_F_b : CStr := [70, 47, 98]

/-- The folder name `G`. -/
def name_G : CStr := [71]

/-- The name `F/G`. -/
def name_F_G : CStr := [70, 47, 71]

/-- The storage-server id `ss1`. -/
def id_ss1 : CStr := [115, 115, 49]

/-- The storage-server id `ss2`. -/
def id_ss2 : CStr := [115, 115, 50]

/-- The address `127.0.0.1`. -/
def localhost : CStr := [49, 50, 55, 46, 48, 46, 48, 46, 49]

/-- An active storage server `ss1`. -/
def sample_ss1 : StorageServer :=
  { id := id_ss1, ip := localhost, client_port := 9001, nm_port := 9101,
    is_active := true, last_heartbeat := 0 }

/-- An active storage server `ss2`. -/
def sample_ss2 : StorageServer :=
  { id := id_ss2, ip := localhost, client_port := 9002, nm_port := 9102,
    is_active := true, last_heartbeat := 0 }

/-- Storage servers that acknowledge every command and hold no lock. -/
def sample_env : Env :=
  { nm_create_ack := fun _ _ => true
    nm_check_locks := fun _ _ => false
    nm_delete_ack := fun _ _ => true
    nm_createfolder_ack := fun _ _ => true
    nm_move_ack := fun _ _ _ => true }

/-- The cache after `init_cache`. -/
def empty_cache : Nat → CacheEntry :=
  fun _ => { filename := [], ss_id := [], last_access := 0, valid := false }

/-- The Name Server right after start-up, with `ss1` registered. -/
def state_start : NSState :=
  { file_trie_root := create_file_node, ss_list := [sample_ss1],
    file_cache := empty_cache, next_ss_index := 0 }

/-- The state after `alice` has sent `CREATE c.txt` at time 100. -/
def state_after_create : NSState :=
  (handle_CREATE sample_env state_start alice c_txt 100).state

/-- The state after `alice` has then sent `TRASH c.txt` at time 200. -/
def state_after_trash : NSState :=
  (handle_TRASH sample_env state_after_create alice c_txt 200).state

/-- The state after `alice` has then sent `EMPTYTRASH`: `ss1` has been told to delete
`c.txt`, and the node of `c.txt` is still in the directory, in trash. -/
def state_after_emptytrash : NSState :=
  (handle_EMPTYTRASH state_after_trash alice).state

/-- A directory holding the single file `c.txt` of `alice`. -/
def sample_root : FileNode := insert_file create_file_node c_txt alice id_ss1 100

/-- A state whose directory holds `c.txt` (in trash), the file `b` and the folder
`F`, all owned by `alice`. -/
def state_mixed : NSState :=
  { state_after_trash with
    file_trie_root :=
      insert_folder (insert_file state_after_trash.file_trie_root name_b alice id_ss1 210)
        name_F alice id_ss1 220 }

/-- The state after `alice` has sent `CREATE b` and `CREATEFOLDER F` to a Name
Server with the single storage server `ss1`. -/
def state_b_F : NSState :=
  (handle_CREATEFOLDER sample_env
    (handle_CREATE sample_env state_start alice name_b 100).state alice name_F 110).state

/-- The state after `alice` has sent `CREATEFOLDER G` and `CREATEFOLDER F` to a Name
Server with the two active storage servers `ss1` and `ss2`. -/
def state_G_F : NSState :=
  (handle_CREATEFOLDER sample_env
    (handle_CREATEFOLDER sample_env { state_start with ss_list := [sample_ss1, sample_ss2] }
      alice name_G 100).state alice name_F 110).state

/-- The state `state_b_F` after `bob` has sent `CREATE F/b` and `TRASH F/b`. -/
def state_b_F_trashed : NSState :=
  (handle_TRASH sample_env
    (handle_CREATE sample_env state_b_F bob name_F_b 120).state bob name_F_b 130).state

/-- A queue of `MAX_REQUESTS` records: `bob` has asked 1024 times for READ access
to `c.txt`; `alice` has denied every request but the last, which is PENDING. -/
def requests_full : List AccessRequest :=
  (List.range 1024).map (fun (i : Nat) =>
    { id := Int.ofNat i + 1, filename := c_txt, requester := bob, owner := alice,
      type := RequestType.REQ_READ,
      status := if i = 1023 then RequestStatus.RSTATUS_PENDING
                else RequestStatus.RSTATUS_DENIED,
      created_at := 0 })

/-- The queue after `bob` has asked for WRITE access to `c.txt` of `alice`. -/
def requests_one : List AccessRequest :=
  (create_request [] c_txt bob alice RequestType.REQ_WRITE 150).2

/-- The record of that request. -/
def request_bob_write : AccessRequest :=
  { id := 1, filename := c_txt, requester := bob, owner := alice,
    type := RequestType.REQ_WRITE, status := RequestStatus.RSTATUS_PENDING,
    created_at := 150 }

/-- The session table after `alice` and `bob` have registered and `bob` has
disconnected. -/
def sessions_alice_bob : List ClientSession :=
  disconnect_client bob
    (handle_REG_CLIENT (handle_REG_CLIENT [] alice 4).2 bob 5).2

/-- A registry in which `ss1` has been marked inactive and `ss2` is active. -/
def registry_ss1_down : List StorageServer :=
  [{ sample_ss1 with is_active := false }, sample_ss2]

/-- A Name Server right after start-up with `ss1` and `ss2` registered and active. -/
def state_two_ss : NSState :=
  { state_start with ss_list := [sample_ss1, sample_ss2] }

/-- The state after `alice` has sent `CREATE F/G`, `TRASH F/G`, `CREATEFOLDER G` and
`CREATEFOLDER F`. -/
def state_trashed_F_G : NSState :=
  (handle_CREATEFOLDER sample_env
    (handle_CREATEFOLDER sample_env
      (handle_TRASH sample_env
        (handle_CREATE sample_env state_start alice name_F_G 100).state alice name_F_G
        110).state alice name_G 120).state alice name_F 130).state

/-- The directory after `alice` has created `c.txt` and granted `bob` READ access
with ADDACCESS -R. -/
def root_bob_read : FileNode :=
  (handle_ADDACCESS state_after_create.file_trie_root alice FLAG_R c_txt bob).2

/-- The terminal nodes below `node` with their names, `cur_path` being the name of
`node` itself: the node first, then the children in index order, which is the order
in which `traverse_trie_recursive` and `list_trash_recursive` visit them. -/
def terminals : FileNode → CStr → List (CStr × NodeData)
  | FileNode.null, _ => []
  | FileNode.node d ch, cur_path =>
      (if d.is_end_of_word then [(cur_path, d)] else []) ++
        child_indices.flatMap (fun i => terminals (ch i) (cur_path ++ [i]))

/-- The text that the listings write for one node: the name, `/` for a folder, and
a newline. -/
def listing_entry (p : CStr × NodeData) : CStr :=
  p.1 ++ (if p.2.is_folder then [SLASH] else []) ++ [NEWLINE]

/-- The test of `traverse_trie_recursive` on a terminal node. -/
def listed_by_view (username : CStr) (list_all : Bool) (p : CStr × NodeData) : Bool :=
  !p.2.is_in_trash &&
    (list_all ||
      decide (PermissionLevel.PERM_READ.toNat ≤
        (check_permission (some p.2) (some username)).toNat))

/-- The test of `list_trash_recursive` on a terminal node. -/
def listed_by_viewtrash (username : CStr) (p : CStr × NodeData) : Bool :=
  p.2.is_in_trash && streq p.2.owner username

/-- The state after `alice` has sent `CREATE c.txt`, `TRASH c.txt`, `CREATE b` and
`CREATEFOLDER F`. -/
def state_listing : NSState :=
  (handle_CREATEFOLDER sample_env
    (handle_CREATE sample_env state_after_trash alice name_b 120).state alice name_F
    130).state

/-! ## Snapshot file (ns_utils.c, persistence functions)

The file is a list of bytes. An `int` takes 4 bytes and a `long` or `time_t` 8 bytes,
least significant byte first, in two's complement. A result `none` of the reading
functions means that the run leaves this model: a value is used that no `fread`
has set, a string holds a byte above 127, or a count does not fit its array. -/

/-- One byte of the snapshot file. -/
abbrev Byte := Fin 256

/-- The `w` low bytes of `m`, least significant first. -/
def encode_le : Nat → Nat → List Byte
  | 0, _ => []
  | w + 1, m => ⟨m % 256, Nat.mod_lt m (by decide)⟩ :: encode_le w (m / 256)

/-- The number that bytes in little-endian order stand for. -/
def decode_le : List Byte → Nat
  | [] => 0
  | b :: bs => b.val + 256 * decode_le bs

/-- The object representation of a signed integer of `w` bytes. -/
def int_bytes (w : Nat) (v : Int) : List Byte :=
  encode_le w (v % (2 ^ (8 * w) : Int)).toNat

/-- The signed integer of `w` bytes with the given object representation. -/
def bytes_int (w : Nat) (bs : List Byte) : Int :=
  if decode_le bs < 2 ^ (8 * w - 1) then (decode_le bs : Int)
  else (decode_le bs : Int) - (2 ^ (8 * w) : Int)

/-- The byte of a character. -/
def char_byte (c : CChar) : Byte := ⟨c.val, Nat.lt_trans c.isLt (by decide)⟩

/-- The C string in a buffer that ends with a NUL byte: the bytes before the first
NUL; `none` when one of them is above 127. -/
def c_string : List Byte → Option CStr
  | [] => some []
  | b :: bs =>
      if b.val = 0 then some []
      else if h : b.val < 128 then (c_string bs).map (fun s => (⟨b.val, h⟩ : CChar) :: s)
      else none

/-- The call `fread(buf, 1, n, fp)` when it delivers `n` bytes: the bytes and the
rest of the file; `none` when fewer than `n` bytes are left. -/
def fread (n : Nat) (fp : List Byte) : Option (List Byte × List Byte) :=
  if n ≤ fp.length then some (fp.take n, fp.drop n) else none

/-- The call `fread(&x, sizeof(int), 1, fp)`. -/
def fread_int (fp : List Byte) : Option (Int × List Byte) :=
  match fread 4 fp with
  | none => none
  | some (bs, fp1) => some (bytes_int 4 bs, fp1)

/-- The call `fread(&x, sizeof(long), 1, fp)`, also used for `time_t`. -/
def fread_long (fp : List Byte) : Option (Int × List Byte) :=
  match fread 8 fp with
  | none => none
  | some (bs, fp1) => some (bytes_int 8 bs, fp1)

/-- ns_utils.c `write_string` on a string that is not `NULL`: the bytes written. -/
def write_string (str : CStr) : List Byte :=
  int_bytes 4 str.length ++ str.map char_byte

/-- ns_utils.c `read_string`: the `len` bytes of the buffer and the rest of the
file; `none` stands for the return value `NULL`. -/
def read_string (fp : List Byte) : Option (List Byte × List Byte) :=
  match fread_int fp with
  | none => none
  | some (len, fp1) =>
      if len = -1 then none
      else if len < 0 ∨ len > 10000 then none
      else fread len.toNat fp1

/-- A `read_string` whose result is used as a C string right away. -/
def read_c_string (fp : List Byte) : Option (CStr × List Byte) :=
  match read_string fp with
  | none => none
  | some (bs, fp1) =>
      match c_string bs with
      | none => none
      | some s => some (s, fp1)

/-- A loop `for (i = 0; i < n; i++) a[i] = read_string(fp)`. -/
def read_c_strings : Nat → List Byte → Option (List CStr × List Byte)
  | 0, fp => some ([], fp)
  | n + 1, fp =>
      match read_c_string fp with
      | none => none
      | some (s, fp1) =>
          match read_c_strings n fp1 with
          | none => none
          | some (l, fp2) => some (s :: l, fp2)

/-- The marker `'F'`. -/
def MARKER_F : Byte := 70

/-- The marker `'E'`. -/
def MARKER_E : Byte := 69

/-- The magic header `NMTRIE02`. -/
def MAGIC_02 : List Byte := [78, 77, 84, 82, 73, 69, 48, 50]

/-- The magic header `NMTRIE01`. -/
def MAGIC_01 : List Byte := [78, 77, 84, 82, 73, 69, 48, 49]

/-- The bytes that `serialize_node` writes for one terminal node. -/
def serialize_record (path : CStr) (d : NodeData) : List Byte :=
  [MARKER_F] ++ write_string path ++ write_string d.owner ++
    int_bytes 4 d.ss_ids.length ++ (d.ss_ids.take MAX_SS).flatMap write_string ++
    int_bytes 8 d.size ++ int_bytes 8 d.creation_time ++ int_bytes 8 d.last_modified ++
    int_bytes 4 (if d.is_folder then 1 else 0) ++
    int_bytes 4 (if d.is_in_trash then 1 else 0) ++
    int_bytes 4 d.read_users.length ++ d.read_users.flatMap write_string ++
    int_bytes 4 d.write_users.length ++ d.write_users.flatMap write_string

/-- ns_utils.c `serialize_node`: the bytes written. The path of a child is built
by `snprintf` into `char new_path[MAX_FILENAME * 4]`. -/
def serialize_node : FileNode → CStr → List Byte
  | FileNode.null, _ => []
  | FileNode.node d ch, path =>
      (if d.is_end_of_word then serialize_record path d else []) ++
        child_indices.flatMap
          (fun i => serialize_node (ch i) ((path ++ [i]).take (MAX_FILENAME * 4 - 1)))

/-- ns_utils.c `save_trie_to_file`: the content of the file after the call. -/
def save_trie_to_file (root : FileNode) : List Byte :=
  MAGIC_02 ++ serialize_node root [] ++ [MARKER_E]

/-- The body of the `marker == 'F'` branch of `load_trie_from_file` after the path
has been read: the trie and the rest of the file. -/
def load_record (root : FileNode) (path : CStr) (fp : List Byte) (now : Int) :
    Option (FileNode × List Byte) :=
  match read_c_string fp with
  | none => none
  | some (owner, fp1) =>
  match fread_int fp1 with
  | none => none
  | some (ss_count, fp2) =>
  if ss_count < 1 ∨ ss_count > MAX_SS then none
  else
  match read_c_strings ss_count.toNat fp2 with
  | none => none
  | some (ss_ids, fp3) =>
  match fread_long fp3 with
  | none => none
  | some (size, fp4) =>
  match fread_long fp4 with
  | none => none
  | some (creation_time, fp5) =>
  match fread_long fp5 with
  | none => none
  | some (last_modified, fp6) =>
  match fread_int fp6 with
  | none => none
  | some (is_folder, fp7) =>
  match fread_int fp7 with
  | none => none
  | some (is_in_trash, fp8) =>
  let root1 :=
    if is_folder ≠ 0 then insert_folder root path owner (ss_ids.headD []) now
    else if ss_count > 1 then insert_file_with_replicas root path owner ss_ids now
    else insert_file root path owner (ss_ids.headD []) now
  match find_file_any_status root1 path with
  | none => some (root1, fp8)
  | some _ =>
  match fread_int fp8 with
  | none => none
  | some (read_count, fp9) =>
  if read_count < 0 ∨ read_count > MAX_USERS then none
  else
  match read_c_strings read_count.toNat fp9 with
  | none => none
  | some (read_users, fp10) =>
  match fread_int fp10 with
  | none => none
  | some (write_count, fp11) =>
  if write_count < 0 ∨ write_count > MAX_USERS then none
  else
  match read_c_strings write_count.toNat fp11 with
  | none => none
  | some (write_users, fp12) =>
    some (update_at (fun d =>
      { d with
        size := size
        creation_time := creation_time
        last_modified := last_modified
        is_in_trash := decide (is_in_trash ≠ 0)
        read_users := read_users
        write_users := write_users }) path root1, fp12)

/-- The loop `while (1)` of `load_trie_from_file`, at most `fuel` rounds: the trie
when the loop is left. Each round reads at least one byte. -/
def load_entries : Nat → FileNode → List Byte → Int → Option FileNode
  | 0, _, _, _ => none
  | fuel + 1, root, fp, now =>
      match fp with
      | [] => some root
      | marker :: fp1 =>
          if marker = MARKER_E then some root
          else if marker = MARKER_F then
            match read_string fp1 with
            | none => some root
            | some (path_bytes, fp2) =>
                match c_string path_bytes with
                | none => none
                | some path =>
                    match load_record root path fp2 now with
                    | none => none
                    | some (root1, fp3) => load_entries fuel root1 fp3 now
          else load_entries fuel root fp1 now

/-- ns_utils.c `load_trie_from_file`: the return value and `*root` after the call.
The argument `file` is the content of the file, `none` when `fopen` fails. -/
def load_trie_from_file (root : FileNode) (file : Option (List Byte)) (now : Int) :
    Option (Int × FileNode) :=
  match file with
  | none => some (0, root)
  | some fp =>
      match fread 8 fp with
      | none => some (-1, root)
      | some (magic, fp1) =>
          if c_string magic ≠ c_string MAGIC_02 ∧ c_string magic ≠ c_string MAGIC_01 then
            some (0, root)
          else if c_string magic = c_string MAGIC_01 then some (0, root)
          else
            let root0 :=
              match root with
              | FileNode.null => create_file_node
              | r => r
            match load_entries (fp1.length + 1) root0 fp1 now with
            | none => none
            | some root1 => some (1, root1)

/-- The fields of a node after a snapshot and a reload into an empty directory:
`word_count`, `char_count` and `last_access` are not in the snapshot, and a folder
keeps the first entry of its replica list only. -/
def reloaded (d : NodeData) : NodeData :=
  { owner := d.owner
    ss_ids := if d.is_folder then d.ss_ids.take 1 else d.ss_ids
    size := d.size
    word_count := 0
    char_count := 0
    creation_time := d.creation_time
    last_modified := d.last_modified
    last_access := 0
    read_users := d.read_users
    write_users := d.write_users
    is_end_of_word := true
    is_folder := d.is_folder
    is_in_trash := d.is_in_trash }

/-- A string that `write_string` and `read_string` carry: at most `bound` bytes, none
of them NUL. -/
abbrev FitsString (bound : Nat) (s : CStr) : Prop :=
  s.length ≤ bound ∧ ∀ c ∈ s, c ≠ 0

/-- A value of type `long` or `time_t`. -/
abbrev FitsLong (v : Int) : Prop := -(2 ^ 63 : Int) ≤ v ∧ v < (2 ^ 63 : Int)

/-- A terminal node that the snapshot format carries. -/
abbrev FitsSnapshot (p : CStr × NodeData) : Prop :=
  FitsString (MAX_FILENAME * 4 - 1) p.1 ∧
  FitsString 10000 p.2.owner ∧
  1 ≤ p.2.ss_ids.length ∧ p.2.ss_ids.length ≤ MAX_SS ∧
  (∀ id ∈ p.2.ss_ids, FitsString 10000 id) ∧
  FitsLong p.2.size ∧ FitsLong p.2.creation_time ∧ FitsLong p.2.last_modified ∧
  p.2.read_users.length ≤ MAX_USERS ∧ (∀ x ∈ p.2.read_users, FitsString 10000 x) ∧
  p.2.write_users.length ≤ MAX_USERS ∧ (∀ x ∈ p.2.write_users, FitsString 10000 x)

/-- The trie after `load_trie_from_file` has gone through the record that
`serialize_node` writes for a terminal node with the fields `d` at `path`. -/
def restore_record (root : FileNode) (path : CStr) (d : NodeData) (now : Int) : FileNode :=
  update_at (fun e =>
    { e with
      size := d.size
      creation_time := d.creation_time
      last_modified := d.last_modified
      is_in_trash := d.is_in_trash
      read_users := d.read_users
      write_users := d.write_users }) path
    (if d.is_folder then insert_folder root path d.owner (d.ss_ids.headD []) now
     else if 1 < d.ss_ids.length then
       insert_file_with_replicas root path d.owner d.ss_ids now
     else insert_file root path d.owner (d.ss_ids.headD []) now)

/-- name_server.c `main`: `file_trie_root` after `create_file_node()` and the call
of `load_trie_from_file`; the return value only selects the log message. -/
def main_startup_directory (file : Option (List Byte)) (now : Int) : Option FileNode :=
  match load_trie_from_file create_file_node file now with
  | none => none
  | some (_, root) => some root

/-- The state after `alice` has sent `CREATE c.txt` and `CREATEFOLDER F` to a Name
Server with `ss1` and `ss2` active. -/
def state_replicated : NSState :=
  (handle_CREATEFOLDER sample_env
    (handle_CREATE sample_env state_two_ss alice c_txt 100).state alice name_F 110).state

/-! ## REMACCESS and INFO (name_server.c) -/

/-- One removal loop of `REMACCESS` over an ACL array: the first slot that holds the
user is overwritten with the last live slot and the count drops by one; `none`
when no slot holds the user. -/
def acl_remove (user_to_remove : CStr) (users : List CStr) : Option (List CStr) :=
  match users.findIdx? (fun x => streq x user_to_remove) with
  | none => none
  | some i => some ((users.set i (users.getLast?.getD [])).dropLast)

/-- The branch `REMACCESS`: the reply and the directory afterwards. The write
list is searched first, the read list only when the write list has no entry. -/
def handle_REMACCESS (root : FileNode) (username filename user_to_remove : CStr) :
    Reply × FileNode :=
  if filename.length = 0 ∨ user_to_remove.length = 0 then (Reply.ERR_INVALID_ARGS, root)
  else
    match find_file root filename with
    | none => (Reply.ERR_FILE_NOT_FOUND_OR_NOT_OWNER, root)
    | some node =>
        if ¬ streq node.owner username then (Reply.ERR_FILE_NOT_FOUND_OR_NOT_OWNER, root)
        else
          match acl_remove user_to_remove node.write_users with
          | some write_users =>
              (Reply.ACK_REMACCESS,
               update_at (fun d => { d with write_users := write_users }) filename root)
          | none =>
              match acl_remove user_to_remove node.read_users with
              | some read_users =>
                  (Reply.ACK_REMACCESS,
                   update_at (fun d => { d with read_users := read_users }) filename root)
              | none => (Reply.ERR_USER_NOT_IN_ACL, root)

/-- ns_utils.c `traverse_for_folder`: the output buffer after the call.
`strncmp(prefix, folder_prefix, prefix_len) == 0` compares the first `prefix_len`
characters of the two strings. -/
def traverse_for_folder : FileNode → CStr → CStr → Nat → CStr → CStr → CStr
  | FileNode.null, _, _, _, _, output_buffer => output_buffer
  | FileNode.node d ch, cur_path, folder_path, path_len, username, output_buffer =>
      let out1 :=
        if d.is_end_of_word then
          if cur_path.take path_len = folder_path.take path_len then
            let filename_part := cur_path.drop path_len
            if SLASH ∉ filename_part ∧ 0 < filename_part.length then
              if PermissionLevel.PERM_READ.toNat ≤
                  (check_permission (some d) (some username)).toNat then
                output_buffer ++ filename_part ++ (if d.is_folder then [SLASH] else []) ++
                  [NEWLINE]
              else output_buffer
            else output_buffer
          else output_buffer
        else output_buffer
      child_indices.foldl
        (fun out i =>
          traverse_for_folder (ch i) (cur_path ++ [i]) folder_path path_len username out)
        out1

/-- What `list_folder_contents` leaves in the output buffer: one of its three fixed
texts, or the listing. -/
inductive FolderListing where
  | ERR_FOLDER_NOT_FOUND
  | ERR_PERMISSION_DENIED
  | FOLDER_IS_EMPTY
  | listing (text : CStr)
deriving DecidableEq, Repr

/-- ns_utils.c `list_folder_contents`. The search path `foldername/` is built by
`snprintf` into `char folder_prefix[MAX_FILENAME * 2]`. -/
def list_folder_contents (root : FileNode) (foldername username : CStr) : FolderListing :=
  match find_folder root foldername with
  | none => FolderListing.ERR_FOLDER_NOT_FOUND
  | some folder_node =>
      if (check_permission (some folder_node) (some username)).toNat <
          PermissionLevel.PERM_READ.toNat then
        FolderListing.ERR_PERMISSION_DENIED
      else
        let folder_path := (foldername ++ [SLASH]).take (MAX_FILENAME * 2 - 1)
        let output_buffer :=
          traverse_for_folder root [] folder_path folder_path.length username []
        if output_buffer.length = 0 then FolderListing.FOLDER_IS_EMPTY
        else FolderListing.listing output_buffer

/-- The branch `VIEWFOLDER`: `ERR_NO_FOLDERNAME`, or the buffer of
`list_folder_contents`. -/
def handle_VIEWFOLDER (st : NSState) (username foldername : CStr) :
    Reply ⊕ FolderListing :=
  if foldername.length = 0 then Sum.inl Reply.ERR_NO_FOLDERNAME
  else Sum.inr (list_folder_contents st.file_trie_root foldername username)

/-! ## MOVE (name_server.c) -/

/-- The loop of `MOVE` over the replica ids of the source: `moved_count` and the
commands sent. Each active replica first gets `NM_CREATEFOLDER dest` (unless the
destination is `.`) and then `NM_MOVE src dest`. -/
def move_on_replicas (env : Env) (ss_list : List StorageServer)
    (src_path dest_path : CStr) : List CStr → Nat × List SSMsg
  | [] => (0, [])
  | id :: rest =>
      match (get_ss_by_id ss_list id).filter (fun ss => ss.is_active) with
      | none => move_on_replicas env ss_list src_path dest_path rest
      | some ss =>
          ((if env.nm_move_ack ss src_path dest_path then 1 else 0) +
             (move_on_replicas env ss_list src_path dest_path rest).1,
           (if streq dest_path [DOT] then []
            else [SSMsg.mk ss.id (SSCommand.NM_CREATEFOLDER dest_path)]) ++
             SSMsg.mk ss.id (SSCommand.NM_MOVE src_path dest_path) ::
               (move_on_replicas env ss_list src_path dest_path rest).2)

/-- The branch `MOVE`. The storage servers are contacted before `move_file` looks
at the destination. -/
def handle_MOVE (env : Env) (st : NSState) (username src_path dest_path : CStr)
    (now : Int) : Outcome :=
  if src_path.length = 0 ∨ dest_path.length = 0 then ⟨Reply.ERR_INVALID_ARGS, st, []⟩
  else
    match find_file st.file_trie_root src_path with
    | none => ⟨Reply.ERR_FILE_NOT_FOUND, st, []⟩
    | some file_node =>
        if (check_permission (some file_node) (some username)).toNat <
            PermissionLevel.PERM_WRITE.toNat then
          ⟨Reply.ERR_PERMISSION_DENIED, st, []⟩
        else
          let moved := move_on_replicas env st.ss_list src_path dest_path file_node.ss_ids
          if 0 < moved.1 then
            let r := move_file st.file_trie_root src_path dest_path now
            if r.1 ≠ 0 then ⟨Reply.ACK_MOVE, { st with file_trie_root := r.2 }, moved.2⟩
            else ⟨Reply.ERR_MOVE_FAILED, st, moved.2⟩
          else ⟨Reply.ERR_SS_MOVE_FAILED, st, moved.2⟩

/-! ## Task queue of the thread pool (name_server.c) -/

/-- name_server.c: `MAX_QUEUE_SIZE`. -/
def MAX_QUEUE_SIZE : Int := 1000

/-- name_server.c `Task`. -/
structure Task where
  sock : Int
  buffer : CStr
  username : CStr
  is_registration : Int
deriving DecidableEq, Repr

/-- name_server.c `TaskQueue`, without the mutex and the condition variables. -/
structure TaskQueue where
  tasks : Int → Task
  front : Int
  rear : Int
  count : Int

/-- name_server.c `init_task_queue`, applied to the zero-initialised global. -/
def init_task_queue : TaskQueue :=
  { tasks := fun _ => { sock := 0, buffer := [], username := [], is_registration := 0 },
    front := 0, rear := 0, count := 0 }

/-- name_server.c `enqueue_task` as one atomic step: `none` while the caller waits
on `not_full` (`count >= MAX_QUEUE_SIZE`), the queue after the step otherwise. -/
def enqueue_task (q : TaskQueue) (task : Task) : Option TaskQueue :=
  if q.count ≥ MAX_QUEUE_SIZE then none
  else
    some { tasks := Function.update q.tasks q.rear task,
           front := q.front,
           rear := (q.rear + 1) % MAX_QUEUE_SIZE,
           count := q.count + 1 }

/-- What a call of `dequeue_task` does as one atomic step. -/
inductive Dequeued where
  | waiting
  | shutdown
  | task (t : Task) (q : TaskQueue)

/-- name_server.c `dequeue_task` as one atomic step: the caller waits on `not_empty`
while the queue is empty and `shutdown_workers` is clear, gets the task with
`sock = -1` when the queue is empty and `shutdown_workers` is set, and gets
`tasks[front]` otherwise. -/
def dequeue_task (q : TaskQueue) (shutdown_workers : Bool) : Dequeued :=
  if q.count = 0 then
    if shutdown_workers then Dequeued.shutdown else Dequeued.waiting
  else
    Dequeued.task (q.tasks q.front)
      { tasks := q.tasks,
        front := (q.front + 1) % MAX_QUEUE_SIZE,
        rear := q.rear,
        count := q.count - 1 }

/-- The tasks in the queue, oldest first: the `n` slots from index `i` on, with
wrap-around. -/
def queue_slots (tasks : Int → Task) : Nat → Int → List Task
  | 0, _ => []
  | n + 1, i => tasks i :: queue_slots tasks n ((i + 1) % MAX_QUEUE_SIZE)

/-- The content of the queue: the `count` slots from `front` on. -/
def queue_content (q : TaskQueue) : List Task :=
  queue_slots q.tasks q.count.toNat q.front

/-- The queues reachable through `init_task_queue`, `enqueue_task` and
`dequeue_task`, with the tasks enqueued and the tasks dequeued so far, in order. -/
inductive ReachableQueue : TaskQueue → List Task → List Task → Prop
  | init : ReachableQueue init_task_queue [] []
  | by_enqueue (q q1 : TaskQueue) (enq deq : List Task) (task : Task) :
      ReachableQueue q enq deq → enqueue_task q task = some q1 →
      ReachableQueue q1 (enq ++ [task]) deq
  | by_dequeue (q q1 : TaskQueue) (enq deq : List Task) (sd : Bool) (task : Task) :
      ReachableQueue q enq deq → dequeue_task q sd = Dequeued.task task q1 →
      ReachableQueue q1 enq (deq ++ [task])

/-- The user name `carol`. -/
def carol : CStr := [99, 97, 114, 111, 108]

/-- The directory after `alice` has created `c.txt` and sent `ADDACCESS -R c.txt bob`
`MAX_USERS` times: the read list of `c.txt` is full. -/
def root_read_list_full : FileNode :=
  (List.range 50).foldl
    (fun root _ => (handle_ADDACCESS root alice FLAG_R c_txt bob).2)
    state_after_create.file_trie_root

/-- The state after `alice` has sent `CREATE c.txt` to a Name Server with `ss1` and
`ss2` active (replica list `[ss1, ss2]`) and `ss1` has then been marked inactive. -/
def state_primary_down : NSState :=
  { (handle_CREATE sample_env state_two_ss alice c_txt 100).state with
    ss_list := registry_ss1_down }

/-- Storage servers that acknowledge every command; the server with the given id
answers `FILE_LOCKED` to every `NM_CHECK_LOCKS`, the others hold no lock. -/
def env_locked_on (ss_id : CStr) : Env :=
  { sample_env with nm_check_locks := fun ss _ => streq ss.id ss_id }

/-- The state after `alice` has sent `CREATE c.txt` to a Name Server with `ss1` and
`ss2` active: the replica list of `c.txt` is `[ss1, ss2]`. -/
def state_two_replicas : NSState :=
  (handle_CREATE sample_env state_two_ss alice c_txt 100).state

/-- The user name `dave`. -/
def dave : CStr := [100, 97, 118, 101]

/-- The state after `alice` has sent `CREATEFOLDER F`, `CREATE F/b` and
`TRASH F/b`. -/
def state_F_child_trashed : NSState :=
  (handle_TRASH sample_env
    (handle_CREATE sample_env
      (handle_CREATEFOLDER sample_env state_start alice name_F 100).state alice name_F_b
      110).state alice name_F_b 120).state

/-- The state after `alice` has sent `CREATE b`, `CREATEFOLDER F` and `CREATE F/b`. -/
def state_b_F_Fb : NSState :=
  (handle_CREATE sample_env state_b_F alice name_F_b 120).state

/-- The directory in which `alice` has created `c.txt`, granted `bob` READ and
`carol` WRITE access, and the file has then been removed with `delete_file`. -/
def root_deleted_with_acl : FileNode :=
  (delete_file
    (handle_ADDACCESS
      (handle_ADDACCESS (insert_file create_file_node c_txt alice id_ss1 100)
        alice FLAG_R c_txt bob).2
      alice FLAG_W c_txt carol).2 c_txt).2

/-- The directory in which the folder `F` of `alice` has been inserted and then
removed with `delete_file`. -/
def root_deleted_folder : FileNode :=
  (delete_file (insert_folder create_file_node name_F alice id_ss1 100) name_F).2

/-- A registration task on socket 4. -/
def task_a : Task :=
  { sock := 4, buffer := [82, 69, 71], username := [], is_registration := 1 }

/-- A command task of `bob` on socket 5. -/
def task_b : Task :=
  { sock := 5, buffer := [86, 73, 69, 87], username := bob, is_registration := 0 }

/-- The queue after `task_a` has been enqueued on the initial queue. -/
def queue_a : TaskQueue := (enqueue_task init_task_queue task_a).getD init_task_queue

/-- The queue after `task_b` has then been enqueued. -/
def queue_ab : TaskQueue := (enqueue_task queue_a task_b).getD queue_a

/-! ## The listings on arrays of known size (ns_utils.c) and VIEW (name_server.c) -/

/-- config.h `BUFFER_SIZE`. -/
def BUFFER_SIZE : Nat := 1024

/-- `strcat(dest, src)` where `dest` points to an array of `size` bytes: the joined
text and its terminating NUL take `dest.length + src.length + 1` bytes. `strcat`
has no length test; `none` stands for a copy that runs past the end of the array. -/
def strcat_in (size : Nat) (dest src : CStr) : Option CStr :=
  if dest.length + src.length < size then some (dest ++ src) else none

/-- ns_utils.c `traverse_trie_recursive` on arrays of known size: `output_buffer`
points to `out_size` bytes and `current_prefix` to `path_size` bytes. The result
is the output buffer after the call, `none` when a `strcat` or the store
`current_prefix[len + 1] = 0` runs past the end of its array. -/
def traverse_trie_recursive_in (out_size path_size : Nat) :
    FileNode → CStr → Bool → Bool → CStr → CStr → Option CStr
  | FileNode.null, _, _, _, output_buffer, _ => some output_buffer
  | FileNode.node d ch, username, list_all, show_details, output_buffer, cur_path =>
      let out1 : Option CStr :=
        if d.is_end_of_word && !d.is_in_trash then
          if list_all ||
              decide (PermissionLevel.PERM_READ.toNat ≤
                (check_permission (some d) (some username)).toNat) then
            (strcat_in out_size output_buffer cur_path).bind fun o1 =>
              (if d.is_folder then strcat_in out_size o1 [SLASH] else some o1).bind fun o2 =>
                strcat_in out_size o2 [NEWLINE]
          else some output_buffer
        else some output_buffer
      child_indices.foldl
        (fun out i =>
          out.bind fun o =>
            match ch i with
            | FileNode.null => some o
            | FileNode.node _ _ =>
                if cur_path.length + 1 < path_size then
                  traverse_trie_recursive_in out_size path_size (ch i) username list_all
                    show_details o (cur_path ++ [i])
                else none)
        out1

/-- ns_utils.c `list_files` called with an output array of `out_size` bytes; the
prefix is the local `char prefix_buffer[MAX_FILENAME * 2]`. -/
def list_files_in (out_size : Nat) (root : FileNode) (username : CStr)
    (list_all show_details : Bool) : Option CStr :=
  if out_size = 0 then none
  else
    traverse_trie_recursive_in out_size (MAX_FILENAME * 2) root username list_all
      show_details [] []

/-- The branch `VIEW` without `-l`: `list_files` fills
`char file_list_buffer[BUFFER_SIZE * 4]`. The outer `none` stands for a run that
writes past the end of an array; the inner `none` stands for the line
`No files found.`. -/
def handle_VIEW (st : NSState) (username : CStr) (list_all : Bool) : Option (Option CStr) :=
  (list_files_in (BUFFER_SIZE * 4) st.file_trie_root username list_all false).map
    fun file_list_buffer =>
      if file_list_buffer.length = 0 then none else some file_list_buffer

/-- ns_utils.c `list_trash_recursive` on arrays of known size, as
`traverse_trie_recursive_in`. -/
def list_trash_recursive_in (out_size path_size : Nat) :
    FileNode → CStr → CStr → CStr → Option CStr
  | FileNode.null, _, output_buffer, _ => some output_buffer
  | FileNode.node d ch, username, output_buffer, cur_path =>
      let out1 : Option CStr :=
        if d.is_end_of_word && d.is_in_trash then
          if streq d.owner username then
            (strcat_in out_size output_buffer cur_path).bind fun o1 =>
              (if d.is_folder then strcat_in out_size o1 [SLASH] else some o1).bind fun o2 =>
                strcat_in out_size o2 [NEWLINE]
          else some output_buffer
        else some output_buffer
      child_indices.foldl
        (fun out i =>
          out.bind fun o =>
            match ch i with
            | FileNode.null => some o
            | FileNode.node _ _ =>
                if cur_path.length + 1 < path_size then
                  list_trash_recursive_in out_size path_size (ch i) username o
                    (cur_path ++ [i])
                else none)
        out1

/-- ns_utils.c `list_trash` called with an output array of `out_size` bytes. -/
def list_trash_in (out_size : Nat) (root : FileNode) (username : CStr) : Option CStr :=
  if out_size = 0 then none
  else list_trash_recursive_in out_size (MAX_FILENAME * 2) root username [] []

/-- The name made of `k` letters `a`. -/
def name_a (k : Nat) : CStr := List.replicate k 97

/-- The 90 names `a`, `aa`, `aaa`, and so on up to 90 letters. -/
def names_ninety : List CStr := (List.range 90).map (fun k => name_a (k + 1))

/-- The state after `alice` has sent CREATE for each of the 90 names in turn. -/
def state_ninety_files : NSState :=
  names_ninety.foldl (fun st n => (handle_CREATE sample_env st alice n 100).state)
    state_start

/-! ## The inserts on the array `write_users[MAX_USERS]` (ns_utils.c) -/

theorem any_streq_iff (l : List CStr) (u : CStr) :
    l.any (fun w => streq w u) = true ↔ u ∈ l := by
  simp only [List.any_eq_true, streq, beq_iff_eq]
  constructor
  · rintro ⟨w, hw, rfl⟩
    exact hw
  · intro h
    exact ⟨u, h, rfl⟩

/-- C1: `check_permission(node, user)` is `PERM_WRITE` when the user is the owner
or occurs in `write_users`, otherwise `PERM_READ` when the user occurs in
`read_users`, otherwise `PERM_NONE`; and `PERM_NONE` when the node or the
username is `NULL`. -/
theorem check_permission_spec (node : Option NodeData) (username : Option CStr) :
    check_permission node username =
      match node, username with
      | some n, some u =>
          if u = n.owner ∨ u ∈ n.write_users then PermissionLevel.PERM_WRITE
          else if u ∈ n.read_users then PermissionLevel.PERM_READ
          else PermissionLevel.PERM_NONE
      | _, _ => PermissionLevel.PERM_NONE := by
  cases node with
  | none => rfl
  | some n =>
    cases username with
    | none => rfl
    | some u =>
      simp only [check_permission, check_permission_node, any_streq_iff]
      by_cases h1 : u = n.owner
      · simp [h1, streq]
      · have h1b : streq n.owner u = false := by
          simp only [streq, beq_eq_false_iff_ne, ne_eq]
          exact fun h => h1 h.symm
        by_cases h2 : u ∈ n.write_users
        · simp [h1b, h2]
        · by_cases h3 : u ∈ n.read_users
          · simp [h1, h1b, h2, h3]
          · simp [h1, h1b, h2, h3]

/-! ## Redirects -/

theorem get_ss_by_id_active {ss_list : List StorageServer} {ss_id : CStr}
    {ss : StorageServer} (h : get_ss_by_id ss_list ss_id = some ss) :
    ss ∈ ss_list ∧ ss.is_active = true := by
  unfold get_ss_by_id at h
  refine ⟨List.mem_of_find?_eq_some h, ?_⟩
  have h2 := List.find?_some h
  simp only [Bool.and_eq_true] at h2
  exact h2.2

theorem first_active_replica_active {ss_list : List StorageServer} {ids : List CStr}
    {id : CStr} {ss : StorageServer}
    (h : first_active_replica ss_list ids = some (id, ss)) :
    ss ∈ ss_list ∧ ss.is_active = true := by
  induction ids with
  | nil => simp [first_active_replica] at h
  | cons x rest ih =>
    unfold first_active_replica at h
    cases hx : get_ss_by_id ss_list x with
    | none =>
      rw [hx] at h
      exact ih h
    | some s =>
      rw [hx] at h
      have hs := get_ss_by_id_active hx
      simp only [hs.2, if_true, Option.some.injEq, Prod.mk.injEq] at h
      rw [← h.2]
      exact hs

theorem redirect_after_permission_ack {command v : Verb} {perm : PermissionLevel}
    {ip ip1 : CStr} {port port1 : Int}
    (h : redirect_after_permission command perm ip port = Reply.ACK_REDIRECT v ip1 port1) :
    v = command ∧ ip1 = ip ∧ port1 = port ∧
      PermissionLevel.PERM_READ.toNat ≤ perm.toNat ∧
      (command = Verb.WRITE → perm = PermissionLevel.PERM_WRITE) := by
  unfold redirect_after_permission at h
  split_ifs at h with h1 h2
  simp only [Reply.ACK_REDIRECT.injEq] at h
  obtain ⟨hv, hip, hport⟩ := h
  refine ⟨hv.symm, hip.symm, hport.symm, ?_, ?_⟩
  · cases perm <;> cases command <;>
      simp_all [PermissionLevel.toNat]
  · intro hc
    cases perm <;> simp_all [PermissionLevel.toNat]

theorem find_file_some {root : FileNode} {f : CStr} {node : NodeData}
    (h : find_file root f = some node) :
    (walk root f).data = some node ∧ node.is_end_of_word = true ∧
      node.is_in_trash = false := by
  unfold find_file at h
  cases hd : (walk root f).data with
  | none =>
    rw [hd] at h
    cases h
  | some d =>
    rw [hd] at h
    dsimp only at h
    by_cases hc : (d.is_end_of_word && !d.is_in_trash) = true
    · rw [if_pos hc] at h
      cases h
      simp only [Bool.and_eq_true, Bool.not_eq_true'] at hc
      exact ⟨rfl, hc.1, hc.2⟩
    · rw [if_neg hc] at h
      cases h

theorem perm_write_of_not_lt {p : PermissionLevel}
    (h : ¬ p.toNat < PermissionLevel.PERM_WRITE.toNat) : p = PermissionLevel.PERM_WRITE := by
  cases p
  · exact absurd (by decide) h
  · exact absurd (by decide) h
  · rfl

theorem cached_hit_active {st : NSState} {f : CStr} {now : Int} {ss : StorageServer}
    (h : (get_cached_ss st.file_cache st.ss_list f now).1.filter (fun s => s.is_active) =
      some ss) :
    ss ∈ st.ss_list ∧ ss.is_active = true := by
  cases hc : (get_cached_ss st.file_cache st.ss_list f now).1 with
  | none =>
    rw [hc] at h
    cases h
  | some s0 =>
    rw [hc] at h
    have hs0 : s0 ∈ st.ss_list ∧ s0.is_active = true := by
      unfold get_cached_ss at hc
      dsimp only at hc
      split_ifs at hc
      · exact get_ss_by_id_active hc
    simp only [Option.filter, hs0.2, if_true, Option.some.injEq] at h
    rw [← h]
    exact hs0

theorem rsw_redirect {st : NSState} {command v : Verb} {u f ip : CStr} {now port : Int}
    (h : (handle_READ_STREAM_WRITE st command u f now).reply = Reply.ACK_REDIRECT v ip port) :
    v = command ∧
    ∃ node, find_file st.file_trie_root f = some node ∧
      PermissionLevel.PERM_READ.toNat ≤ (check_permission (some node) (some u)).toNat ∧
      (command = Verb.WRITE →
        check_permission (some node) (some u) = PermissionLevel.PERM_WRITE) ∧
      ∃ ss ∈ st.ss_list, ss.is_active = true ∧ ss.ip = ip ∧ ss.client_port = port := by
  unfold handle_READ_STREAM_WRITE at h
  by_cases hlen : f.length = 0
  · rw [if_pos hlen] at h
    cases h
  · rw [if_neg hlen] at h
    dsimp only at h
    cases hhit : (get_cached_ss st.file_cache st.ss_list f now).1.filter
        (fun s => s.is_active) with
    | some ss =>
      rw [hhit] at h
      dsimp only at h
      have hact := cached_hit_active hhit
      cases hnode : find_file st.file_trie_root f with
      | none =>
        rw [hnode] at h
        simp at h
      | some node =>
        rw [hnode] at h
        dsimp only at h
        by_cases hperm : check_permission (some node) (some u) = PermissionLevel.PERM_NONE
        · rw [if_pos hperm] at h
          cases h
        · rw [if_neg hperm] at h
          obtain ⟨hv, hip, hport, hread, hw⟩ := redirect_after_permission_ack h
          exact ⟨hv, node, rfl, hread, hw, ss, hact.1, hact.2, hip.symm, hport.symm⟩
    | none =>
      rw [hhit] at h
      dsimp only at h
      cases hnode : find_file st.file_trie_root f with
      | none =>
        rw [hnode] at h
        cases h
      | some node =>
        rw [hnode] at h
        dsimp only at h
        cases hrep : first_active_replica st.ss_list node.ss_ids with
        | none =>
          rw [hrep] at h
          cases h
        | some r =>
          obtain ⟨id, ss⟩ := r
          rw [hrep] at h
          dsimp only at h
          have hact := first_active_replica_active hrep
          obtain ⟨hv, hip, hport, hread, hw⟩ := redirect_after_permission_ack h
          exact ⟨hv, node, rfl, hread, hw, ss, hact.1, hact.2, hip.symm, hport.symm⟩

theorem undo_redirect {st : NSState} {v : Verb} {u f ip : CStr} {port : Int}
    (h : (handle_UNDO st u f).reply = Reply.ACK_REDIRECT v ip port) :
    v = Verb.UNDO ∧
    ∃ node, find_file st.file_trie_root f = some node ∧
      check_permission (some node) (some u) = PermissionLevel.PERM_WRITE ∧
      ∃ ss ∈ st.ss_list, ss.is_active = true ∧ ss.ip = ip ∧ ss.client_port = port := by
  unfold handle_UNDO at h
  cases hnode : find_file st.file_trie_root f with
  | none =>
    rw [hnode] at h
    cases h
  | some node =>
    rw [hnode] at h
    dsimp only at h
    by_cases hperm : (check_permission (some node) (some u)).toNat <
        PermissionLevel.PERM_WRITE.toNat
    · rw [if_pos hperm] at h
      cases h
    · rw [if_neg hperm] at h
      cases hss : get_ss_by_id st.ss_list (node.ss_ids.headD []) with
      | none =>
        rw [hss] at h
        cases h
      | some ss =>
        rw [hss] at h
        dsimp only at h
        have hact := get_ss_by_id_active hss
        rw [if_pos hact.2] at h
        simp only [Reply.ACK_REDIRECT.injEq] at h
        exact ⟨h.1.symm, node, rfl, perm_write_of_not_lt hperm, ss, hact.1, hact.2,
          h.2.1, h.2.2⟩

theorem checkpoint_redirect {st : NSState} {command v : Verb} {u f ip : CStr} {port : Int}
    (hcmd : command = Verb.CHECKPOINT ∨ command = Verb.REVERT ∨
      command = Verb.VIEWCHECKPOINT ∨ command = Verb.LISTCHECKPOINTS)
    (h : (handle_CHECKPOINT_family st command u f).reply = Reply.ACK_REDIRECT v ip port) :
    v = command ∧
    ∃ node, find_file st.file_trie_root f = some node ∧
      PermissionLevel.PERM_READ.toNat ≤ (check_permission (some node) (some u)).toNat ∧
      (command = Verb.CHECKPOINT ∨ command = Verb.REVERT →
        check_permission (some node) (some u) = PermissionLevel.PERM_WRITE) ∧
      ∃ ss ∈ st.ss_list, ss.is_active = true ∧ ss.ip = ip ∧ ss.client_port = port := by
  unfold handle_CHECKPOINT_family at h
  by_cases hlen : f.length = 0
  · rw [if_pos hlen] at h
    cases h
  · rw [if_neg hlen] at h
    cases hnode : find_file st.file_trie_root f with
    | none =>
      rw [hnode] at h
      cases h
    | some node =>
      rw [hnode] at h
      dsimp only at h
      have hverb : (if command = Verb.CHECKPOINT then Verb.CHECKPOINT
          else if command = Verb.REVERT then Verb.REVERT
          else if command = Verb.VIEWCHECKPOINT then Verb.VIEWCHECKPOINT
          else Verb.LISTCHECKPOINTS) = command := by
        rcases hcmd with hcmd | hcmd | hcmd | hcmd <;> subst hcmd <;> simp
      rw [hverb] at h
      by_cases hperm :
          (decide (command = Verb.CHECKPOINT ∨ command = Verb.REVERT) = true ∧
            (check_permission (some node) (some u)).toNat <
              PermissionLevel.PERM_WRITE.toNat) ∨
          (¬ decide (command = Verb.CHECKPOINT ∨ command = Verb.REVERT) = true ∧
            (check_permission (some node) (some u)).toNat <
              PermissionLevel.PERM_READ.toNat)
      · rw [if_pos hperm] at h
        cases h
      · rw [if_neg hperm] at h
        cases hss : get_ss_by_id st.ss_list (node.ss_ids.headD []) with
        | none =>
          rw [hss] at h
          cases h
        | some ss =>
          rw [hss] at h
          dsimp only at h
          have hact := get_ss_by_id_active hss
          rw [if_pos hact.2] at h
          simp only [Reply.ACK_REDIRECT.injEq] at h
          obtain ⟨hv, hip, hport⟩ := h
          have hp := not_or.mp hperm
          simp only [decide_eq_true_eq, not_and] at hp
          refine ⟨hv.symm, node, rfl, ?_, ?_, ss, hact.1, hact.2, hip, hport⟩
          · by_cases hnw : command = Verb.CHECKPOINT ∨ command = Verb.REVERT
            · have h2 := perm_write_of_not_lt (hp.1 hnw)
              rw [h2]
              decide
            · exact Nat.le_of_not_lt (hp.2 hnw)
          · intro hnw
            exact perm_write_of_not_lt (hp.1 hnw)

/-- C2: a redirect is returned only after every check has succeeded. Whenever the
reply to READ, STREAM, WRITE, UNDO, CHECKPOINT, REVERT, VIEWCHECKPOINT or
LISTCHECKPOINTS from user `u` on name `f` is a redirect `ACK_<verb> <ip> <port>`,
the name resolves to a node that is not in trash, `check_permission` gives at
least `PERM_READ` on it (`PERM_WRITE` for WRITE, UNDO, CHECKPOINT and REVERT), and
the redirect names the address of a registered storage server that is active. -/
theorem redirect_only_after_checks (st : NSState) (command : Verb) (u f : CStr)
    (now : Int) (v : Verb) (ip : CStr) (port : Int)
    (h : (handle_redirect_command st command u f now).reply = Reply.ACK_REDIRECT v ip port) :
    v = command ∧
    ∃ node, find_file st.file_trie_root f = some node ∧
      node.is_end_of_word = true ∧ node.is_in_trash = false ∧
      PermissionLevel.PERM_READ.toNat ≤ (check_permission (some node) (some u)).toNat ∧
      ((command = Verb.WRITE ∨ command = Verb.UNDO ∨ command = Verb.CHECKPOINT ∨
          command = Verb.REVERT) →
        check_permission (some node) (some u) = PermissionLevel.PERM_WRITE) ∧
      ∃ ss ∈ st.ss_list, ss.is_active = true ∧ ss.ip = ip ∧ ss.client_port = port := by
  cases command with
  | READ =>
    obtain ⟨hv, node, hn, hr, _, hss⟩ := rsw_redirect h
    exact ⟨hv, node, hn, (find_file_some hn).2.1, (find_file_some hn).2.2, hr,
      fun hc => by simp at hc, hss⟩
  | STREAM =>
    obtain ⟨hv, node, hn, hr, _, hss⟩ := rsw_redirect h
    exact ⟨hv, node, hn, (find_file_some hn).2.1, (find_file_some hn).2.2, hr,
      fun hc => by simp at hc, hss⟩
  | WRITE =>
    obtain ⟨hv, node, hn, hr, hw, hss⟩ := rsw_redirect h
    exact ⟨hv, node, hn, (find_file_some hn).2.1, (find_file_some hn).2.2, hr,
      fun _ => hw rfl, hss⟩
  | UNDO =>
    obtain ⟨hv, node, hn, hw, hss⟩ := undo_redirect h
    refine ⟨hv, node, hn, (find_file_some hn).2.1, (find_file_some hn).2.2, ?_,
      fun _ => hw, hss⟩
    rw [hw]
    decide
  | CHECKPOINT =>
    obtain ⟨hv, node, hn, hr, hw, hss⟩ := checkpoint_redirect (Or.inl rfl) h
    exact ⟨hv, node, hn, (find_file_some hn).2.1, (find_file_some hn).2.2, hr,
      fun _ => hw (Or.inl rfl), hss⟩
  | REVERT =>
    obtain ⟨hv, node, hn, hr, hw, hss⟩ := checkpoint_redirect (Or.inr (Or.inl rfl)) h
    exact ⟨hv, node, hn, (find_file_some hn).2.1, (find_file_some hn).2.2, hr,
      fun _ => hw (Or.inr rfl), hss⟩
  | VIEWCHECKPOINT =>
    obtain ⟨hv, node, hn, hr, _, hss⟩ :=
      checkpoint_redirect (Or.inr (Or.inr (Or.inl rfl))) h
    exact ⟨hv, node, hn, (find_file_some hn).2.1, (find_file_some hn).2.2, hr,
      fun hc => by simp at hc, hss⟩
  | LISTCHECKPOINTS =>
    obtain ⟨hv, node, hn, hr, _, hss⟩ :=
      checkpoint_redirect (Or.inr (Or.inr (Or.inr rfl))) h
    exact ⟨hv, node, hn, (find_file_some hn).2.1, (find_file_some hn).2.2, hr,
      fun hc => by simp at hc, hss⟩

/-- C2, worked instance: `alice` reads her own `c.txt` right after creating it and is
redirected to `ss1`. -/
theorem redirect_only_after_checks_witness :
    (handle_redirect_command state_after_create Verb.READ alice c_txt 101).reply =
        Reply.ACK_REDIRECT Verb.READ localhost 9001 ∧
    (Verb.READ = Verb.READ ∧
      ∃ node, find_file state_after_create.file_trie_root c_txt = some node ∧
        node.is_end_of_word = true ∧ node.is_in_trash = false ∧
        PermissionLevel.PERM_READ.toNat ≤
          (check_permission (some node) (some alice)).toNat ∧
        ((Verb.READ = Verb.WRITE ∨ Verb.READ = Verb.UNDO ∨ Verb.READ = Verb.CHECKPOINT ∨
            Verb.READ = Verb.REVERT) →
          check_permission (some node) (some alice) = PermissionLevel.PERM_WRITE) ∧
        ∃ ss ∈ state_after_create.ss_list,
          ss.is_active = true ∧ ss.ip = localhost ∧ ss.client_port = 9001) :=
  ⟨by decide,
   redirect_only_after_checks state_after_create Verb.READ alice c_txt 101 Verb.READ
     localhost 9001 (by decide)⟩

/-- C3: the scenario of the claim, run on the handlers. `alice` creates `c.txt`
(`ACK_CREATE`, which caches the file); `bob` has no permission on it; his first
READ, one second later, hits the cache and is answered `ERR_FILE_NOT_FOUND`
instead of `ERR_READ_PERMISSION_DENIED`. -/
theorem read_without_permission_after_create :
    (handle_CREATE sample_env state_start alice c_txt 100).reply = Reply.ACK_CREATE ∧
    (find_file state_after_create.file_trie_root c_txt).map
        (fun node => (node.is_in_trash, check_permission (some node) (some bob))) =
      some (false, PermissionLevel.PERM_NONE) ∧
    (handle_redirect_command state_after_create Verb.READ bob c_txt 101).reply =
      Reply.ERR_FILE_NOT_FOUND ∧
    (handle_redirect_command state_after_create Verb.READ bob c_txt 101).reply ≠
      Reply.ERR_READ_PERMISSION_DENIED := by
  decide

/-- On a cache hit, READ, STREAM and WRITE from a user without permission on an
existing file are answered `ERR_FILE_NOT_FOUND`. -/
theorem rsw_cache_hit_without_permission (st : NSState) (command : Verb) (u f : CStr)
    (now : Int) (ss : StorageServer) (d : NodeData) (hlen : f.length ≠ 0)
    (hhit : (get_cached_ss st.file_cache st.ss_list f now).1 = some ss)
    (hf : find_file st.file_trie_root f = some d)
    (hperm : check_permission (some d) (some u) = PermissionLevel.PERM_NONE) :
    (handle_READ_STREAM_WRITE st command u f now).reply = Reply.ERR_FILE_NOT_FOUND := by
  have hact : ss.is_active = true := by
    unfold get_cached_ss at hhit
    dsimp only at hhit
    split_ifs at hhit
    · exact (get_ss_by_id_active hhit).2
  unfold handle_READ_STREAM_WRITE
  rw [if_neg hlen]
  simp only [hhit, Option.filter, hact, if_true, hf, hperm]

/-- Without a usable cache entry and with an active replica, READ from a user
without permission is answered `ERR_READ_PERMISSION_DENIED`. -/
theorem read_cache_miss_without_permission (st : NSState) (u f : CStr) (now : Int)
    (d : NodeData) (r : CStr × StorageServer) (hlen : f.length ≠ 0)
    (hmiss : (get_cached_ss st.file_cache st.ss_list f now).1 = none)
    (hf : find_file st.file_trie_root f = some d)
    (hperm : check_permission (some d) (some u) = PermissionLevel.PERM_NONE)
    (hrep : first_active_replica st.ss_list d.ss_ids = some r) :
    (handle_READ_STREAM_WRITE st Verb.READ u f now).reply =
      Reply.ERR_READ_PERMISSION_DENIED := by
  unfold handle_READ_STREAM_WRITE
  rw [if_neg hlen]
  simp only [hmiss, Option.filter, hf, hperm, hrep]
  rfl

/-! ## Walking, creating and updating nodes -/

theorem walk_null (q : CStr) : walk FileNode.null q = FileNode.null := by
  cases q <;> rfl

theorem node_at_null (q : CStr) : node_at FileNode.null q = NodeData.zero := by
  simp [node_at, walk_null, FileNode.data]

theorem node_at_nil (d : NodeData) (ch : CChar → FileNode) :
    node_at (FileNode.node d ch) [] = d := rfl

theorem node_at_cons (d : NodeData) (ch : CChar → FileNode) (c : CChar) (cs : CStr) :
    node_at (FileNode.node d ch) (c :: cs) = node_at (ch c) cs := rfl

theorem node_at_create_file_node (q : CStr) : node_at create_file_node q = NodeData.zero := by
  cases q with
  | nil => rfl
  | cons c cs =>
    unfold create_file_node
    rw [node_at_cons, node_at_null]

theorem find_file_any_status_eq (root : FileNode) (q : CStr) :
    find_file_any_status root q =
      if (node_at root q).is_end_of_word then some (node_at root q) else none := by
  unfold find_file_any_status node_at
  cases (walk root q).data with
  | none => simp [NodeData.zero]
  | some d => simp

theorem find_file_eq (root : FileNode) (q : CStr) :
    find_file root q =
      if (node_at root q).is_end_of_word && !(node_at root q).is_in_trash then
        some (node_at root q)
      else none := by
  unfold find_file node_at
  cases (walk root q).data with
  | none => simp [NodeData.zero]
  | some d => simp

theorem walk_create_ne_null (f : NodeData → NodeData) (p : CStr) (d : NodeData)
    (ch : CChar → FileNode) : walk_create f p (FileNode.node d ch) ≠ FileNode.null := by
  cases p <;> simp [walk_create]

/-- The fields stored for each name after the walk of an insert. -/
theorem node_at_walk_create (f : NodeData → NodeData) (p : CStr) :
    ∀ (t : FileNode) (q : CStr), t ≠ FileNode.null →
      node_at (walk_create f p t) q = if q = p then f (node_at t p) else node_at t q := by
  induction p with
  | nil =>
    intro t q ht
    cases t with
    | null => exact absurd rfl ht
    | node d ch =>
      cases q with
      | nil => simp [walk_create, node_at_nil]
      | cons c cs => simp [walk_create, node_at_cons]
  | cons c cs ih =>
    intro t q ht
    cases t with
    | null => exact absurd rfl ht
    | node d ch =>
      cases q with
      | nil => simp [walk_create, node_at_nil]
      | cons c1 cs1 =>
        simp only [walk_create, node_at_cons]
        by_cases hc : c1 = c
        · subst hc
          simp only [Function.update_same, List.cons.injEq, true_and]
          cases hch : ch c1 with
          | null =>
            simp only
            rw [ih create_file_node cs1 (by simp [create_file_node]),
              node_at_create_file_node, node_at_create_file_node, node_at_null, node_at_null]
          | node d1 ch1 =>
            simp only
            rw [ih (FileNode.node d1 ch1) cs1 (by simp)]
        · simp [Function.update_noteq hc, hc]

/-- The fields stored for each name after a write through a found pointer. -/
theorem data_walk_update_at (f : NodeData → NodeData) (p : CStr) :
    ∀ (t : FileNode) (q : CStr),
      (walk (update_at f p t) q).data =
        if q = p then ((walk t p).data).map f else (walk t q).data := by
  induction p with
  | nil =>
    intro t q
    cases t with
    | null => simp [update_at, walk_null, FileNode.data]
    | node d ch =>
      cases q with
      | nil => simp [update_at, walk, FileNode.data]
      | cons c cs => simp [update_at, walk]
  | cons c cs ih =>
    intro t q
    cases t with
    | null => simp [update_at, walk_null, FileNode.data]
    | node d ch =>
      cases q with
      | nil => simp [update_at, walk, FileNode.data]
      | cons c1 cs1 =>
        simp only [update_at, walk]
        by_cases hc : c1 = c
        · subst hc
          simp only [Function.update_same, List.cons.injEq, true_and]
          exact ih (ch c1) cs1
        · simp [Function.update_noteq hc, hc]

theorem node_at_update_at (f : NodeData → NodeData) (p : CStr) (t : FileNode) (q : CStr)
    (hp : (walk t p).data ≠ none) :
    node_at (update_at f p t) q = if q = p then f (node_at t p) else node_at t q := by
  unfold node_at
  rw [data_walk_update_at]
  by_cases hq : q = p
  · subst hq
    cases hd : (walk t q).data with
    | none => exact absurd hd hp
    | some d => simp
  · simp [hq]

theorem update_at_ne_null (f : NodeData → NodeData) (p : CStr) (d : NodeData)
    (ch : CChar → FileNode) : update_at f p (FileNode.node d ch) ≠ FileNode.null := by
  cases p <;> simp [update_at]

/-! ## Listings depend on terminal nodes only -/

theorem find_file_any_status_cons (d : NodeData) (ch : CChar → FileNode) (c : CChar)
    (q : CStr) :
    find_file_any_status (FileNode.node d ch) (c :: q) = find_file_any_status (ch c) q := rfl

theorem find_file_any_status_null (q : CStr) :
    find_file_any_status FileNode.null q = none := by
  simp [find_file_any_status, walk_null, FileNode.data]

theorem find_file_any_status_nil (d : NodeData) (ch : CChar → FileNode) :
    find_file_any_status (FileNode.node d ch) [] =
      if d.is_end_of_word then some d else none := rfl

theorem trash_on_terminals_create_file_node : TrashOnTerminalsOnly create_file_node := by
  intro name h
  rw [node_at_create_file_node] at h
  simp [NodeData.zero] at h

theorem trash_on_terminals_walk_create (f : NodeData → NodeData)
    (hf : ∀ d, (f d).is_end_of_word = true) (p : CStr) (t : FileNode)
    (ht : t ≠ FileNode.null) (h : TrashOnTerminalsOnly t) :
    TrashOnTerminalsOnly (walk_create f p t) := by
  intro name
  rw [node_at_walk_create f p t name ht]
  by_cases hn : name = p
  · simp only [hn, if_true]
    intro _
    exact hf _
  · simp only [hn, if_false]
    exact h name

theorem trash_on_terminals_insert_file (t : FileNode) (n owner ss_id : CStr) (now : Int)
    (ht : t ≠ FileNode.null) (h : TrashOnTerminalsOnly t) :
    TrashOnTerminalsOnly (insert_file t n owner ss_id now) :=
  trash_on_terminals_walk_create _ (fun _ => rfl) n t ht h

theorem trash_on_terminals_insert_file_with_replicas (t : FileNode) (n owner : CStr)
    (ss_ids : List CStr) (now : Int) (ht : t ≠ FileNode.null)
    (h : TrashOnTerminalsOnly t) :
    TrashOnTerminalsOnly (insert_file_with_replicas t n owner ss_ids now) :=
  trash_on_terminals_walk_create _ (fun _ => rfl) n t ht h

theorem trash_on_terminals_insert_folder (t : FileNode) (n owner ss_id : CStr) (now : Int)
    (ht : t ≠ FileNode.null) (h : TrashOnTerminalsOnly t) :
    TrashOnTerminalsOnly (insert_folder t n owner ss_id now) :=
  trash_on_terminals_walk_create _ (fun _ => rfl) n t ht h

theorem trash_on_terminals_delete_file (t : FileNode) (n : CStr)
    (h : TrashOnTerminalsOnly t) : TrashOnTerminalsOnly (delete_file t n).2 := by
  unfold delete_file
  cases hf : find_file t n with
  | none => exact h
  | some d =>
    have hd := find_file_some hf
    intro name
    simp only
    rw [node_at_update_at _ n t name (by rw [hd.1]; simp)]
    by_cases hn : name = n
    · simp only [hn, if_true]
      have : node_at t n = d := by
        unfold node_at
        rw [hd.1]
        rfl
      rw [this, hd.2.2]
      intro hc
      cases hc
    · simp only [hn, if_false]
      exact h name

/-! ## CREATE then DELETE -/

theorem walk_nil (t : FileNode) : walk t [] = t := by
  cases t <;> rfl

theorem walk_append (t : FileNode) (p q : CStr) : walk t (p ++ q) = walk (walk t p) q := by
  induction p generalizing t with
  | nil => rw [walk_nil, List.nil_append]
  | cons c cs ih =>
    cases t with
    | null => simp [walk, walk_null]
    | node d ch => exact ih (ch c)

theorem walk_snoc_node {root : FileNode} {pre : CStr} {d : NodeData} {ch : CChar → FileNode}
    (h : walk root pre = FileNode.node d ch) (i : CChar) : walk root (pre ++ [i]) = ch i := by
  rw [walk_append, h]
  simp only [walk]

theorem foldl_invariant {α β : Type} (P : α → Prop) (g : α → β → α) (l : List β) (a : α)
    (ha : P a) (h : ∀ x b, P x → P (g x b)) : P (l.foldl g a) := by
  induction l generalizing a with
  | nil => exact ha
  | cons b rest ih => exact ih (g a b) (h a b ha)

/-- Every name that the EMPTYTRASH collector adds is the name of a node in trash,
which `find_file` does not return. -/
theorem empty_trash_helper_collects_trashed (root : FileNode) (username : CStr) :
    ∀ (t : FileNode) (pre : CStr) (files : List CStr), walk root pre = t →
      (∀ n ∈ files, find_file root n = none) →
      ∀ n ∈ empty_trash_recursive_helper t username files pre, find_file root n = none := by
  intro t
  induction t with
  | null =>
    intro pre files _ hfiles
    exact hfiles
  | node d ch ih =>
    intro pre files hwalk hfiles
    simp only [empty_trash_recursive_helper]
    by_cases hfull : MAX_CLIENTS ≤ files.length
    · rw [if_pos hfull]
      exact hfiles
    · rw [if_neg hfull]
      apply foldl_invariant (fun fs : List CStr => ∀ n ∈ fs, find_file root n = none)
      · by_cases hc : (d.is_end_of_word && d.is_in_trash && streq d.owner username) = true
        · rw [if_pos hc]
          intro n hn
          rcases List.mem_append.mp hn with hn | hn
          · exact hfiles n hn
          · rw [List.mem_singleton.mp hn]
            simp only [Bool.and_eq_true] at hc
            unfold find_file
            rw [hwalk]
            simp [FileNode.data, hc.1.2]
        · rw [if_neg hc]
          exact hfiles
      · intro fs i hfs
        exact ih i (pre ++ [i]) fs (walk_snoc_node hwalk i) hfs

theorem empty_trash_loop_keeps_root (ss_list : List StorageServer) (root : FileNode) :
    ∀ (names : List CStr) (deleted_count : Nat) (sent : List SSMsg),
      (∀ n ∈ names, find_file root n = none) →
      (empty_trash_loop ss_list names root deleted_count sent).1 = root := by
  intro names
  induction names with
  | nil =>
    intro _ _ _
    rfl
  | cons name rest ih =>
    intro deleted_count sent h
    have hname : find_file root name = none := h name (List.mem_cons_self _ _)
    have hrest : ∀ n ∈ rest, find_file root n = none :=
      fun n hn => h n (List.mem_cons_of_mem _ hn)
    simp only [empty_trash_loop]
    cases find_file_any_status root name with
    | none => exact ih deleted_count sent hrest
    | some node =>
      simp only
      have hdel : (delete_file root name).2 = root := by
        unfold delete_file
        rw [hname]
      rw [hdel]
      exact ih _ _ hrest

/-- EMPTYTRASH never changes the directory. -/
theorem handle_EMPTYTRASH_keeps_directory (st : NSState) (username : CStr) :
    (handle_EMPTYTRASH st username).state.file_trie_root = st.file_trie_root := by
  unfold handle_EMPTYTRASH
  simp only
  apply empty_trash_loop_keeps_root
  apply empty_trash_helper_collects_trashed st.file_trie_root username st.file_trie_root []
    [] (walk_nil _)
  intro n hn
  cases hn

set_option maxRecDepth 1000000 in
/-- C5: `alice` creates `c.txt` and trashes it (`ACK_TRASHED`); her EMPTYTRASH then
answers that one file was permanently deleted and tells `ss1` to delete the
bytes, yet the node is still in the directory: `find_file_any_status` still
returns it, VIEWTRASH still lists `c.txt`, and CREATE `c.txt` is still refused
with `ERR_FILE_IN_TRASH`. -/
theorem emptytrash_leaves_trashed_node :
    (handle_TRASH sample_env state_after_create alice c_txt 200).reply = Reply.ACK_TRASHED ∧
    (find_file_any_status state_after_trash.file_trie_root c_txt).map
        (fun d => (d.owner, d.is_in_trash)) = some (alice, true) ∧
    (handle_EMPTYTRASH state_after_trash alice).reply = Reply.ACK_EMPTYTRASH 1 ∧
    (handle_EMPTYTRASH state_after_trash alice).sent =
      [SSMsg.mk id_ss1 (SSCommand.NM_DELETE c_txt)] ∧
    (find_file_any_status (handle_EMPTYTRASH state_after_trash alice).state.file_trie_root
        c_txt).map (fun d => (d.owner, d.is_in_trash)) = some (alice, true) ∧
    handle_VIEWTRASH (handle_EMPTYTRASH state_after_trash alice).state alice =
      some (c_txt ++ [NEWLINE]) ∧
    (handle_CREATE sample_env (handle_EMPTYTRASH state_after_trash alice).state alice c_txt
        300).reply = Reply.ERR_FILE_IN_TRASH := by
  decide

/-! ## TRASH, RESTORE, DELETE -/

theorem find_file_any_status_some {root : FileNode} {f : CStr} {d : NodeData}
    (h : find_file_any_status root f = some d) :
    (walk root f).data = some d ∧ d.is_end_of_word = true := by
  unfold find_file_any_status at h
  cases hd : (walk root f).data with
  | none =>
    rw [hd] at h
    cases h
  | some d0 =>
    rw [hd] at h
    dsimp only at h
    by_cases hc : d0.is_end_of_word = true
    · rw [if_pos hc] at h
      cases h
      exact ⟨rfl, hc⟩
    · rw [if_neg hc] at h
      cases h

theorem find_file_of_any_status {root : FileNode} {f : CStr} {d : NodeData}
    (h : find_file_any_status root f = some d) :
    find_file root f = if d.is_in_trash then none else some d := by
  have hd := find_file_any_status_some h
  unfold find_file
  rw [hd.1]
  cases ht : d.is_in_trash <;> simp [hd.2, ht]

theorem find_file_any_status_of_find_file {root : FileNode} {f : CStr} {d : NodeData}
    (h : find_file root f = some d) : find_file_any_status root f = some d := by
  have hd := find_file_some h
  unfold find_file_any_status
  rw [hd.1]
  simp [hd.2.1]

theorem handle_TRASH_ok (env : Env) (st : NSState) (u f : CStr) (now : Int) (d : NodeData)
    (hany : find_file_any_status st.file_trie_root f = some d)
    (hown : d.owner = u) (htrash : d.is_in_trash = false) (hfile : d.is_folder = false)
    (hunlocked : ∀ ss, env.nm_check_locks ss f = false) :
    (handle_TRASH env st u f now).reply = Reply.ACK_TRASHED ∧
    (handle_TRASH env st u f now).state =
      { st with file_trie_root :=
          (update_at (fun d => { d with is_in_trash := true, last_modified := now })
            f st.file_trie_root) } := by
  unfold handle_TRASH
  rw [hany]
  simp only [streq, hown, beq_self_eq_true, not_true_eq_false, if_false, htrash, hfile,
    Bool.false_eq_true]
  cases d.ss_ids with
  | nil => exact ⟨rfl, rfl⟩
  | cons primary rest =>
    simp only
    cases get_ss_by_id st.ss_list primary with
    | none => exact ⟨rfl, rfl⟩
    | some ss =>
      simp only [hunlocked ss, Bool.false_eq_true, if_false]
      simp

theorem handle_RESTORE_ok (st : NSState) (u f : CStr) (now : Int) (d : NodeData)
    (hany : find_file_any_status st.file_trie_root f = some d)
    (hown : d.owner = u) (htrash : d.is_in_trash = true) :
    (handle_RESTORE st u f now).reply = Reply.ACK_RESTORED ∧
    (handle_RESTORE st u f now).state =
      { st with file_trie_root :=
          (update_at (fun d => { d with is_in_trash := false, last_modified := now })
            f st.file_trie_root) } := by
  unfold handle_RESTORE
  rw [hany]
  simp only [streq, hown, beq_self_eq_true, not_true_eq_false, if_false, htrash]
  simp

/-- C6: TRASH then RESTORE is the identity on the node except for `last_modified`.
For every file `f` that is not a folder, not in trash, unlocked and owned by `u`,
TRASH `f` replies `ACK_TRASHED`, RESTORE `f` replies `ACK_RESTORED`, and afterwards
the node of `f` has the same owner, replica list, `read_users`, `write_users`,
size, `creation_time` and `is_folder` as before, is not in trash, and only its
`last_modified` has changed; the fields of every other node are unchanged. -/
theorem trash_then_restore_identity (env : Env) (st : NSState) (u f : CStr)
    (now1 now2 : Int) (d : NodeData)
    (hf : find_file st.file_trie_root f = some d)
    (hown : d.owner = u) (hfile : d.is_folder = false)
    (hunlocked : ∀ ss, env.nm_check_locks ss f = false) :
    (handle_TRASH env st u f now1).reply = Reply.ACK_TRASHED ∧
    (handle_RESTORE (handle_TRASH env st u f now1).state u f now2).reply =
      Reply.ACK_RESTORED ∧
    find_file_any_status
        (handle_RESTORE (handle_TRASH env st u f now1).state u f now2).state.file_trie_root f =
      some { d with last_modified := now2 } ∧
    d.is_in_trash = false ∧
    (∀ g, g ≠ f →
      (walk (handle_RESTORE (handle_TRASH env st u f now1).state u f
          now2).state.file_trie_root g).data =
        (walk st.file_trie_root g).data) := by
  have hd := find_file_some hf
  have hany := find_file_any_status_of_find_file hf
  obtain ⟨hr1, hs1⟩ := handle_TRASH_ok env st u f now1 d hany hown hd.2.2 hfile hunlocked
  have hw1 : (walk (handle_TRASH env st u f now1).state.file_trie_root f).data =
      some { d with is_in_trash := true, last_modified := now1 } := by
    rw [hs1]
    simp only
    rw [data_walk_update_at, if_pos rfl, hd.1]
    rfl
  have hany1 : find_file_any_status (handle_TRASH env st u f now1).state.file_trie_root f =
      some { d with is_in_trash := true, last_modified := now1 } := by
    unfold find_file_any_status
    rw [hw1]
    simp [hd.2.1]
  obtain ⟨hr2, hs2⟩ := handle_RESTORE_ok (handle_TRASH env st u f now1).state u f now2 _
    hany1 hown rfl
  refine ⟨hr1, hr2, ?_, hd.2.2, ?_⟩
  · unfold find_file_any_status
    rw [hs2]
    simp only
    rw [data_walk_update_at, if_pos rfl, hw1]
    simp only [Option.map_some', hd.2.1, if_true, Option.some.injEq]
    cases d
    simp only [NodeData.mk.injEq, and_true, true_and]
    simp only at hd
    exact hd.2.2.symm
  · intro g hg
    rw [hs2]
    simp only
    rw [data_walk_update_at, if_neg hg, hs1]
    simp only
    rw [data_walk_update_at, if_neg hg]

/-- C6, worked instance: `alice` trashes and restores her `c.txt`. -/
theorem trash_then_restore_identity_witness :
    (find_file state_after_create.file_trie_root c_txt =
        some (node_at state_after_create.file_trie_root c_txt) ∧
      (node_at state_after_create.file_trie_root c_txt).owner = alice ∧
      (node_at state_after_create.file_trie_root c_txt).is_folder = false) ∧
    ((handle_TRASH sample_env state_after_create alice c_txt 200).reply = Reply.ACK_TRASHED ∧
     (handle_RESTORE (handle_TRASH sample_env state_after_create alice c_txt 200).state alice
        c_txt 300).reply = Reply.ACK_RESTORED ∧
     find_file_any_status
        (handle_RESTORE (handle_TRASH sample_env state_after_create alice c_txt 200).state
          alice c_txt 300).state.file_trie_root c_txt =
      some { node_at state_after_create.file_trie_root c_txt with last_modified := 300 }) :=
  have hthm := trash_then_restore_identity sample_env state_after_create alice c_txt 200 300
    (node_at state_after_create.file_trie_root c_txt) (by decide) (by decide) (by decide)
    (fun _ => rfl)
  ⟨⟨by decide, by decide, by decide⟩, hthm.1, hthm.2.1, hthm.2.2.1⟩

/-- The error replies of TRASH, RESTORE and DELETE. For a name that resolves to a
node `d` (in trash or not): TRASH and RESTORE by a user other than the owner reply
`ERR_PERMISSION_DENIED`, and so does DELETE when the node is not in trash; DELETE
looks the name up with `find_file` and so replies `ERR_FILE_NOT_FOUND` for a node
in trash, whoever asks; by the owner, TRASH of a node already in trash replies
`ERR_ALREADY_IN_TRASH`, RESTORE of a node not in trash replies `ERR_NOT_IN_TRASH`,
and TRASH or DELETE of a folder that is not in trash replies
`ERR_CANNOT_DELETE_FOLDER`. In each of these cases the state, the directory
included, is unchanged and nothing is sent to a storage server. -/
theorem trash_restore_delete_owner_only (env : Env) (st : NSState) (u f : CStr)
    (now : Int) (d : NodeData)
    (hany : find_file_any_status st.file_trie_root f = some d) :
    (d.owner ≠ u →
      handle_TRASH env st u f now = ⟨Reply.ERR_PERMISSION_DENIED, st, []⟩ ∧
      handle_RESTORE st u f now = ⟨Reply.ERR_PERMISSION_DENIED, st, []⟩) ∧
    (d.owner ≠ u → d.is_in_trash = false →
      handle_DELETE env st u f = ⟨Reply.ERR_PERMISSION_DENIED, st, []⟩) ∧
    (d.is_in_trash = true →
      handle_DELETE env st u f = ⟨Reply.ERR_FILE_NOT_FOUND, st, []⟩) ∧
    (d.owner = u → d.is_in_trash = true →
      handle_TRASH env st u f now = ⟨Reply.ERR_ALREADY_IN_TRASH, st, []⟩) ∧
    (d.owner = u → d.is_in_trash = false →
      handle_RESTORE st u f now = ⟨Reply.ERR_NOT_IN_TRASH, st, []⟩) ∧
    (d.owner = u → d.is_in_trash = false → d.is_folder = true →
      handle_TRASH env st u f now = ⟨Reply.ERR_CANNOT_DELETE_FOLDER, st, []⟩ ∧
      handle_DELETE env st u f = ⟨Reply.ERR_CANNOT_DELETE_FOLDER, st, []⟩) := by
  have hfind := find_file_of_any_status hany
  refine ⟨?_, ?_, ?_, ?_, ?_, ?_⟩
  · intro hne
    constructor
    · unfold handle_TRASH
      rw [hany]
      simp [streq, hne]
    · unfold handle_RESTORE
      rw [hany]
      simp [streq, hne]
  · intro hne htr
    unfold handle_DELETE
    rw [hfind]
    simp [streq, hne, htr]
  · intro htr
    unfold handle_DELETE
    rw [hfind]
    simp [htr]
  · intro hown htr
    unfold handle_TRASH
    rw [hany]
    simp [streq, hown, htr]
  · intro hown htr
    unfold handle_RESTORE
    rw [hany]
    simp [streq, hown, htr]
  · intro hown htr hfo
    constructor
    · unfold handle_TRASH
      rw [hany]
      simp [streq, hown, htr, hfo]
    · unfold handle_DELETE
      rw [hfind]
      simp [streq, hown, htr, hfo]

/-- The error replies of TRASH, RESTORE and DELETE, one worked instance for each
case: on a directory that holds `c.txt` in trash, the file `b` and the folder `F`,
all owned by `alice`. -/
theorem trash_restore_delete_owner_only_witness :
    (handle_TRASH sample_env state_mixed bob c_txt 300 =
        ⟨Reply.ERR_PERMISSION_DENIED, state_mixed, []⟩ ∧
      handle_RESTORE state_mixed bob c_txt 300 =
        ⟨Reply.ERR_PERMISSION_DENIED, state_mixed, []⟩) ∧
    handle_DELETE sample_env state_mixed bob name_b =
      ⟨Reply.ERR_PERMISSION_DENIED, state_mixed, []⟩ ∧
    handle_DELETE sample_env state_mixed bob c_txt =
      ⟨Reply.ERR_FILE_NOT_FOUND, state_mixed, []⟩ ∧
    handle_TRASH sample_env state_mixed alice c_txt 300 =
      ⟨Reply.ERR_ALREADY_IN_TRASH, state_mixed, []⟩ ∧
    handle_RESTORE state_mixed alice name_b 300 =
      ⟨Reply.ERR_NOT_IN_TRASH, state_mixed, []⟩ ∧
    (handle_TRASH sample_env state_mixed alice name_F 300 =
        ⟨Reply.ERR_CANNOT_DELETE_FOLDER, state_mixed, []⟩ ∧
      handle_DELETE sample_env state_mixed alice name_F =
        ⟨Reply.ERR_CANNOT_DELETE_FOLDER, state_mixed, []⟩) :=
  have hc := trash_restore_delete_owner_only sample_env state_mixed bob c_txt 300
    (node_at state_mixed.file_trie_root c_txt) (by decide)
  have hb := trash_restore_delete_owner_only sample_env state_mixed bob name_b 300
    (node_at state_mixed.file_trie_root name_b) (by decide)
  have hca := trash_restore_delete_owner_only sample_env state_mixed alice c_txt 300
    (node_at state_mixed.file_trie_root c_txt) (by decide)
  have hba := trash_restore_delete_owner_only sample_env state_mixed alice name_b 300
    (node_at state_mixed.file_trie_root name_b) (by decide)
  have hFa := trash_restore_delete_owner_only sample_env state_mixed alice name_F 300
    (node_at state_mixed.file_trie_root name_F) (by decide)
  ⟨hc.1 (by decide), hb.2.1 (by decide) (by decide), hc.2.2.1 (by decide),
   hca.2.2.2.1 (by decide) (by decide), hba.2.2.2.2.1 (by decide) (by decide),
   hFa.2.2.2.2.2 (by decide) (by decide) (by decide)⟩

set_option maxRecDepth 1000000 in
/-- C7: DELETE of a name that is in trash. `c.txt` exists, in trash, and is owned by
`alice`. TRASH and RESTORE of `c.txt` by `bob` are answered
`ERR_PERMISSION_DENIED`, yet DELETE of `c.txt` by `bob` is answered
`ERR_FILE_NOT_FOUND`: the DELETE branch looks the name up with `find_file`, which
does not return a node in trash, where TRASH and RESTORE use
`find_file_any_status`. For the same reason DELETE by the owner `alice` is answered
`ERR_FILE_NOT_FOUND` as well, and the state is unchanged. -/
theorem delete_trashed_by_other_user_not_found :
    (find_file_any_status state_after_trash.file_trie_root c_txt).map
        (fun d => (d.owner, d.is_folder, d.is_in_trash)) = some (alice, false, true) ∧
    alice ≠ bob ∧
    (handle_TRASH sample_env state_after_trash bob c_txt 300).reply =
      Reply.ERR_PERMISSION_DENIED ∧
    (handle_RESTORE state_after_trash bob c_txt 300).reply = Reply.ERR_PERMISSION_DENIED ∧
    handle_DELETE sample_env state_after_trash bob c_txt =
      ⟨Reply.ERR_FILE_NOT_FOUND, state_after_trash, []⟩ ∧
    (handle_DELETE sample_env state_after_trash bob c_txt).reply ≠
      Reply.ERR_PERMISSION_DENIED ∧
    handle_DELETE sample_env state_after_trash alice c_txt =
      ⟨Reply.ERR_FILE_NOT_FOUND, state_after_trash, []⟩ := by
  refine ⟨by decide, by decide, by decide, by decide, ?_, by decide, ?_⟩
  · exact (trash_restore_delete_owner_only sample_env state_after_trash bob c_txt 0
      (node_at state_after_trash.file_trie_root c_txt) (by decide)).2.2.1 (by decide)
  · exact (trash_restore_delete_owner_only sample_env state_after_trash alice c_txt 0
      (node_at state_after_trash.file_trie_root c_txt) (by decide)).2.2.1 (by decide)

/-! ## Reachable directories -/

theorem walk_create_ne_null_of_ne (f : NodeData → NodeData) (p : CStr) (t : FileNode)
    (ht : t ≠ FileNode.null) : walk_create f p t ≠ FileNode.null := by
  cases t with
  | null => exact absurd rfl ht
  | node d ch => exact walk_create_ne_null f p d ch

theorem update_at_ne_null_of_ne (f : NodeData → NodeData) (p : CStr) (t : FileNode)
    (ht : t ≠ FileNode.null) : update_at f p t ≠ FileNode.null := by
  cases t with
  | null => exact absurd rfl ht
  | node d ch => exact update_at_ne_null f p d ch

theorem delete_file_ne_null (t : FileNode) (n : CStr) (ht : t ≠ FileNode.null) :
    (delete_file t n).2 ≠ FileNode.null := by
  unfold delete_file
  cases find_file t n with
  | none => exact ht
  | some d => exact update_at_ne_null_of_ne _ n t ht

theorem trash_on_terminals_update_at (f : NodeData → NodeData) (p : CStr) (t : FileNode)
    (hp : (walk t p).data ≠ none)
    (hf : (f (node_at t p)).is_in_trash = true → (f (node_at t p)).is_end_of_word = true)
    (h : TrashOnTerminalsOnly t) : TrashOnTerminalsOnly (update_at f p t) := by
  intro name
  rw [node_at_update_at f p t name hp]
  by_cases hn : name = p
  · simp only [hn, if_true]
    exact hf
  · simp only [hn, if_false]
    exact h name

theorem node_at_of_data {t : FileNode} {p : CStr} {d : NodeData}
    (h : (walk t p).data = some d) : node_at t p = d := by
  unfold node_at
  rw [h]
  rfl

theorem move_file_keeps_invariant (t : FileNode) (src dest : CStr) (now : Int)
    (ht : t ≠ FileNode.null) (h : TrashOnTerminalsOnly t) :
    (move_file t src dest now).2 ≠ FileNode.null ∧
      TrashOnTerminalsOnly (move_file t src dest now).2 := by
  unfold move_file
  cases hsrc : find_file t src with
  | none => exact ⟨ht, h⟩
  | some file_node =>
    have hfn := find_file_some hsrc
    simp only
    cases move_new_path t src dest with
    | none => exact ⟨ht, h⟩
    | some new_path =>
      simp only
      by_cases hocc : (find_file t new_path).isSome = true
      · rw [if_pos hocc]
        exact ⟨ht, h⟩
      · rw [if_neg hocc]
        -- the insert
        have h1 : ∀ root1 : FileNode,
            root1 ≠ FileNode.null → TrashOnTerminalsOnly root1 →
            ((delete_file
                (match find_file root1 new_path with
                 | none => root1
                 | some _ =>
                     update_at (fun d =>
                       { d with
                         size := file_node.size
                         creation_time := file_node.creation_time
                         last_modified := now
                         is_in_trash := file_node.is_in_trash
                         read_users := d.read_users ++ file_node.read_users
                         write_users := d.write_users ++
                           file_node.write_users.filter
                             (fun w => !streq w file_node.owner) })
                       new_path root1) src).2 ≠ FileNode.null) ∧
            TrashOnTerminalsOnly
              (delete_file
                (match find_file root1 new_path with
                 | none => root1
                 | some _ =>
                     update_at (fun d =>
                       { d with
                         size := file_node.size
                         creation_time := file_node.creation_time
                         last_modified := now
                         is_in_trash := file_node.is_in_trash
                         read_users := d.read_users ++ file_node.read_users
                         write_users := d.write_users ++
                           file_node.write_users.filter
                             (fun w => !streq w file_node.owner) })
                       new_path root1) src).2 := by
          intro root1 hne hinv
          cases hnew : find_file root1 new_path with
          | none =>
            exact ⟨delete_file_ne_null _ _ hne, trash_on_terminals_delete_file _ _ hinv⟩
          | some nd =>
            simp only
            have hnd := find_file_some hnew
            refine ⟨delete_file_ne_null _ _ (update_at_ne_null_of_ne _ _ _ hne),
              trash_on_terminals_delete_file _ _
                (trash_on_terminals_update_at _ _ _ (by rw [hnd.1]; simp) ?_ hinv)⟩
            intro htr
            simp only [hfn.2.2] at htr
            cases htr
        by_cases hfo : file_node.is_folder = true
        · simp only [hfo, if_true]
          exact h1 _ (walk_create_ne_null_of_ne _ _ _ ht)
            (trash_on_terminals_insert_folder _ _ _ _ _ ht h)
        · simp only [hfo, Bool.false_eq_true, if_false]
          by_cases hrep : 1 < file_node.ss_ids.length
          · simp only [hrep, if_true]
            exact h1 _ (walk_create_ne_null_of_ne _ _ _ ht)
              (trash_on_terminals_insert_file_with_replicas _ _ _ _ _ ht h)
          · simp only [hrep, if_false]
            exact h1 _ (walk_create_ne_null_of_ne _ _ _ ht)
              (trash_on_terminals_insert_file _ _ _ _ _ ht h)

/-- In every reachable directory the root is allocated and the trash flag sits on
terminal nodes only. -/
theorem reachable_dir_invariant (t : FileNode) (h : ReachableDir t) :
    t ≠ FileNode.null ∧ TrashOnTerminalsOnly t := by
  induction h with
  | start => exact ⟨by simp [create_file_node], trash_on_terminals_create_file_node⟩
  | by_insert_file t n owner ss_id now _ ih =>
    exact ⟨walk_create_ne_null_of_ne _ _ _ ih.1,
      trash_on_terminals_insert_file _ _ _ _ _ ih.1 ih.2⟩
  | by_insert_file_with_replicas t n owner ss_ids now _ ih =>
    exact ⟨walk_create_ne_null_of_ne _ _ _ ih.1,
      trash_on_terminals_insert_file_with_replicas _ _ _ _ _ ih.1 ih.2⟩
  | by_insert_folder t n owner ss_id now _ ih =>
    exact ⟨walk_create_ne_null_of_ne _ _ _ ih.1,
      trash_on_terminals_insert_folder _ _ _ _ _ ih.1 ih.2⟩
  | by_delete_file t n _ ih =>
    exact ⟨delete_file_ne_null _ _ ih.1, trash_on_terminals_delete_file _ _ ih.2⟩
  | by_trash t n d now _ hd ih =>
    have hw := find_file_any_status_some hd
    refine ⟨update_at_ne_null_of_ne _ _ _ ih.1,
      trash_on_terminals_update_at _ _ _ (by rw [hw.1]; simp) ?_ ih.2⟩
    intro _
    rw [node_at_of_data hw.1]
    exact hw.2
  | by_restore t n d now _ hd ih =>
    have hw := find_file_any_status_some hd
    refine ⟨update_at_ne_null_of_ne _ _ _ ih.1,
      trash_on_terminals_update_at _ _ _ (by rw [hw.1]; simp) ?_ ih.2⟩
    intro htr
    cases htr
  | by_mark_folder t n d _ hd ih =>
    have hw := find_file_some hd
    refine ⟨update_at_ne_null_of_ne _ _ _ ih.1,
      trash_on_terminals_update_at _ _ _ (by rw [hw.1]; simp) ?_ ih.2⟩
    intro _
    rw [node_at_of_data hw.1]
    exact hw.2.1
  | by_move_file t src dest now _ ih => exact move_file_keeps_invariant _ _ _ _ ih.1 ih.2

theorem handle_CREATE_reachable (env : Env) (st : NSState) (u f : CStr) (now : Int)
    (h : ReachableDir st.file_trie_root) :
    ReachableDir (handle_CREATE env st u f now).state.file_trie_root := by
  have hins : ∀ (ids : List CStr) (id : CStr),
      ReachableDir
        (if 1 < ids.length then insert_file_with_replicas st.file_trie_root f u ids now
         else insert_file st.file_trie_root f u id now) := by
    intro ids id
    split
    · exact ReachableDir.by_insert_file_with_replicas _ _ _ _ _ h
    · exact ReachableDir.by_insert_file _ _ _ _ _ h
  unfold handle_CREATE
  split
  · split <;> exact h
  · split
    · exact h
    · split
      · exact h
      · simp only
        split
        · exact hins _ _
        · exact h

theorem handle_CREATEFOLDER_reachable (env : Env) (st : NSState) (u f : CStr) (now : Int)
    (h : ReachableDir st.file_trie_root) :
    ReachableDir (handle_CREATEFOLDER env st u f now).state.file_trie_root := by
  unfold handle_CREATEFOLDER
  split
  · exact h
  · split
    · exact h
    · split
      · exact h
      · split
        · exact h
        · simp only
          split
          · simp only
            split
            · exact ReachableDir.by_insert_file_with_replicas _ _ _ _ _ h
            · rename_i d hd
              exact ReachableDir.by_mark_folder _ _ d
                (ReachableDir.by_insert_file_with_replicas _ _ _ _ _ h) hd
          · exact h

theorem handle_TRASH_reachable (env : Env) (st : NSState) (u f : CStr) (now : Int)
    (h : ReachableDir st.file_trie_root) :
    ReachableDir (handle_TRASH env st u f now).state.file_trie_root := by
  unfold handle_TRASH
  split
  · exact h
  · rename_i d hd
    have ht := ReachableDir.by_trash _ f d now h hd
    split
    · exact h
    · split
      · exact h
      · split
        · exact h
        · simp only
          split
          · exact ht
          · split
            · exact ht
            · split
              · exact h
              · exact ht

theorem handle_RESTORE_reachable (st : NSState) (u f : CStr) (now : Int)
    (h : ReachableDir st.file_trie_root) :
    ReachableDir (handle_RESTORE st u f now).state.file_trie_root := by
  unfold handle_RESTORE
  split
  · exact h
  · rename_i d hd
    split
    · exact h
    · split
      · exact h
      · exact ReachableDir.by_restore _ f d now h hd

theorem handle_DELETE_reachable (env : Env) (st : NSState) (u f : CStr)
    (h : ReachableDir st.file_trie_root) :
    ReachableDir (handle_DELETE env st u f).state.file_trie_root := by
  unfold handle_DELETE
  split
  · exact h
  · split
    · exact h
    · split
      · exact h
      · simp only
        split
        · exact h
        · split
          · exact ReachableDir.by_delete_file _ _ h
          · exact h

theorem handle_EMPTYTRASH_reachable (st : NSState) (u : CStr)
    (h : ReachableDir st.file_trie_root) :
    ReachableDir (handle_EMPTYTRASH st u).state.file_trie_root := by
  rw [handle_EMPTYTRASH_keeps_directory]
  exact h

/-- READ, STREAM, WRITE, UNDO and the CHECKPOINT family never change the directory. -/
theorem handle_redirect_command_keeps_directory (st : NSState) (command : Verb) (u f : CStr)
    (now : Int) :
    (handle_redirect_command st command u f now).state.file_trie_root =
      st.file_trie_root := by
  have hrsw : (handle_READ_STREAM_WRITE st command u f now).state.file_trie_root =
      st.file_trie_root := by
    unfold handle_READ_STREAM_WRITE
    split
    · rfl
    · simp only
      split
      · split
        · rfl
        · rfl
      · split
        · split <;> rfl
        · split
          · split <;> rfl
          · split <;> rfl
  have hundo : (handle_UNDO st u f).state.file_trie_root = st.file_trie_root := by
    unfold handle_UNDO
    split
    · rfl
    · split
      · rfl
      · split
        · rfl
        · split <;> rfl
  have hcp : (handle_CHECKPOINT_family st command u f).state.file_trie_root =
      st.file_trie_root := by
    unfold handle_CHECKPOINT_family
    split
    · rfl
    · split
      · rfl
      · simp only
        split
        · rfl
        · split
          · rfl
          · split <;> rfl
  cases command <;> simp only [handle_redirect_command] <;>
    first
    | exact hrsw
    | exact hundo
    | exact hcp

/-! ## MOVE -/

/-- When the destination name resolves to a node that is not in trash,
`move_file` returns 0 and leaves the directory as it was. -/
theorem move_file_occupied_destination (root : FileNode) (src dest new_path : CStr)
    (now : Int) (d : NodeData)
    (hnp : move_new_path root src dest = some new_path)
    (hocc : find_file root new_path = some d) :
    move_file root src dest now = (0, root) := by
  unfold move_file
  cases find_file root src with
  | none => rfl
  | some file_node =>
    simp only [hnp, hocc, Option.isSome_some, if_true]


/-- C8: `alice` owns the file `b` and the folder `F`. `move_file(b, F)` and then
`move_file(F/b, ".")` both return 1 and leave a node named `b` with the same owner
and replica list, but its `write_users` list has grown from `[alice]` to
`[alice, alice]`: the lazy `delete_file` left the old list in the node of `b`, and
the insert at that node appended to it. -/
theorem move_round_trip_duplicates_acl :
    (find_file state_b_F.file_trie_root name_b).map
        (fun d => (d.owner, d.ss_ids, d.read_users, d.write_users)) =
      some (alice, [id_ss1], ([] : List CStr), [alice]) ∧
    (find_folder state_b_F.file_trie_root name_F).isSome = true ∧
    find_file_any_status state_b_F.file_trie_root name_F_b = none ∧
    (move_file state_b_F.file_trie_root name_b name_F 200).1 = 1 ∧
    (move_file (move_file state_b_F.file_trie_root name_b name_F 200).2 name_F_b [DOT]
        300).1 = 1 ∧
    (find_file
        (move_file (move_file state_b_F.file_trie_root name_b name_F 200).2 name_F_b [DOT]
          300).2 name_b).map
        (fun d => (d.owner, d.ss_ids, d.read_users, d.write_users)) =
      some (alice, [id_ss1], ([] : List CStr), [alice, alice]) :=
  ⟨by decide, by decide, by decide, by decide, by decide, by decide⟩

/-- C9: `alice` creates the folders `G` and `F` on a Name Server with two active
storage servers, so `G` is stored with the replica list `[ss1, ss2]`.
`move_file(G, F)` returns 1 and `F/G` resolves to a folder of `alice`, but its
replica list is `[ss1]`: the folder branch of `move_file` passes `ss_ids[0]` alone
to `insert_folder`. -/
theorem move_folder_drops_replicas :
    (find_file state_G_F.file_trie_root name_G).map
        (fun d => (d.owner, d.is_folder, d.ss_ids)) =
      some (alice, true, [id_ss1, id_ss2]) ∧
    (find_folder state_G_F.file_trie_root name_F).isSome = true ∧
    (move_file state_G_F.file_trie_root name_G name_F 200).1 = 1 ∧
    find_file (move_file state_G_F.file_trie_root name_G name_F 200).2 name_G = none ∧
    (find_file (move_file state_G_F.file_trie_root name_G name_F 200).2 name_F_G).map
        (fun d => (d.owner, d.is_folder, d.ss_ids)) =
      some (alice, true, [id_ss1]) := by
  decide

/-- C10: the destination `F/b` resolves to a node of `bob` that is in trash, and
`alice` owns `b` and `F`. `move_file(b, F)` does not return 0: it returns 1, `b` no
longer resolves, and the trashed node `F/b` now has owner `alice` and `alice` in
its `write_users`. -/
theorem move_onto_trashed_destination :
    (find_file_any_status state_b_F_trashed.file_trie_root name_F_b).map
        (fun d => (d.owner, d.is_in_trash, d.write_users)) =
      some (bob, true, [bob]) ∧
    (find_file state_b_F_trashed.file_trie_root name_b).map (fun d => d.owner) =
      some alice ∧
    move_new_path state_b_F_trashed.file_trie_root name_b name_F = some name_F_b ∧
    (move_file state_b_F_trashed.file_trie_root name_b name_F 200).1 = 1 ∧
    find_file_any_status (move_file state_b_F_trashed.file_trie_root name_b name_F 200).2
      name_b = none ∧
    (find_file_any_status (move_file state_b_F_trashed.file_trie_root name_b name_F 200).2
        name_F_b).map (fun d => (d.owner, d.is_in_trash, d.write_users)) =
      some (alice, true, [bob, alice]) := by
  decide

/-! ## Access requests -/

theorem same_pending_request_iff (f r : CStr) (t : RequestType) (x : AccessRequest) :
    same_pending_request f r t x = true ↔
      x.status = RequestStatus.RSTATUS_PENDING ∧ x.filename = f ∧ x.requester = r ∧
        x.type = t := by
  simp [same_pending_request, streq, and_assoc]

theorem le_last_of_increasing :
    ∀ (l : List AccessRequest) (last : AccessRequest),
      List.Pairwise (fun a b : AccessRequest => a.id < b.id) l →
      l.getLast? = some last → ∀ x ∈ l, x.id ≤ last.id := by
  intro l
  induction l with
  | nil =>
    intro last _ _ x hx
    cases hx
  | cons a rest ih =>
    intro last hp hl x hx
    rw [List.pairwise_cons] at hp
    cases rest with
    | nil =>
      simp only [List.getLast?_singleton, Option.some.injEq] at hl
      simp only [List.mem_singleton] at hx
      rw [hx, hl]
    | cons b rest2 =>
      have hl2 : (b :: rest2).getLast? = some last := by
        rw [List.getLast?_cons_cons] at hl
        exact hl
      have hlast_mem : last ∈ b :: rest2 := List.mem_of_getLast?_eq_some hl2
      rcases List.mem_cons.mp hx with hx | hx
      · rw [hx]
        exact le_of_lt (hp.1 last hlast_mem)
      · exact ih last hp.2 hl2 x hx

/-- C13, amended: access-request IDs. When `MAX_REQUESTS` records exist,
`create_request` returns -1 and adds nothing. Otherwise, when a PENDING record with
the same filename, requester and type exists it returns the ID of such a record and
adds no record; when none exists it appends one PENDING record whose ID is one more
than the last record's ID (1 for the first). Whenever the IDs were strictly
increasing in creation order they still are afterwards, so no two records share
an ID. -/
theorem create_request_ids (requests : List AccessRequest) (f r o : CStr)
    (t : RequestType) (now : Int) :
    (MAX_REQUESTS ≤ requests.length → create_request requests f r o t now = (-1, requests)) ∧
    (requests.length < MAX_REQUESTS →
      (∃ x ∈ requests, x.status = RequestStatus.RSTATUS_PENDING ∧ x.filename = f ∧
        x.requester = r ∧ x.type = t) →
      ∃ x ∈ requests, x.status = RequestStatus.RSTATUS_PENDING ∧ x.filename = f ∧
        x.requester = r ∧ x.type = t ∧
        create_request requests f r o t now = (x.id, requests)) ∧
    (requests.length < MAX_REQUESTS →
      (¬ ∃ x ∈ requests, x.status = RequestStatus.RSTATUS_PENDING ∧ x.filename = f ∧
        x.requester = r ∧ x.type = t) →
      ∃ id : Int,
        (requests = [] → id = 1) ∧
        (∀ last, requests.getLast? = some last → id = last.id + 1) ∧
        create_request requests f r o t now =
          (id, requests ++
            [{ id := id, filename := f.take (MAX_FILENAME - 1), requester := r.take 99,
               owner := o.take 99, type := t, status := RequestStatus.RSTATUS_PENDING,
               created_at := now }])) ∧
    (List.Pairwise (fun a b : AccessRequest => a.id < b.id) requests →
      List.Pairwise (fun a b : AccessRequest => a.id < b.id)
          (create_request requests f r o t now).2 ∧
        ((create_request requests f r o t now).2.map (fun x => x.id)).Nodup) := by
  have hnodup : ∀ l : List AccessRequest,
      List.Pairwise (fun a b : AccessRequest => a.id < b.id) l →
      (l.map (fun x => x.id)).Nodup := by
    intro l hl
    rw [List.Nodup, List.pairwise_map]
    exact hl.imp (fun h => ne_of_lt h)
  refine ⟨?_, ?_, ?_, ?_⟩
  · intro hfull
    unfold create_request
    rw [if_pos hfull]
  · intro hlen hex
    unfold create_request
    rw [if_neg (Nat.not_le.mpr hlen)]
    cases hfind : requests.find? (same_pending_request f r t) with
    | none =>
      exfalso
      rw [List.find?_eq_none] at hfind
      obtain ⟨x, hx, hp⟩ := hex
      exact hfind x hx ((same_pending_request_iff f r t x).mpr hp)
    | some x =>
      have hp := (same_pending_request_iff f r t x).mp (List.find?_some hfind)
      exact ⟨x, List.mem_of_find?_eq_some hfind, hp.1, hp.2.1, hp.2.2.1, hp.2.2.2, rfl⟩
  · intro hlen hno
    unfold create_request
    rw [if_neg (Nat.not_le.mpr hlen)]
    cases hfind : requests.find? (same_pending_request f r t) with
    | some x =>
      exfalso
      exact hno ⟨x, List.mem_of_find?_eq_some hfind,
        (same_pending_request_iff f r t x).mp (List.find?_some hfind)⟩
    | none =>
      refine ⟨(match requests.getLast? with
        | none => 1
        | some last => last.id + 1), ?_, ?_, rfl⟩
      · intro hnil
        rw [hnil]
        rfl
      · intro last hl
        rw [hl]
  · intro hinc
    have hres : List.Pairwise (fun a b : AccessRequest => a.id < b.id)
        (create_request requests f r o t now).2 := by
      unfold create_request
      by_cases hfull : MAX_REQUESTS ≤ requests.length
      · rw [if_pos hfull]
        exact hinc
      · rw [if_neg hfull]
        cases hfind : requests.find? (same_pending_request f r t) with
        | some x => exact hinc
        | none =>
          simp only
          rw [List.pairwise_append]
          refine ⟨hinc, List.pairwise_singleton _ _, ?_⟩
          intro a ha b hb
          rw [List.mem_singleton] at hb
          rw [hb]
          simp only
          cases hl : requests.getLast? with
          | none =>
            rw [List.getLast?_eq_none_iff] at hl
            rw [hl] at ha
            cases ha
          | some last =>
            simp only
            have := le_last_of_increasing requests last hinc hl a ha
            omega
    exact ⟨hres, hnodup _ hres⟩

theorem find_after_set_request_status (id : Int) (s : RequestStatus) :
    ∀ (l : List AccessRequest),
      find_request_by_id (set_request_status id s l) id =
        (find_request_by_id l id).map (fun r => { r with status := s }) := by
  intro l
  induction l with
  | nil => rfl
  | cons a rest ih =>
    unfold find_request_by_id at ih ⊢
    by_cases ha : (a.id == id) = true
    · simp [set_request_status, ha, List.find?_cons]
    · simp only [set_request_status, ha, Bool.false_eq_true, if_false, List.find?_cons]
      exact ih

theorem set_request_status_keeps_resolved (id : Int) (s : RequestStatus) :
    ∀ (l : List AccessRequest) (r : AccessRequest),
      find_request_by_id l id = some r → r.status = RequestStatus.RSTATUS_PENDING →
      ∀ x ∈ l, x.status ≠ RequestStatus.RSTATUS_PENDING →
        x ∈ set_request_status id s l := by
  intro l
  induction l with
  | nil =>
    intro r _ _ x hx
    cases hx
  | cons a rest ih =>
    intro r hfind hpend x hx hres
    unfold find_request_by_id at hfind ih
    by_cases ha : (a.id == id) = true
    · simp only [List.find?_cons, ha, Option.some.injEq] at hfind
      simp only [set_request_status, ha, if_true]
      rcases List.mem_cons.mp hx with hxa | hxr
      · exfalso
        rw [hxa, hfind] at hres
        exact hres hpend
      · exact List.mem_cons_of_mem _ hxr
    · simp only [List.find?_cons, ha] at hfind
      simp only [set_request_status, ha, Bool.false_eq_true, if_false]
      rcases List.mem_cons.mp hx with hxa | hxr
      · rw [hxa]
        exact List.mem_cons_self _ _
      · exact List.mem_cons_of_mem _ (ih r hfind hpend x hxr hres)

/-- C14, amended: APPROVE and DENY only resolve a pending request of the caller.
The reply is `ERR_INVALID_ID`, `ERR_REQ_NOT_FOUND`, `ERR_NOT_REQUEST_OWNER` or
`ERR_REQ_NOT_PENDING`, with nothing changed, unless the request exists, the caller
is its recorded owner and its status is PENDING; then the status becomes APPROVED
or DENIED, and a request that is APPROVED or DENIED is never changed again. A
successful APPROVE appends the requester to `write_users` (WRITE request) or
`read_users` (READ request) of the named file when `find_file` still returns that
file and the list holds fewer than `MAX_USERS` entries; otherwise the directory
is unchanged, and the reply is `ACK_APPROVED` all the same. -/
theorem approve_deny_pending_only (requests : List AccessRequest) (root : FileNode)
    (approve : Bool) (u : CStr) (id : Int) :
    (id ≤ 0 →
      handle_APPROVE_DENY requests root approve u id =
        ⟨Reply.ERR_INVALID_ID, requests, root⟩) ∧
    (0 < id → find_request_by_id requests id = none →
      handle_APPROVE_DENY requests root approve u id =
        ⟨Reply.ERR_REQ_NOT_FOUND, requests, root⟩) ∧
    (∀ r, 0 < id → find_request_by_id requests id = some r → r.owner ≠ u →
      handle_APPROVE_DENY requests root approve u id =
        ⟨Reply.ERR_NOT_REQUEST_OWNER, requests, root⟩) ∧
    (∀ r, 0 < id → find_request_by_id requests id = some r → r.owner = u →
      r.status ≠ RequestStatus.RSTATUS_PENDING →
      handle_APPROVE_DENY requests root approve u id =
        ⟨Reply.ERR_REQ_NOT_PENDING, requests, root⟩) ∧
    (∀ r, 0 < id → find_request_by_id requests id = some r → r.owner = u →
      r.status = RequestStatus.RSTATUS_PENDING →
      (handle_APPROVE_DENY requests root approve u id).reply =
        (if approve then Reply.ACK_APPROVED else Reply.ACK_DENIED) ∧
      find_request_by_id (handle_APPROVE_DENY requests root approve u id).requests id =
        some { r with status :=
          (if approve then RequestStatus.RSTATUS_APPROVED
           else RequestStatus.RSTATUS_DENIED) } ∧
      (approve = false → (handle_APPROVE_DENY requests root approve u id).root = root) ∧
      (approve = true → find_file root r.filename = none →
        (handle_APPROVE_DENY requests root approve u id).root = root) ∧
      (approve = true → ∀ node, find_file root r.filename = some node →
        (r.type = RequestType.REQ_WRITE →
          (node.write_users.length < MAX_USERS →
            find_file (handle_APPROVE_DENY requests root approve u id).root r.filename =
              some { node with write_users := node.write_users ++ [r.requester] }) ∧
          (MAX_USERS ≤ node.write_users.length →
            (handle_APPROVE_DENY requests root approve u id).root = root)) ∧
        (r.type = RequestType.REQ_READ →
          (node.read_users.length < MAX_USERS →
            find_file (handle_APPROVE_DENY requests root approve u id).root r.filename =
              some { node with read_users := node.read_users ++ [r.requester] }) ∧
          (MAX_USERS ≤ node.read_users.length →
            (handle_APPROVE_DENY requests root approve u id).root = root)))) ∧
    (∀ x ∈ requests, x.status ≠ RequestStatus.RSTATUS_PENDING →
      x ∈ (handle_APPROVE_DENY requests root approve u id).requests) := by
  have hupd : ∀ (g : NodeData → NodeData) (f : CStr) (node : NodeData),
      find_file root f = some node →
      (g node).is_end_of_word = node.is_end_of_word →
      (g node).is_in_trash = node.is_in_trash →
      find_file (update_at g f root) f = some (g node) := by
    intro g f node hf he ht
    have hd := find_file_some hf
    unfold find_file
    rw [data_walk_update_at, if_pos rfl, hd.1]
    simp [he, ht, hd.2.1, hd.2.2]
  refine ⟨?_, ?_, ?_, ?_, ?_, ?_⟩
  · intro hid
    unfold handle_APPROVE_DENY
    rw [if_pos hid]
  · intro hid hfind
    unfold handle_APPROVE_DENY
    rw [if_neg (not_le.mpr hid), hfind]
  · intro r hid hfind hown
    unfold handle_APPROVE_DENY
    rw [if_neg (not_le.mpr hid), hfind]
    simp [streq, hown]
  · intro r hid hfind hown hst
    unfold handle_APPROVE_DENY
    rw [if_neg (not_le.mpr hid), hfind]
    simp [streq, hown, hst]
  · intro r hid hfind hown hst
    have hout : handle_APPROVE_DENY requests root approve u id =
        (if approve then
          ⟨Reply.ACK_APPROVED,
           set_request_status id RequestStatus.RSTATUS_APPROVED requests,
           (match find_file root r.filename with
            | none => root
            | some node =>
                if r.type = RequestType.REQ_WRITE then
                  if node.write_users.length < MAX_USERS then
                    update_at (fun d => { d with write_users := d.write_users ++ [r.requester] })
                      r.filename root
                  else root
                else
                  if node.read_users.length < MAX_USERS then
                    update_at (fun d => { d with read_users := d.read_users ++ [r.requester] })
                      r.filename root
                  else root)⟩
        else
          ⟨Reply.ACK_DENIED, set_request_status id RequestStatus.RSTATUS_DENIED requests,
           root⟩) := by
      unfold handle_APPROVE_DENY
      rw [if_neg (not_le.mpr hid), hfind]
      simp [streq, hown, hst]
    rw [hout]
    cases approve with
    | false =>
      simp only [Bool.false_eq_true, if_false]
      refine ⟨trivial, ?_, fun _ => trivial, ?_, ?_⟩
      · rw [find_after_set_request_status, hfind]
        rfl
      · intro h
        cases h
      · intro h
        cases h
    | true =>
      simp only [if_true]
      refine ⟨trivial, ?_, ?_, ?_, ?_⟩
      · rw [find_after_set_request_status, hfind]
        rfl
      · intro h
        cases h
      · intro _ hnone
        rw [hnone]
      · intro _ node hnode
        rw [hnode]
        simp only
        constructor
        · intro hw
          rw [if_pos hw]
          constructor
          · intro hlen
            rw [if_pos hlen]
            exact hupd _ _ node hnode rfl rfl
          · intro hlen
            rw [if_neg (Nat.not_lt.mpr hlen)]
        · intro hr
          have hnw : ¬ r.type = RequestType.REQ_WRITE := by
            rw [hr]
            intro h
            cases h
          rw [if_neg hnw]
          constructor
          · intro hlen
            rw [if_pos hlen]
            exact hupd _ _ node hnode rfl rfl
          · intro hlen
            rw [if_neg (Nat.not_lt.mpr hlen)]
  · intro x hx hres
    unfold handle_APPROVE_DENY
    by_cases hid : id ≤ 0
    · rw [if_pos hid]
      exact hx
    · rw [if_neg hid]
      cases hfind : find_request_by_id requests id with
      | none => exact hx
      | some r =>
        simp only
        by_cases hown : (streq r.owner u) = true
        · by_cases hst : r.status = RequestStatus.RSTATUS_PENDING
          · simp only [hown, not_true_eq_false, if_false, hst, ne_eq]
            cases approve with
            | false =>
              exact set_request_status_keeps_resolved id _ requests r hfind hst x hx hres
            | true =>
              exact set_request_status_keeps_resolved id _ requests r hfind hst x hx hres
          · simp only [hown, not_true_eq_false, if_false, ne_eq, hst, if_true]
            exact hx
        · simp only [hown, Bool.false_eq_true, not_false_eq_true, if_true]
          exact hx

/-- C13, as stated, fails on a full queue: a PENDING request of `bob` for READ access
to `c.txt` exists with ID 1024, yet `create_request` for the same file, requester
and type returns -1. -/
theorem create_request_full_queue :
    requests_full.length = MAX_REQUESTS ∧
    ({ id := 1024, filename := c_txt, requester := bob, owner := alice,
       type := RequestType.REQ_READ, status := RequestStatus.RSTATUS_PENDING,
       created_at := 0 } : AccessRequest) ∈ requests_full ∧
    create_request requests_full c_txt bob alice RequestType.REQ_READ 200 =
      (-1, requests_full) := by
  have hlen : requests_full.length = MAX_REQUESTS := by
    simp only [requests_full, List.length_map, List.length_range, MAX_REQUESTS]
  refine ⟨hlen, ?_, ?_⟩
  · unfold requests_full
    rw [List.mem_map]
    exact ⟨1023, List.mem_range.mpr (by decide), by decide⟩
  · unfold create_request
    rw [if_pos (le_of_eq hlen.symm)]

/-- C13, worked instances: the first request gets ID 1, and asking again returns
the same ID without adding a record. -/
theorem create_request_ids_witness :
    create_request [] c_txt bob alice RequestType.REQ_WRITE 150 =
      (1, [request_bob_write]) ∧
    create_request [request_bob_write] c_txt bob alice RequestType.REQ_WRITE 160 =
      (1, [request_bob_write]) :=
  have h0 := create_request_ids [] c_txt bob alice RequestType.REQ_WRITE 150
  have h1 := create_request_ids [request_bob_write] c_txt bob alice
    RequestType.REQ_WRITE 160
  ⟨by
    obtain ⟨id, hid, _, heq⟩ := h0.2.2.1 (by decide) (by simp)
    rw [heq, hid rfl]
    rfl,
   by
    obtain ⟨x, hx, _, _, _, _, heq⟩ := h1.2.1 (by decide)
      ⟨request_bob_write, by simp, by decide, by decide, by decide, by decide⟩
    rw [heq]
    simp only [List.mem_singleton] at hx
    rw [hx]
    rfl⟩

/-- C14, as stated, fails when the file is no longer found: `bob` has a PENDING
request for WRITE access to `c.txt`, `alice` has trashed the file, and her APPROVE
is answered `ACK_APPROVED` and marks the request APPROVED, but `bob` is not added
to `write_users`. -/
theorem approve_after_trash_adds_nobody :
    find_request_by_id requests_one 1 = some request_bob_write ∧
    (handle_APPROVE_DENY requests_one state_after_trash.file_trie_root true alice 1).reply =
      Reply.ACK_APPROVED ∧
    (find_request_by_id
        (handle_APPROVE_DENY requests_one state_after_trash.file_trie_root true alice
          1).requests 1).map (fun r => r.status) =
      some RequestStatus.RSTATUS_APPROVED ∧
    (find_file_any_status
        (handle_APPROVE_DENY requests_one state_after_trash.file_trie_root true alice
          1).root c_txt).map (fun d => (d.read_users, d.write_users)) =
      some (([] : List CStr), [alice]) :=
  ⟨by decide, by decide, by decide, by decide⟩

/-- C14, worked instance: `alice` approves the WRITE request of `bob` for her
`c.txt`, which is still in the directory. -/
theorem approve_deny_pending_only_witness :
    (handle_APPROVE_DENY requests_one state_after_create.file_trie_root true alice 1).reply =
      Reply.ACK_APPROVED ∧
    find_request_by_id
        (handle_APPROVE_DENY requests_one state_after_create.file_trie_root true alice
          1).requests 1 =
      some { request_bob_write with status := RequestStatus.RSTATUS_APPROVED } ∧
    find_file
        (handle_APPROVE_DENY requests_one state_after_create.file_trie_root true alice
          1).root c_txt =
      some { node_at state_after_create.file_trie_root c_txt with
             write_users := [alice, bob] } :=
  have h := (approve_deny_pending_only requests_one state_after_create.file_trie_root true
    alice 1).2.2.2.2.1 request_bob_write (by decide) (by decide) (by decide) (by decide)
  ⟨h.1, h.2.1,
   ((h.2.2.2.2 rfl (node_at state_after_create.file_trie_root c_txt) (by decide)).1
      (by decide)).1 (by decide)⟩

/-! ## Client sessions -/

theorem usernames_disconnect_client (u : CStr) :
    ∀ cl : List ClientSession,
      (disconnect_client u cl).map (fun s => s.username) = cl.map (fun s => s.username) := by
  intro cl
  induction cl with
  | nil => rfl
  | cons a rest ih =>
    unfold disconnect_client
    by_cases ha : streq a.username u = true
    · simp [ha]
    · simp only [ha, Bool.false_eq_true, if_false, List.map_cons, ih]

theorem reg_client_slot_lookup (u : CStr) :
    ∀ (cl : List ClientSession), (cl.map (fun s => s.username)).Nodup →
      ∀ (i : Nat) (s : ClientSession), cl.get? i = some s → s.username = u →
        s.is_active = false →
        cl.any (fun x => x.is_active && streq x.username u) = false ∧
          cl.findIdx? (fun x => !x.is_active && streq x.username u) = some i := by
  intro cl
  induction cl with
  | nil =>
    intro _ i s hs
    simp at hs
  | cons a rest ih =>
    intro hnd i s hs hu hact
    rw [List.map_cons, List.nodup_cons] at hnd
    cases i with
    | zero =>
      simp only [List.get?_cons_zero, Option.some.injEq] at hs
      subst hs
      constructor
      · rw [List.any_cons, hact, Bool.false_and, Bool.false_or, List.any_eq_false]
        intro x hx
        have hne : x.username ≠ u := by
          intro h
          apply hnd.1
          rw [hu, ← h]
          exact List.mem_map_of_mem _ hx
        simp [streq, hne]
      · simp [List.findIdx?_cons, hact, streq, hu]
    | succ k =>
      simp only [List.get?_cons_succ] at hs
      have hmem : s ∈ rest := List.get?_mem hs
      have hane : a.username ≠ u := by
        intro h
        apply hnd.1
        rw [h, ← hu]
        exact List.mem_map_of_mem _ hmem
      obtain ⟨h1, h2⟩ := ih hnd.2 k s hs hu hact
      constructor
      · rw [List.any_cons, h1]
        simp [streq, hane]
      · rw [List.findIdx?_cons]
        simp [streq, hane, List.findIdx?_succ]
        exact h2

theorem usernames_reg_client (u : CStr) (sock : Int) (cl : List ClientSession)
    (hnd : (cl.map (fun s => s.username)).Nodup) :
    ((handle_REG_CLIENT cl u sock).2.map (fun s => s.username)).Nodup := by
  unfold handle_REG_CLIENT
  by_cases hany : cl.any (fun s => s.is_active && streq s.username u) = true
  · rw [if_pos hany]
    exact hnd
  · rw [if_neg hany]
    cases hidx : cl.findIdx? (fun s => !s.is_active && streq s.username u) with
    | some i =>
      simp only
      have hi := List.findIdx?_of_eq_some hidx
      cases hget : cl[i]? with
      | none =>
        rw [hget] at hi
        simp at hi
      | some s =>
        rw [hget] at hi
        simp only [Bool.and_eq_true, Bool.not_eq_true', streq, beq_iff_eq] at hi
        have hsame : (cl.set i { username := u, socket_fd := sock, is_active := true }).map
            (fun s => s.username) = cl.map (fun s => s.username) := by
          rw [List.map_set]
          apply List.ext_getElem?
          intro j
          by_cases hj : i = j
          · subst hj
            rw [List.getElem?_set]
            simp [hget, hi.2]
            by_contra hge
            rw [List.getElem?_eq_none (by omega)] at hget
            cases hget
          · rw [List.getElem?_set_ne hj]
        rw [hsame]
        exact hnd
    | none =>
      simp only
      by_cases hlen : cl.length < MAX_CLIENTS
      · rw [if_pos hlen]
        rw [List.map_append, List.map_singleton]
        rw [List.nodup_append]
        refine ⟨hnd, List.nodup_singleton _, ?_⟩
        intro x hx1 hx2
        rw [List.mem_singleton] at hx2
        subst hx2
        obtain ⟨s, hs, hsu⟩ := List.mem_map.mp hx1
        rw [List.findIdx?_eq_none_iff] at hidx
        have h1 := hidx s hs
        have h2 : (s.is_active && streq s.username s.username) = false := by
          rw [Bool.not_eq_true] at hany
          rw [← hsu] at hany
          exact List.any_eq_false.mp hany s hs |> fun h => by simpa using h
        rw [← hsu] at h1
        revert h1 h2
        cases s.is_active <;> simp [streq]
      · rw [if_neg hlen]
        exact hnd

theorem reachable_sessions_nodup (cl : List ClientSession) (h : ReachableSessions cl) :
    (cl.map (fun s => s.username)).Nodup := by
  induction h with
  | start => exact List.nodup_nil
  | by_reg_client cl u sock _ ih => exact usernames_reg_client u sock cl ih
  | by_disconnect cl u _ ih =>
    rw [usernames_disconnect_client]
    exact ih

/-- C15: the session table. In every table reachable through REG_CLIENT and
disconnects no two slots hold the same username, so at most one active session
exists per username; REG_CLIENT for a username with an active session replies
`ERR_USERNAME_IN_USE` and leaves the table unchanged; REG_CLIENT for a username
whose slot is inactive reactivates that same slot and adds none; and REG_CLIENT
for a new username when `MAX_CLIENTS` slots are used replies `ERR_MAX_CLIENTS`. -/
theorem session_table_invariant (client_list : List ClientSession)
    (h : ReachableSessions client_list) :
    (client_list.map (fun s => s.username)).Nodup ∧
    (∀ i j s1 s2, client_list.get? i = some s1 → client_list.get? j = some s2 →
      s1.username = s2.username → i = j) ∧
    (∀ u sock, (∃ s ∈ client_list, s.username = u ∧ s.is_active = true) →
      handle_REG_CLIENT client_list u sock = (Reply.ERR_USERNAME_IN_USE, client_list)) ∧
    (∀ u sock i s, client_list.get? i = some s → s.username = u → s.is_active = false →
      handle_REG_CLIENT client_list u sock =
        (Reply.ACK_REG,
         client_list.set i { username := u, socket_fd := sock, is_active := true }) ∧
      (handle_REG_CLIENT client_list u sock).2.length = client_list.length) ∧
    (∀ u sock, (∀ s ∈ client_list, s.username ≠ u) → MAX_CLIENTS ≤ client_list.length →
      handle_REG_CLIENT client_list u sock = (Reply.ERR_MAX_CLIENTS, client_list)) := by
  have hnd := reachable_sessions_nodup client_list h
  refine ⟨hnd, ?_, ?_, ?_, ?_⟩
  · intro i j s1 s2 h1 h2 hu
    have hi : i < (client_list.map (fun s => s.username)).length := by
      rw [List.length_map]
      by_contra hge
      rw [List.get?_eq_none.mpr (by omega)] at h1
      cases h1
    have hj : j < (client_list.map (fun s => s.username)).length := by
      rw [List.length_map]
      by_contra hge
      rw [List.get?_eq_none.mpr (by omega)] at h2
      cases h2
    have e1 : (client_list.map (fun s => s.username))[i] = s1.username := by
      rw [List.get?_eq_getElem?] at h1
      rw [List.getElem_map]
      rw [List.getElem?_eq_getElem (by simpa using hi)] at h1
      rw [Option.some.inj h1]
    have e2 : (client_list.map (fun s => s.username))[j] = s2.username := by
      rw [List.get?_eq_getElem?] at h2
      rw [List.getElem_map]
      rw [List.getElem?_eq_getElem (by simpa using hj)] at h2
      rw [Option.some.inj h2]
    exact (List.Nodup.getElem_inj_iff hnd).mp (by rw [e1, e2, hu])
  · intro u sock hex
    obtain ⟨s, hs, hsu, hact⟩ := hex
    unfold handle_REG_CLIENT
    have hany : client_list.any (fun s => s.is_active && streq s.username u) = true := by
      rw [List.any_eq_true]
      exact ⟨s, hs, by simp [hact, streq, hsu]⟩
    rw [if_pos hany]
  · intro u sock i s hget hsu hact
    obtain ⟨h1, h2⟩ := reg_client_slot_lookup u client_list hnd i s hget hsu hact
    have heq : handle_REG_CLIENT client_list u sock =
        (Reply.ACK_REG,
         client_list.set i { username := u, socket_fd := sock, is_active := true }) := by
      unfold handle_REG_CLIENT
      rw [if_neg (by rw [h1]; simp), h2]
    rw [heq]
    exact ⟨rfl, List.length_set _ _ _⟩
  · intro u sock hnew hfull
    unfold handle_REG_CLIENT
    have hany : client_list.any (fun s => s.is_active && streq s.username u) = false := by
      rw [List.any_eq_false]
      intro x hx
      simp [streq, hnew x hx]
    have hidx : client_list.findIdx? (fun s => !s.is_active && streq s.username u) = none := by
      rw [List.findIdx?_eq_none_iff]
      intro x hx
      simp [streq, hnew x hx]
    rw [if_neg (by rw [hany]; simp), hidx]
    simp only
    rw [if_neg (Nat.not_lt.mpr hfull)]

/-- C15, worked instance: `alice` and `bob` have registered and `bob` has
disconnected; a second `alice` is refused and `bob` gets his slot 1 back. -/
theorem session_table_invariant_witness :
    handle_REG_CLIENT sessions_alice_bob alice 6 =
      (Reply.ERR_USERNAME_IN_USE, sessions_alice_bob) ∧
    handle_REG_CLIENT sessions_alice_bob bob 7 =
      (Reply.ACK_REG,
       sessions_alice_bob.set 1 { username := bob, socket_fd := 7, is_active := true }) :=
  have h := session_table_invariant sessions_alice_bob
    (ReachableSessions.by_disconnect _ bob
      (ReachableSessions.by_reg_client _ bob 5
        (ReachableSessions.by_reg_client _ alice 4 ReachableSessions.start)))
  ⟨h.2.2.1 alice 6
      ⟨{ username := alice, socket_fd := 4, is_active := true }, by decide, rfl, rfl⟩,
   (h.2.2.2.1 bob 7 1 { username := bob, socket_fd := 5, is_active := false }
      (by decide) rfl rfl).1⟩

/-! ## Choice of storage servers -/

/-- C16: the registry holds `ss1`, inactive, and `ss2`, active, and the round-robin
counter is 0. `get_ss_for_new_file` returns `ss1`, whose `is_active` flag is clear,
and two further calls return `ss2` and then `ss1` again: the cycle runs over every
registered server. CREATE sends its `NM_CREATE` to the inactive `ss1`. -/
theorem round_robin_returns_inactive_server :
    (registry_ss1_down.filter (fun s => s.is_active)).map (fun s => s.id) = [id_ss2] ∧
    (get_ss_for_new_file registry_ss1_down 0).1.map (fun s => (s.id, s.is_active)) =
      some (id_ss1, false) ∧
    (get_ss_for_new_file registry_ss1_down
        (get_ss_for_new_file registry_ss1_down 0).2).1.map (fun s => (s.id, s.is_active)) =
      some (id_ss2, true) ∧
    (get_ss_for_new_file registry_ss1_down
        (get_ss_for_new_file registry_ss1_down
          (get_ss_for_new_file registry_ss1_down 0).2).2).1.map
        (fun s => (s.id, s.is_active)) =
      some (id_ss1, false) ∧
    (handle_CREATE sample_env { state_start with ss_list := registry_ss1_down } alice c_txt
        100).sent = [SSMsg.mk id_ss1 (SSCommand.NM_CREATE c_txt)] :=
  ⟨by decide, by decide, by decide, by decide, by decide⟩

/-- The primary that CREATE and CREATEFOLDER use is the server that
`get_ss_for_new_file` returns. -/
theorem get_ss_for_new_file_eq (ss_list : List StorageServer) (next_ss_index : Nat)
    (h : ss_list.length ≠ 0) :
    get_ss_for_new_file ss_list next_ss_index =
      (ss_list.get? next_ss_index, (next_ss_index + 1) % ss_list.length) := by
  unfold get_ss_for_new_file
  rw [if_neg h]

set_option maxRecDepth 1000000 in
/-- C18: a folder that is in trash. `alice` sends `CREATE F/G`, `TRASH F/G`,
`CREATEFOLDER G` and `CREATEFOLDER F`; `move_file` of the folder `G` into `F` then
succeeds, because its test for an occupied destination uses `find_file`, and
`insert_folder` marks the trashed node `F/G` as a folder without clearing
`is_in_trash`. The same happens when `insert_folder` is applied to the trashed
node of `c.txt`. Both directories are reachable through the directory
operations. -/
theorem move_folder_onto_trashed_name :
    ReachableDir state_trashed_F_G.file_trie_root ∧
    (find_file_any_status state_trashed_F_G.file_trie_root name_F_G).map
        (fun d => (d.is_folder, d.is_in_trash)) = some (false, true) ∧
    (find_file state_trashed_F_G.file_trie_root name_G).map
        (fun d => (d.is_folder, d.is_in_trash)) = some (true, false) ∧
    (move_file state_trashed_F_G.file_trie_root name_G name_F 140).1 = 1 ∧
    ReachableDir (move_file state_trashed_F_G.file_trie_root name_G name_F 140).2 ∧
    (find_file_any_status (move_file state_trashed_F_G.file_trie_root name_G name_F 140).2
        name_F_G).map (fun d => (d.is_end_of_word, d.is_folder, d.is_in_trash)) =
      some (true, true, true) ∧
    ReachableDir (insert_folder
      (update_at (fun d => { d with is_in_trash := true, last_modified := 110 }) c_txt
        sample_root) c_txt alice id_ss1 120) ∧
    (find_file_any_status (insert_folder
      (update_at (fun d => { d with is_in_trash := true, last_modified := 110 }) c_txt
        sample_root) c_txt alice id_ss1 120) c_txt).map
        (fun d => (d.is_end_of_word, d.is_folder, d.is_in_trash)) =
      some (true, true, true) :=
  have hreach : ReachableDir state_trashed_F_G.file_trie_root :=
    handle_CREATEFOLDER_reachable _ _ _ _ _
      (handle_CREATEFOLDER_reachable _ _ _ _ _
        (handle_TRASH_reachable _ _ _ _ _
          (handle_CREATE_reachable _ _ _ _ _ ReachableDir.start)))
  ⟨hreach, by decide, by decide, by decide,
   ReachableDir.by_move_file _ name_G name_F 140 hreach, by decide,
   ReachableDir.by_insert_folder _ c_txt alice id_ss1 120
     (ReachableDir.by_trash sample_root c_txt (node_at sample_root c_txt) 110
       (ReachableDir.by_insert_file create_file_node c_txt alice id_ss1 100 ReachableDir.start)
       (by decide)),
   by decide⟩

set_option maxRecDepth 1000000 in
/-- C19: a user in both lists, and twice in one list. `alice` owns `c.txt`;
ADDACCESS -R for `bob` twice leaves `read_users = [bob, bob]`, and ADDACCESS -R
followed by ADDACCESS -W for `bob` leaves `bob` in `read_users` and in
`write_users`. -/
theorem addaccess_repeats_user :
    (handle_ADDACCESS state_after_create.file_trie_root alice FLAG_R c_txt bob).1 =
      Reply.ACK_ADDACCESS_READ ∧
    handle_ADDACCESS state_after_create.file_trie_root alice FLAG_R c_txt bob =
      (Reply.ACK_ADDACCESS_READ, root_bob_read) ∧
    (handle_ADDACCESS root_bob_read alice FLAG_R c_txt bob).1 = Reply.ACK_ADDACCESS_READ ∧
    (find_file (handle_ADDACCESS root_bob_read alice FLAG_R c_txt bob).2 c_txt).map
        (fun d => (d.read_users, d.write_users)) = some ([bob, bob], [alice]) ∧
    (handle_ADDACCESS root_bob_read alice FLAG_W c_txt bob).1 = Reply.ACK_ADDACCESS_WRITE ∧
    (find_file (handle_ADDACCESS root_bob_read alice FLAG_W c_txt bob).2 c_txt).map
        (fun d => (d.read_users, d.write_users)) = some ([bob], [alice, bob]) :=
  ⟨by decide, rfl, by decide, by decide, by decide, by decide⟩

/-! ## Listings -/

theorem foldl_append_flatMap {β : Type} (g : CStr → β → CStr) (k : β → CStr) (l : List β)
    (out : CStr) (h : ∀ x b, b ∈ l → g x b = x ++ k b) :
    l.foldl g out = out ++ l.flatMap k := by
  induction l generalizing out with
  | nil => simp
  | cons b rest ih =>
    rw [List.foldl_cons, h out b (List.mem_cons_self _ _),
      ih _ (fun x c hc => h x c (List.mem_cons_of_mem _ hc))]
    simp [List.flatMap_cons, List.append_assoc]

theorem traverse_eq_terminals (username : CStr) (list_all show_details : Bool) :
    ∀ (t : FileNode) (out pre : CStr),
      traverse_trie_recursive t username list_all show_details out pre =
        out ++ ((terminals t pre).filter (listed_by_view username list_all)).flatMap
          listing_entry := by
  intro t
  induction t with
  | null =>
    intro out pre
    simp [traverse_trie_recursive, terminals]
  | node d ch ih =>
    intro out pre
    unfold traverse_trie_recursive terminals
    dsimp only
    rw [foldl_append_flatMap _
      (fun i => ((terminals (ch i) (pre ++ [i])).filter
        (listed_by_view username list_all)).flatMap listing_entry) _ _
      (fun x i _ => ih i x (pre ++ [i]))]
    rw [List.filter_append, List.flatMap_append, List.filter_flatMap, List.flatMap_assoc]
    by_cases he : d.is_end_of_word = true <;> by_cases ht : d.is_in_trash = true <;>
      by_cases hp : (list_all || decide (PermissionLevel.PERM_READ.toNat ≤
        (check_permission (some d) (some username)).toNat)) = true <;>
      simp [he, ht, hp, listed_by_view, listing_entry, List.append_assoc]

theorem list_trash_eq_terminals (username : CStr) :
    ∀ (t : FileNode) (out pre : CStr),
      list_trash_recursive t username out pre =
        out ++ ((terminals t pre).filter (listed_by_viewtrash username)).flatMap
          listing_entry := by
  intro t
  induction t with
  | null =>
    intro out pre
    simp [list_trash_recursive, terminals]
  | node d ch ih =>
    intro out pre
    unfold list_trash_recursive terminals
    dsimp only
    rw [foldl_append_flatMap _
      (fun i => ((terminals (ch i) (pre ++ [i])).filter
        (listed_by_viewtrash username)).flatMap listing_entry) _ _
      (fun x i _ => ih i x (pre ++ [i]))]
    rw [List.filter_append, List.flatMap_append, List.filter_flatMap, List.flatMap_assoc]
    by_cases he : d.is_end_of_word = true <;> by_cases ht : d.is_in_trash = true <;>
      by_cases hp : streq d.owner username = true <;>
      simp [he, ht, hp, listed_by_viewtrash, listing_entry, List.append_assoc]

/-- The terminal nodes are the names that `find_file_any_status` finds, with the
fields it returns. -/
theorem mem_terminals_iff :
    ∀ (t : FileNode) (pre n : CStr) (d : NodeData),
      (n, d) ∈ terminals t pre ↔ ∃ q, n = pre ++ q ∧ find_file_any_status t q = some d := by
  intro t
  induction t with
  | null =>
    intro pre n d
    simp [terminals, find_file_any_status_null]
  | node d0 ch ih =>
    intro pre n d
    unfold terminals
    rw [List.mem_append, List.mem_flatMap]
    constructor
    · rintro (h | ⟨i, _, h⟩)
      · by_cases he : d0.is_end_of_word = true
        · rw [if_pos he, List.mem_singleton] at h
          cases h
          exact ⟨[], by simp, by rw [find_file_any_status_nil, if_pos he]⟩
        · rw [if_neg he] at h
          cases h
      · obtain ⟨q, hq, hf⟩ := (ih i (pre ++ [i]) n d).mp h
        exact ⟨i :: q, by rw [hq]; simp, by rw [find_file_any_status_cons]; exact hf⟩
    · rintro ⟨q, hq, hf⟩
      cases q with
      | nil =>
        left
        rw [find_file_any_status_nil] at hf
        by_cases he : d0.is_end_of_word = true
        · rw [if_pos he] at hf ⊢
          cases hf
          simp [hq]
        · rw [if_neg he] at hf
          cases hf
      | cons i q =>
        right
        rw [find_file_any_status_cons] at hf
        exact ⟨i, by simp [child_indices],
          (ih i (pre ++ [i]) n d).mpr ⟨q, by rw [hq]; simp, hf⟩⟩

theorem append_lt_append_left (pre a b : CStr) (h : a < b) : pre ++ a < pre ++ b := by
  induction pre with
  | nil => exact h
  | cons c rest ih => exact List.Lex.cons ih

/-- The terminal nodes come in ascending order of their names. -/
theorem terminals_sorted :
    ∀ (t : FileNode) (pre : CStr),
      (terminals t pre).Pairwise (fun a b => a.1 < b.1) := by
  intro t
  induction t with
  | null =>
    intro pre
    simp [terminals]
  | node d0 ch ih =>
    intro pre
    unfold terminals
    rw [List.pairwise_append]
    refine ⟨?_, ?_, ?_⟩
    · by_cases he : d0.is_end_of_word = true
      · rw [if_pos he]
        exact List.pairwise_singleton _ _
      · rw [if_neg he]
        exact List.Pairwise.nil
    · rw [List.pairwise_flatMap]
      refine ⟨fun i _ => ih i (pre ++ [i]), ?_⟩
      unfold child_indices
      have hfin : (List.finRange 128).Pairwise (fun i j : Fin 128 => i < j) :=
        List.pairwise_lt_finRange 128
      refine hfin.imp ?_
      intro i j hij a ha b hb
      obtain ⟨qa, hqa, _⟩ := (mem_terminals_iff (ch i) (pre ++ [i]) a.1 a.2).mp ha
      obtain ⟨qb, hqb, _⟩ := (mem_terminals_iff (ch j) (pre ++ [j]) b.1 b.2).mp hb
      rw [hqa, hqb, List.append_assoc, List.append_assoc]
      exact append_lt_append_left pre _ _ (List.Lex.rel hij)
    · intro a ha b hb
      by_cases he : d0.is_end_of_word = true
      · rw [if_pos he, List.mem_singleton] at ha
        rw [List.mem_flatMap] at hb
        obtain ⟨i, _, hb⟩ := hb
        obtain ⟨qb, hqb, _⟩ := (mem_terminals_iff (ch i) (pre ++ [i]) b.1 b.2).mp hb
        rw [ha, hqb, List.append_assoc]
        have h0 : pre ++ [] < pre ++ ([i] ++ qb) :=
          append_lt_append_left pre _ _ List.Lex.nil
        rw [List.append_nil] at h0
        exact h0
      · rw [if_neg he] at ha
        cases ha

/-- The listings as texts, partitioned by the trash flag. `terminals root []` holds
every name that `find_file_any_status` finds, with its fields, each name once and
in ascending byte order. The text of `list_files` is, in that order, the entry
(name, `/` for a folder, newline) of exactly the terminal nodes that are not in
trash and on which the user has at least `PERM_READ` (of every node not in trash
when `list_all` is set), and the text of `list_trash` is the entries of exactly the
terminal nodes in trash that the user owns. So a terminal node in trash is not
among the entries of `list_files` and is among the entries of `list_trash` for its
owner. These are the texts that the runs write when their arrays have room
(`list_files_in_spec`, `list_trash_in_spec`). -/
theorem listing_partition_by_trash_flag (root : FileNode) (u : CStr)
    (list_all show_details : Bool) :
    (∀ n d, (n, d) ∈ terminals root [] ↔ find_file_any_status root n = some d) ∧
    (terminals root []).Pairwise (fun a b => a.1 < b.1) ∧
    ((terminals root []).map (fun p => p.1)).Nodup ∧
    list_files root u list_all show_details =
      ((terminals root []).filter (listed_by_view u list_all)).flatMap listing_entry ∧
    list_trash root u =
      ((terminals root []).filter (listed_by_viewtrash u)).flatMap listing_entry ∧
    (∀ p, listed_by_view u list_all p = true ↔
      p.2.is_in_trash = false ∧
        (list_all = true ∨
          PermissionLevel.PERM_READ.toNat ≤ (check_permission (some p.2) (some u)).toNat)) ∧
    (∀ p, listed_by_viewtrash u p = true ↔ p.2.is_in_trash = true ∧ p.2.owner = u) ∧
    (∀ n d, find_file_any_status root n = some d → d.is_in_trash = true →
      (n, d) ∉ (terminals root []).filter (listed_by_view u list_all) ∧
      (n, d) ∈ (terminals root []).filter (listed_by_viewtrash d.owner)) := by
  have hmem : ∀ n d, (n, d) ∈ terminals root [] ↔ find_file_any_status root n = some d := by
    intro n d
    rw [mem_terminals_iff root [] n d]
    constructor
    · rintro ⟨q, hq, hf⟩
      rw [List.nil_append] at hq
      rw [hq]
      exact hf
    · intro hf
      exact ⟨n, by simp, hf⟩
  have hview : ∀ p, listed_by_view u list_all p = true ↔
      p.2.is_in_trash = false ∧
        (list_all = true ∨
          PermissionLevel.PERM_READ.toNat ≤ (check_permission (some p.2) (some u)).toNat) := by
    intro p
    simp [listed_by_view]
  have htrash : ∀ (v : CStr) (p : CStr × NodeData),
      listed_by_viewtrash v p = true ↔ p.2.is_in_trash = true ∧ p.2.owner = v := by
    intro v p
    simp [listed_by_viewtrash, streq]
  refine ⟨hmem, terminals_sorted root [], ?_, ?_, ?_, hview, htrash u, ?_⟩
  · rw [List.Nodup, List.pairwise_map]
    exact (terminals_sorted root []).imp (fun h => ne_of_lt h)
  · unfold list_files
    rw [traverse_eq_terminals, List.nil_append]
  · unfold list_trash
    rw [list_trash_eq_terminals, List.nil_append]
  · intro n d hf ht
    constructor
    · intro hin
      have h := (hview (n, d)).mp (List.mem_filter.mp hin).2
      rw [ht] at h
      cases h.1
    · exact List.mem_filter.mpr ⟨(hmem n d).mpr hf, (htrash d.owner (n, d)).mpr ⟨ht, rfl⟩⟩

set_option maxRecDepth 1000000 in
/-- A worked listing: `alice` owns `F/`, `b` and the trashed `c.txt`; VIEW shows her
`F/` and `b` in this order, VIEWTRASH shows `c.txt`, and `bob` sees nothing. -/
theorem listing_example :
    list_files state_listing.file_trie_root alice false false =
      name_F ++ [SLASH, NEWLINE] ++ name_b ++ [NEWLINE] ∧
    list_trash state_listing.file_trie_root alice = c_txt ++ [NEWLINE] ∧
    list_files state_listing.file_trie_root bob false false = [] ∧
    list_files state_listing.file_trie_root bob true false =
      name_F ++ [SLASH, NEWLINE] ++ name_b ++ [NEWLINE] ∧
    list_trash state_listing.file_trie_root bob = [] :=
  ⟨by decide, by decide, by decide, by decide, by decide⟩

/-! ## Snapshot file -/

theorem encode_le_length (w m : Nat) : (encode_le w m).length = w := by
  induction w generalizing m with
  | zero => rfl
  | succ w ih => simp [encode_le, ih]

theorem decode_encode_le (w m : Nat) : decode_le (encode_le w m) = m % 256 ^ w := by
  induction w generalizing m with
  | zero => simp [encode_le, decode_le, Nat.mod_one]
  | succ w ih =>
    simp only [encode_le, decode_le, ih]
    rw [pow_succ, Nat.mul_comm (256 ^ w) 256, Nat.mod_mul]

theorem int_bytes_length (w : Nat) (v : Int) : (int_bytes w v).length = w :=
  encode_le_length _ _

theorem bytes_int_int_bytes_4 (v : Int) (h1 : -(2 ^ 31 : Int) ≤ v) (h2 : v < (2 ^ 31 : Int)) :
    bytes_int 4 (int_bytes 4 v) = v := by
  unfold bytes_int int_bytes
  rw [decode_encode_le]
  norm_num at h1 h2 ⊢
  split_ifs <;> omega

theorem bytes_int_int_bytes_8 (v : Int) (h : FitsLong v) :
    bytes_int 8 (int_bytes 8 v) = v := by
  unfold FitsLong at h
  unfold bytes_int int_bytes
  rw [decode_encode_le]
  norm_num at h ⊢
  split_ifs <;> omega

theorem fread_append (n : Nat) (a rest : List Byte) (h : a.length = n) :
    fread n (a ++ rest) = some (a, rest) := by
  unfold fread
  rw [if_pos (by rw [List.length_append]; omega)]
  subst h
  simp

theorem fread_int_bytes (v : Int) (rest : List Byte)
    (h1 : -(2 ^ 31 : Int) ≤ v) (h2 : v < (2 ^ 31 : Int)) :
    fread_int (int_bytes 4 v ++ rest) = some (v, rest) := by
  unfold fread_int
  rw [fread_append 4 _ _ (int_bytes_length _ _)]
  dsimp only
  rw [bytes_int_int_bytes_4 v h1 h2]

theorem fread_long_bytes (v : Int) (rest : List Byte) (h : FitsLong v) :
    fread_long (int_bytes 8 v ++ rest) = some (v, rest) := by
  unfold fread_long
  rw [fread_append 8 _ _ (int_bytes_length _ _)]
  dsimp only
  rw [bytes_int_int_bytes_8 v h]

theorem c_string_map_char_byte (s : CStr) (h : ∀ c ∈ s, c ≠ 0) :
    c_string (s.map char_byte) = some s := by
  induction s with
  | nil => rfl
  | cons c rest ih =>
    have hc : c ≠ 0 := h c (List.mem_cons_self _ _)
    have hv : c.val ≠ 0 := fun h0 => hc (Fin.ext h0)
    simp only [List.map_cons, c_string, char_byte]
    rw [if_neg hv, dif_pos c.isLt, ih (fun x hx => h x (List.mem_cons_of_mem _ hx))]
    rfl

theorem read_string_write_string (s : CStr) (rest : List Byte) (h : s.length ≤ 10000) :
    read_string (write_string s ++ rest) = some (s.map char_byte, rest) := by
  unfold read_string write_string
  rw [List.append_assoc, fread_int_bytes _ _ (by omega) (by norm_num; omega)]
  dsimp only
  rw [if_neg (by omega), if_neg (by omega), Int.toNat_ofNat,
    fread_append _ _ _ (by simp)]

theorem read_c_string_write_string (s : CStr) (rest : List Byte) (h : FitsString 10000 s) :
    read_c_string (write_string s ++ rest) = some (s, rest) := by
  unfold read_c_string
  rw [read_string_write_string s rest h.1]
  dsimp only
  rw [c_string_map_char_byte s h.2]

theorem read_c_strings_write (l : List CStr) (rest : List Byte)
    (h : ∀ x ∈ l, FitsString 10000 x) :
    read_c_strings l.length (l.flatMap write_string ++ rest) = some (l, rest) := by
  induction l with
  | nil => rfl
  | cons s l ih =>
    rw [List.flatMap_cons, List.length_cons, List.append_assoc]
    unfold read_c_strings
    rw [read_c_string_write_string s _ (h s (List.mem_cons_self _ _))]
    dsimp only
    rw [ih (fun x hx => h x (List.mem_cons_of_mem _ hx))]

theorem data_walk_walk_create (f : NodeData → NodeData) (p : CStr) (t : FileNode)
    (ht : t ≠ FileNode.null) (hf : ∀ e, (f e).is_end_of_word = true) :
    (walk (walk_create f p t) p).data ≠ none := by
  intro h
  have h1 := node_at_walk_create f p t p ht
  rw [if_pos rfl] at h1
  have h2 : node_at (walk_create f p t) p = NodeData.zero := by
    unfold node_at
    rw [h]
    rfl
  rw [h2] at h1
  have h3 := congrArg NodeData.is_end_of_word h1
  rw [hf] at h3
  cases h3

/-- The node that the three insert functions of the reload write to. -/
theorem inserted_for_reload (root : FileNode) (hroot : root ≠ FileNode.null)
    (n : CStr) (d : NodeData) (now : Int) :
    (if d.is_folder then insert_folder root n d.owner (d.ss_ids.headD []) now
     else if 1 < d.ss_ids.length then insert_file_with_replicas root n d.owner d.ss_ids now
     else insert_file root n d.owner (d.ss_ids.headD []) now) ≠ FileNode.null ∧
    (walk (if d.is_folder then insert_folder root n d.owner (d.ss_ids.headD []) now
     else if 1 < d.ss_ids.length then insert_file_with_replicas root n d.owner d.ss_ids now
     else insert_file root n d.owner (d.ss_ids.headD []) now) n).data ≠ none ∧
    find_file_any_status
      (if d.is_folder then insert_folder root n d.owner (d.ss_ids.headD []) now
       else if 1 < d.ss_ids.length then
         insert_file_with_replicas root n d.owner d.ss_ids now
       else insert_file root n d.owner (d.ss_ids.headD []) now) n ≠ none := by
  have hfound : ∀ f : NodeData → NodeData, (∀ e, (f e).is_end_of_word = true) →
      find_file_any_status (walk_create f n root) n ≠ none := by
    intro f hf
    rw [find_file_any_status_eq, node_at_walk_create f n root n hroot, if_pos rfl,
      if_pos (hf _)]
    exact Option.some_ne_none _
  by_cases hf : d.is_folder = true
  · rw [if_pos hf]
    exact ⟨walk_create_ne_null_of_ne _ _ _ hroot,
      data_walk_walk_create _ _ _ hroot (fun _ => rfl), hfound _ (fun _ => rfl)⟩
  · rw [if_neg hf]
    by_cases hl : 1 < d.ss_ids.length
    · rw [if_pos hl]
      exact ⟨walk_create_ne_null_of_ne _ _ _ hroot,
        data_walk_walk_create _ _ _ hroot (fun _ => rfl), hfound _ (fun _ => rfl)⟩
    · rw [if_neg hl]
      exact ⟨walk_create_ne_null_of_ne _ _ _ hroot,
        data_walk_walk_create _ _ _ hroot (fun _ => rfl), hfound _ (fun _ => rfl)⟩

theorem restore_record_ne_null (root : FileNode) (hroot : root ≠ FileNode.null)
    (n : CStr) (d : NodeData) (now : Int) :
    restore_record root n d now ≠ FileNode.null :=
  update_at_ne_null_of_ne _ _ _ (inserted_for_reload root hroot n d now).1

theorem load_entries_cons (fuel : Nat) (root : FileNode) (marker : Byte) (fp1 : List Byte)
    (now : Int) :
    load_entries (fuel + 1) root (marker :: fp1) now =
      if marker = MARKER_E then some root
      else if marker = MARKER_F then
        match read_string fp1 with
        | none => some root
        | some (path_bytes, fp2) =>
            match c_string path_bytes with
            | none => none
            | some path =>
                match load_record root path fp2 now with
                | none => none
                | some (root1, fp3) => load_entries fuel root1 fp3 now
      else load_entries fuel root fp1 now := rfl

/-- One round of the loading loop on a record written by `serialize_node`. -/
theorem load_entries_record (fuel : Nat) (root : FileNode) (hroot : root ≠ FileNode.null)
    (n : CStr) (d : NodeData) (hfit : FitsSnapshot (n, d)) (rest : List Byte) (now : Int) :
    load_entries (fuel + 1) root (serialize_record n d ++ rest) now =
      load_entries fuel (restore_record root n d now) rest now := by
  obtain ⟨hn, ho, hs1, hs2, hsf, hsize, hct, hlm, hr, hrf, hw, hwf⟩ := hfit
  dsimp only at hn ho hs1 hs2 hsf hsize hct hlm hr hrf hw hwf
  have hMS : MAX_SS = 10 := rfl
  have hMU : MAX_USERS = 50 := rfl
  have hn1 : n.length ≤ 10000 := by
    have := hn.1
    simp only [MAX_FILENAME] at this
    omega
  unfold serialize_record
  simp only [List.append_assoc, List.singleton_append, List.cons_append, List.nil_append]
  rw [load_entries_cons]
  rw [if_neg (by decide), if_pos rfl, read_string_write_string n _ hn1]
  dsimp only
  rw [c_string_map_char_byte n hn.2]
  dsimp only
  unfold load_record
  rw [read_c_string_write_string _ _ ho]
  dsimp only
  rw [fread_int_bytes _ _ (by omega) (by norm_num; omega)]
  dsimp only
  rw [if_neg (by omega), Int.toNat_ofNat, List.take_of_length_le hs2,
    read_c_strings_write _ _ hsf]
  dsimp only
  rw [fread_long_bytes _ _ hsize]
  dsimp only
  rw [fread_long_bytes _ _ hct]
  dsimp only
  rw [fread_long_bytes _ _ hlm]
  dsimp only
  rw [fread_int_bytes _ _ (by split_ifs <;> norm_num) (by split_ifs <;> norm_num)]
  dsimp only
  rw [fread_int_bytes _ _ (by split_ifs <;> norm_num) (by split_ifs <;> norm_num)]
  dsimp only
  have hA : ∀ (A B C : FileNode),
      (if (if d.is_folder = true then (1 : Int) else 0) ≠ 0 then A
       else if (d.ss_ids.length : Int) > 1 then B else C) =
      (if d.is_folder then A else if 1 < d.ss_ids.length then B else C) := by
    intro A B C
    by_cases hf : d.is_folder = true
    · simp [hf]
    · by_cases hl : 1 < d.ss_ids.length
      · simp [hf, hl]
      · simp [hf, hl]
  have hT : decide ((if d.is_in_trash = true then (1 : Int) else 0) ≠ 0) = d.is_in_trash := by
    cases d.is_in_trash <;> simp
  rw [hA, hT]
  cases hfind : find_file_any_status
      (if d.is_folder then insert_folder root n d.owner (d.ss_ids.headD []) now
       else if 1 < d.ss_ids.length then
         insert_file_with_replicas root n d.owner d.ss_ids now
       else insert_file root n d.owner (d.ss_ids.headD []) now) n with
  | none => exact absurd hfind (inserted_for_reload root hroot n d now).2.2
  | some val =>
    dsimp only
    rw [fread_int_bytes _ _ (by omega) (by norm_num; omega)]
    dsimp only
    rw [if_neg (by omega), Int.toNat_ofNat, read_c_strings_write _ _ hrf]
    dsimp only
    rw [fread_int_bytes _ _ (by omega) (by norm_num; omega)]
    dsimp only
    rw [if_neg (by omega), Int.toNat_ofNat, read_c_strings_write _ _ hwf]
    rfl

/-- The loading loop on the records of a list of terminal nodes followed by the end
marker: every record is restored, in order. -/
theorem load_entries_records (now : Int) :
    ∀ (L : List (CStr × NodeData)) (fuel : Nat) (root : FileNode),
      root ≠ FileNode.null → (∀ p ∈ L, FitsSnapshot p) → L.length < fuel →
      load_entries fuel root
          (L.flatMap (fun p => serialize_record p.1 p.2) ++ [MARKER_E]) now =
        some (L.foldl (fun r p => restore_record r p.1 p.2 now) root) := by
  intro L
  induction L with
  | nil =>
    intro fuel root _ _ hfuel
    cases fuel with
    | zero => cases hfuel
    | succ fuel =>
      rw [List.flatMap_nil, List.nil_append, load_entries_cons, if_pos rfl]
      rfl
  | cons p L ih =>
    intro fuel root hroot hfit hfuel
    cases fuel with
    | zero => cases hfuel
    | succ fuel =>
      rw [List.flatMap_cons, List.append_assoc,
        load_entries_record fuel root hroot p.1 p.2 (hfit p (List.mem_cons_self _ _)),
        ih fuel _ (restore_record_ne_null root hroot p.1 p.2 now)
          (fun q hq => hfit q (List.mem_cons_of_mem _ hq))
          (by simp only [List.length_cons] at hfuel; omega)]
      rfl

theorem flatMap_ext {α β : Type} (l : List α) (f g : α → List β)
    (h : ∀ x ∈ l, f x = g x) : l.flatMap f = l.flatMap g := by
  induction l with
  | nil => rfl
  | cons a rest ih =>
    rw [List.flatMap_cons, List.flatMap_cons, h a (List.mem_cons_self _ _),
      ih (fun x hx => h x (List.mem_cons_of_mem _ hx))]

theorem serialize_no_terminals :
    ∀ (t : FileNode), (∀ q, find_file_any_status t q = none) →
      ∀ (path : CStr), serialize_node t path = [] := by
  intro t
  induction t with
  | null =>
    intro _ path
    rfl
  | node d ch ih =>
    intro h path
    unfold serialize_node
    have hd : d.is_end_of_word = false := by
      have h0 := h []
      rw [find_file_any_status_nil] at h0
      cases he : d.is_end_of_word with
      | false => rfl
      | true =>
        rw [he] at h0
        cases h0
    rw [hd]
    simp only [Bool.false_eq_true, if_false, List.nil_append]
    rw [flatMap_ext _ _ (fun _ => [])
      (fun i _ => ih i (fun q => by rw [← find_file_any_status_cons d ch i q]; exact h _) _)]
    simp

/-- The bytes that `serialize_node` writes are the records of the terminal nodes in
the order of `terminals`, when no name is cut by the path buffer. -/
theorem serialize_eq_terminals :
    ∀ (t : FileNode) (path : CStr),
      (∀ p ∈ terminals t path, p.1.length ≤ MAX_FILENAME * 4 - 1) →
      serialize_node t path =
        (terminals t path).flatMap (fun p => serialize_record p.1 p.2) := by
  intro t
  induction t with
  | null =>
    intro path _
    rfl
  | node d ch ih =>
    intro path h
    unfold serialize_node
    rw [terminals, List.flatMap_append, List.flatMap_assoc]
    congr 1
    · by_cases he : d.is_end_of_word = true
      · rw [if_pos he, if_pos he]
        simp
      · rw [if_neg he, if_neg he]
        rfl
    · apply flatMap_ext
      intro i _
      have hsub : ∀ p ∈ terminals (ch i) (path ++ [i]), p.1.length ≤ MAX_FILENAME * 4 - 1 := by
        intro p hp
        apply h p
        rw [terminals, List.mem_append, List.mem_flatMap]
        exact Or.inr ⟨i, by simp [child_indices], hp⟩
      by_cases hlen : (path ++ [i]).length ≤ MAX_FILENAME * 4 - 1
      · rw [List.take_of_length_le hlen]
        exact ih i (path ++ [i]) hsub
      · have hnone : ∀ q, find_file_any_status (ch i) q = none := by
          intro q
          cases hq : find_file_any_status (ch i) q with
          | none => rfl
          | some e =>
            exfalso
            have hmem : (path ++ [i] ++ q, e) ∈ terminals (ch i) (path ++ [i]) :=
              (mem_terminals_iff (ch i) (path ++ [i]) _ e).mpr ⟨q, rfl, hq⟩
            have := hsub _ hmem
            simp only [List.length_append] at this hlen
            omega
        rw [serialize_no_terminals (ch i) hnone]
        have hnil : terminals (ch i) (path ++ [i]) = [] := by
          apply List.eq_nil_iff_forall_not_mem.mpr
          intro p hp
          obtain ⟨q, _, hq⟩ := (mem_terminals_iff (ch i) (path ++ [i]) p.1 p.2).mp hp
          rw [hnone q] at hq
          cases hq
        rw [hnil]
        rfl

theorem node_at_restore_record_other (root : FileNode) (hroot : root ≠ FileNode.null)
    (n : CStr) (d : NodeData) (now : Int) (q : CStr) (hq : q ≠ n) :
    node_at (restore_record root n d now) q = node_at root q := by
  unfold restore_record
  rw [node_at_update_at _ n _ q (inserted_for_reload root hroot n d now).2.1, if_neg hq]
  by_cases hf : d.is_folder = true
  · rw [if_pos hf]
    unfold insert_folder
    rw [node_at_walk_create _ n root q hroot, if_neg hq]
  · rw [if_neg hf]
    by_cases hl : 1 < d.ss_ids.length
    · rw [if_pos hl]
      unfold insert_file_with_replicas
      rw [node_at_walk_create _ n root q hroot, if_neg hq]
    · rw [if_neg hl]
      unfold insert_file
      rw [node_at_walk_create _ n root q hroot, if_neg hq]

theorem node_at_restore_record_fresh (root : FileNode) (hroot : root ≠ FileNode.null)
    (n : CStr) (d : NodeData) (now : Int) (hzero : node_at root n = NodeData.zero)
    (hs : 1 ≤ d.ss_ids.length) :
    node_at (restore_record root n d now) n = reloaded d := by
  unfold restore_record
  rw [node_at_update_at _ n _ n (inserted_for_reload root hroot n d now).2.1, if_pos rfl]
  have hhead : [d.ss_ids.headD []] = d.ss_ids.take 1 := by
    cases hl : d.ss_ids with
    | nil =>
      rw [hl] at hs
      cases hs
    | cons a rest => rfl
  by_cases hf : d.is_folder = true
  · rw [if_pos hf]
    unfold insert_folder
    rw [node_at_walk_create _ n root n hroot, if_pos rfl, hzero, hhead]
    simp [reloaded, NodeData.zero, hf]
  · rw [if_neg hf]
    by_cases hl : 1 < d.ss_ids.length
    · rw [if_pos hl]
      unfold insert_file_with_replicas
      rw [node_at_walk_create _ n root n hroot, if_pos rfl, hzero]
      simp [reloaded, NodeData.zero, hf]
    · rw [if_neg hl]
      unfold insert_file
      have hone : d.ss_ids.take 1 = d.ss_ids := List.take_of_length_le (by omega)
      rw [node_at_walk_create _ n root n hroot, if_pos rfl, hzero, hhead, hone]
      simp [reloaded, NodeData.zero, hf]

theorem foldl_restore_ne_null (now : Int) :
    ∀ (L : List (CStr × NodeData)) (root : FileNode), root ≠ FileNode.null →
      L.foldl (fun r p => restore_record r p.1 p.2 now) root ≠ FileNode.null := by
  intro L
  induction L with
  | nil => exact fun _ h => h
  | cons p L ih =>
    intro root hroot
    exact ih _ (restore_record_ne_null root hroot p.1 p.2 now)

theorem node_at_foldl_restore_other (now : Int) (q : CStr) :
    ∀ (L : List (CStr × NodeData)) (root : FileNode), root ≠ FileNode.null →
      (∀ p ∈ L, p.1 ≠ q) →
      node_at (L.foldl (fun r p => restore_record r p.1 p.2 now) root) q = node_at root q := by
  intro L
  induction L with
  | nil => exact fun _ _ _ => rfl
  | cons p L ih =>
    intro root hroot hne
    rw [List.foldl_cons, ih _ (restore_record_ne_null root hroot p.1 p.2 now)
      (fun x hx => hne x (List.mem_cons_of_mem _ hx)),
      node_at_restore_record_other root hroot p.1 p.2 now q
        (fun h => hne p (List.mem_cons_self _ _) h.symm)]

theorem node_at_foldl_restore_mem (now : Int) :
    ∀ (L : List (CStr × NodeData)) (root : FileNode), root ≠ FileNode.null →
      L.Pairwise (fun a b => a.1 ≠ b.1) →
      (∀ p ∈ L, node_at root p.1 = NodeData.zero) →
      (∀ p ∈ L, 1 ≤ p.2.ss_ids.length) →
      ∀ p ∈ L,
        node_at (L.foldl (fun r p => restore_record r p.1 p.2 now) root) p.1 =
          reloaded p.2 := by
  intro L
  induction L with
  | nil =>
    intro _ _ _ _ _ p hp
    cases hp
  | cons a L ih =>
    intro root hroot hpair hzero hs p hp
    rw [List.pairwise_cons] at hpair
    rw [List.foldl_cons]
    rcases List.mem_cons.mp hp with h | h
    · subst h
      rw [node_at_foldl_restore_other now p.1 L _
        (restore_record_ne_null root hroot p.1 p.2 now)
        (fun x hx => (hpair.1 x hx).symm)]
      exact node_at_restore_record_fresh root hroot p.1 p.2 now
        (hzero p (List.mem_cons_self _ _)) (hs p (List.mem_cons_self _ _))
    · apply ih _ (restore_record_ne_null root hroot a.1 a.2 now) hpair.2 ?_
        (fun x hx => hs x (List.mem_cons_of_mem _ hx)) p h
      intro x hx
      rw [node_at_restore_record_other root hroot a.1 a.2 now x.1 (hpair.1 x hx).symm]
      exact hzero x (List.mem_cons_of_mem _ hx)

theorem length_le_records (L : List (CStr × NodeData)) :
    L.length ≤ (L.flatMap (fun p => serialize_record p.1 p.2)).length := by
  induction L with
  | nil => exact Nat.le_refl _
  | cons p L ih =>
    rw [List.flatMap_cons, List.length_append, List.length_cons]
    have h1 : 1 ≤ (serialize_record p.1 p.2).length := by
      unfold serialize_record
      simp only [List.length_append, List.length_singleton]
      omega
    exact Nat.le_trans (by omega : L.length + 1 ≤ 1 + L.length) (Nat.add_le_add h1 ih)

/-- With the magic `NMTRIE02` and an allocated root, `load_trie_from_file` runs the
loading loop on the rest of the file and returns 1. -/
theorem load_trie_from_file_magic_02 (root : FileNode) (hroot : root ≠ FileNode.null)
    (rest : List Byte) (now : Int) :
    load_trie_from_file root (some (MAGIC_02 ++ rest)) now =
      match load_entries (rest.length + 1) root rest now with
      | none => none
      | some root1 => some (1, root1) := by
  cases root with
  | null => exact absurd rfl hroot
  | node d ch =>
    unfold load_trie_from_file
    dsimp only
    rw [fread_append 8 MAGIC_02 _ rfl]
    dsimp only
    rw [if_neg (by decide)]
    exact if_neg (by decide)

/-- Snapshot then reload, field by field. For every directory whose terminal nodes fit
the snapshot format (names of at most 1023 bytes, other strings of at most 10000
bytes, no NUL byte, between 1 and `MAX_SS` replica ids, at most `MAX_USERS` entries
in each ACL list, sizes and times in the range of `long`), `load_trie_from_file`
applied to an empty root and the bytes written by `save_trie_to_file` returns 1,
and the loaded directory has exactly the same terminal names, with the same owner,
size, creation_time, last_modified, is_folder, is_in_trash, read_users and
write_users; a file has the same replica list, a folder keeps the first entry of
its replica list only. -/
theorem snapshot_reload_round_trip (T : FileNode) (now : Int)
    (hfit : ∀ n d, find_file_any_status T n = some d → FitsSnapshot (n, d)) :
    (∃ T1, load_trie_from_file create_file_node (some (save_trie_to_file T)) now =
        some (1, T1) ∧
      ∀ q, find_file_any_status T1 q = (find_file_any_status T q).map reloaded) ∧
    (∀ d : NodeData,
      (reloaded d).owner = d.owner ∧ (reloaded d).size = d.size ∧
      (reloaded d).creation_time = d.creation_time ∧
      (reloaded d).last_modified = d.last_modified ∧
      (reloaded d).is_folder = d.is_folder ∧ (reloaded d).is_in_trash = d.is_in_trash ∧
      (reloaded d).read_users = d.read_users ∧ (reloaded d).write_users = d.write_users ∧
      (d.is_folder = false → (reloaded d).ss_ids = d.ss_ids) ∧
      (d.is_folder = true → (reloaded d).ss_ids = d.ss_ids.take 1)) := by
  have hmem : ∀ p ∈ terminals T [], find_file_any_status T p.1 = some p.2 := by
    intro p hp
    obtain ⟨q, hq, hf⟩ := (mem_terminals_iff T [] p.1 p.2).mp hp
    rw [List.nil_append] at hq
    rw [hq]
    exact hf
  have hfitL : ∀ p ∈ terminals T [], FitsSnapshot p := fun p hp => hfit p.1 p.2 (hmem p hp)
  have hroot : create_file_node ≠ FileNode.null := by simp [create_file_node]
  refine ⟨⟨(terminals T []).foldl (fun r p => restore_record r p.1 p.2 now) create_file_node,
    ?_, ?_⟩, ?_⟩
  · unfold save_trie_to_file
    rw [List.append_assoc, load_trie_from_file_magic_02 create_file_node hroot,
      serialize_eq_terminals T [] (fun p hp => (hfitL p hp).1.1),
      load_entries_records now (terminals T []) _ create_file_node hroot hfitL
        (by
          have := length_le_records (terminals T [])
          rw [List.length_append]
          omega)]
  · intro q
    rw [find_file_any_status_eq]
    cases hq : find_file_any_status T q with
    | some d =>
      have hin : (q, d) ∈ terminals T [] :=
        (mem_terminals_iff T [] q d).mpr ⟨q, rfl, hq⟩
      have h := node_at_foldl_restore_mem now (terminals T []) create_file_node hroot
        ((terminals_sorted T []).imp (fun h => ne_of_lt h))
        (fun p _ => node_at_create_file_node p.1)
        (fun p hp => (hfitL p hp).2.2.1) (q, d) hin
      dsimp only at h
      rw [h]
      rfl
    | none =>
      rw [node_at_foldl_restore_other now q (terminals T []) create_file_node hroot
        (fun p hp hpq => by
          have := hmem p hp
          rw [hpq, hq] at this
          cases this),
        node_at_create_file_node]
      rfl
  · intro d
    refine ⟨rfl, rfl, rfl, rfl, rfl, rfl, rfl, rfl, ?_, ?_⟩
    · intro h
      simp [reloaded, h]
    · intro h
      simp [reloaded, h]

set_option maxRecDepth 1000000 in
/-- C11: a folder with two replicas loses one of them on reload. `alice` sends
`CREATE c.txt` and `CREATEFOLDER F` while `ss1` and `ss2` are active: the file
`c.txt` has the replica list `[ss1, ss2]` and the folder `F` has `[ss2, ss1]`.
`save_trie_to_file` writes both lists, and `load_trie_from_file` into an empty root
returns 1; in the loaded directory `c.txt` has `[ss1, ss2]` again, and `F` has
`[ss2]` only, because the folder branch re-inserts with `ss_ids[0]` alone. -/
theorem reload_keeps_first_folder_replica :
    (find_file_any_status state_replicated.file_trie_root name_F).map
        (fun d => (d.is_folder, d.ss_ids)) = some (true, [id_ss2, id_ss1]) ∧
    (find_file_any_status state_replicated.file_trie_root c_txt).map
        (fun d => (d.is_folder, d.ss_ids)) = some (false, [id_ss1, id_ss2]) ∧
    (load_trie_from_file create_file_node
        (some (save_trie_to_file state_replicated.file_trie_root)) 500).map
        (fun r => (r.1, (find_file_any_status r.2 name_F).map
          (fun d => (d.is_folder, d.ss_ids)))) = some (1, some (true, [id_ss2])) ∧
    (load_trie_from_file create_file_node
        (some (save_trie_to_file state_replicated.file_trie_root)) 500).map
        (fun r => (find_file_any_status r.2 c_txt).map
          (fun d => (d.is_folder, d.ss_ids))) = some (some (false, [id_ss1, id_ss2])) :=
  ⟨by decide, by decide, by decide, by decide⟩

set_option maxRecDepth 1000000 in
/-- Snapshot then reload, worked instance: the directory with the file `c.txt` and
the folder `F` fits the snapshot format, and its snapshot reloads to the same names
with the reloaded fields. -/
theorem snapshot_reload_round_trip_witness :
    (∀ p ∈ terminals state_replicated.file_trie_root [], FitsSnapshot p) ∧
    (∃ T1, load_trie_from_file create_file_node
        (some (save_trie_to_file state_replicated.file_trie_root)) 500 = some (1, T1) ∧
      ∀ q, find_file_any_status T1 q =
        (find_file_any_status state_replicated.file_trie_root q).map reloaded) :=
  have h : ∀ p ∈ terminals state_replicated.file_trie_root [], FitsSnapshot p := by decide
  ⟨h, (snapshot_reload_round_trip state_replicated.file_trie_root 500
    (fun n d hf => h (n, d)
      ((mem_terminals_iff state_replicated.file_trie_root [] n d).mpr ⟨n, rfl, hf⟩))).1⟩

theorem c_string_full_length :
    ∀ (bs : List Byte) (s : CStr), c_string bs = some s → s.length = bs.length →
      bs = s.map char_byte := by
  intro bs
  induction bs with
  | nil =>
    intro s h _
    cases h
    rfl
  | cons b bs ih =>
    intro s h hlen
    unfold c_string at h
    by_cases h0 : b.val = 0
    · rw [if_pos h0] at h
      cases h
      cases hlen
    · rw [if_neg h0] at h
      by_cases h1 : b.val < 128
      · rw [dif_pos h1] at h
        cases hc : c_string bs with
        | none =>
          rw [hc] at h
          cases h
        | some s1 =>
          rw [hc] at h
          cases h
          simp only [List.length_cons, Nat.add_right_cancel_iff] at hlen
          rw [List.map_cons, ← ih s1 hc hlen]
          rfl
      · rw [dif_neg h1] at h
        cases h

/-- C12: a snapshot with a wrong magic is discarded. For every byte sequence whose
first 8 bytes are not `NMTRIE02`, `load_trie_from_file` returns 0 or -1, never 1,
and leaves the root as it was; `main` therefore goes on with the directory that
`create_file_node` made, in which no name is found. -/
theorem wrong_magic_discarded (root : FileNode) (fp : List Byte) (now : Int)
    (h : fp.take 8 ≠ MAGIC_02) :
    (∃ r : Int, r ≠ 1 ∧ (r = 0 ∨ r = -1) ∧
      load_trie_from_file root (some fp) now = some (r, root)) ∧
    main_startup_directory (some fp) now = some create_file_node ∧
    (∀ q, find_file_any_status create_file_node q = none) := by
  have hload : ∀ root0 : FileNode, ∃ r : Int, r ≠ 1 ∧ (r = 0 ∨ r = -1) ∧
      load_trie_from_file root0 (some fp) now = some (r, root0) := by
    intro root0
    unfold load_trie_from_file
    dsimp only
    unfold fread
    by_cases hlen : 8 ≤ fp.length
    · rw [if_pos hlen]
      dsimp only
      by_cases hA : c_string (fp.take 8) ≠ c_string MAGIC_02 ∧
          c_string (fp.take 8) ≠ c_string MAGIC_01
      · rw [if_pos hA]
        exact ⟨0, by decide, Or.inl rfl, rfl⟩
      · rw [if_neg hA]
        by_cases hB : c_string (fp.take 8) = c_string MAGIC_01
        · rw [if_pos hB]
          exact ⟨0, by decide, Or.inl rfl, rfl⟩
        · exfalso
          have hC : c_string (fp.take 8) = c_string MAGIC_02 := by
            by_contra hne
            exact hA ⟨hne, hB⟩
          have hs : c_string MAGIC_02 = some [78, 77, 84, 82, 73, 69, 48, 50] := by decide
          rw [hs] at hC
          have := c_string_full_length (fp.take 8) _ hC
            (by rw [List.length_take]; simp only [List.length_cons, List.length_nil]; omega)
          exact h (this.trans (by decide))
    · rw [if_neg hlen]
      exact ⟨-1, by decide, Or.inr rfl, rfl⟩
  refine ⟨hload root, ?_, ?_⟩
  · obtain ⟨r, _, _, hr⟩ := hload create_file_node
    unfold main_startup_directory
    rw [hr]
  · intro q
    rw [find_file_any_status_eq, node_at_create_file_node]
    rfl

/-- C12, worked instances: a file with the old magic `NMTRIE01` and a file of three
bytes are discarded, with return values 0 and -1. -/
theorem wrong_magic_discarded_witness :
    ((MAGIC_01 ++ [MARKER_E]).take 8 ≠ MAGIC_02 ∧
      (∃ r : Int, r ≠ 1 ∧ (r = 0 ∨ r = -1) ∧
        load_trie_from_file create_file_node (some (MAGIC_01 ++ [MARKER_E])) 500 =
          some (r, create_file_node)) ∧
      main_startup_directory (some (MAGIC_01 ++ [MARKER_E])) 500 = some create_file_node ∧
      load_trie_from_file create_file_node (some (MAGIC_01 ++ [MARKER_E])) 500 =
        some (0, create_file_node)) ∧
    (([78, 77, 84] : List Byte).take 8 ≠ MAGIC_02 ∧
      main_startup_directory (some [78, 77, 84]) 500 = some create_file_node ∧
      load_trie_from_file create_file_node (some [78, 77, 84]) 500 =
        some (-1, create_file_node)) :=
  have h1 := wrong_magic_discarded create_file_node (MAGIC_01 ++ [MARKER_E]) 500 (by decide)
  have h2 := wrong_magic_discarded create_file_node [78, 77, 84] 500 (by decide)
  ⟨⟨by decide, h1.1, h1.2.1, rfl⟩, ⟨by decide, h2.2.1, rfl⟩⟩

/-! ## VIEWFOLDER -/

set_option maxRecDepth 1000000 in
/-- C21: VIEWFOLDER lists a child that is in trash. `alice` sends `CREATEFOLDER F`,
`CREATE F/b` and `TRASH F/b`; `list_folder_contents` for `F` still outputs `b`,
while `list_files` shows `F/` only and `list_trash` shows `F/b`. -/
theorem viewfolder_lists_trashed_child :
    (find_file_any_status state_F_child_trashed.file_trie_root name_F_b).map
        (fun d => d.is_in_trash) = some true ∧
    list_folder_contents state_F_child_trashed.file_trie_root name_F alice =
      FolderListing.listing (name_b ++ [NEWLINE]) ∧
    handle_VIEWFOLDER state_F_child_trashed alice name_F =
      Sum.inr (FolderListing.listing (name_b ++ [NEWLINE])) ∧
    list_files state_F_child_trashed.file_trie_root alice false false =
      name_F ++ [SLASH, NEWLINE] ∧
    list_trash state_F_child_trashed.file_trie_root alice = name_F_b ++ [NEWLINE] :=
  ⟨by decide, by decide, by decide, by decide, by decide⟩

/-! ## Grant and revoke -/

theorem acl_remove_none (x : CStr) (l : List CStr) (h : x ∉ l) : acl_remove x l = none := by
  unfold acl_remove
  have hnone : l.findIdx? (fun y => streq y x) = none := by
    rw [List.findIdx?_eq_none_iff]
    intro y hy
    simp only [streq, beq_eq_false_iff_ne, ne_eq]
    intro hyx
    exact h (hyx ▸ hy)
  rw [hnone]

theorem acl_remove_first (x : CStr) (a b : List CStr) (ha : x ∉ a) :
    acl_remove x (a ++ x :: b) =
      some (a ++ (((x :: b).getLast?.getD []) :: b).dropLast) := by
  unfold acl_remove
  have hidx : (a ++ x :: b).findIdx? (fun y => streq y x) = some (0 + a.length) := by
    rw [List.findIdx?_append]
    have hnone : a.findIdx? (fun y => streq y x) = none := by
      rw [List.findIdx?_eq_none_iff]
      intro y hy
      simp only [streq, beq_eq_false_iff_ne, ne_eq]
      intro hyx
      exact ha (hyx ▸ hy)
    rw [hnone, List.findIdx?_cons, if_pos (by simp [streq])]
    rfl
  rw [hidx]
  dsimp only
  rw [List.set_append_right _ _ (by omega), List.getLast?_append]
  have hlast : ((x :: b).getLast?.or a.getLast?) = (x :: b).getLast? := by
    cases hl : (x :: b).getLast? with
    | none => simp at hl
    | some v => rfl
  rw [hlast, List.dropLast_append_of_ne_nil]
  · simp
  · simp

theorem rotate_last_perm (b : List CStr) (v : CStr) (h : b.getLast? = some v) :
    (v :: b).dropLast.Perm b := by
  cases b with
  | nil => simp at h
  | cons c rest =>
    have hb := List.dropLast_append_getLast? v h
    have hd : (v :: c :: rest).dropLast = v :: (c :: rest).dropLast := rfl
    rw [hd]
    have h1 : (v :: (c :: rest).dropLast).Perm ((c :: rest).dropLast ++ [v]) :=
      @List.perm_append_comm _ [v] (c :: rest).dropLast
    rw [hb] at h1
    exact h1

/-- The removal loop takes out exactly one occurrence of the user. -/
theorem acl_remove_mem (x : CStr) (l : List CStr) (h : x ∈ l) :
    ∃ l1, acl_remove x l = some l1 ∧ (x :: l1).Perm l := by
  obtain ⟨a, b, hl, ha⟩ := List.eq_append_cons_of_mem h
  refine ⟨a ++ (((x :: b).getLast?.getD []) :: b).dropLast, ?_, ?_⟩
  · rw [hl]
    exact acl_remove_first x a b ha
  · rw [hl]
    refine List.Perm.trans ?_ (@List.perm_middle _ x a b).symm
    refine List.Perm.cons x (List.Perm.append_left a ?_)
    cases b with
    | nil => simp
    | cons c rest =>
      have hlast : (x :: c :: rest).getLast? = (c :: rest).getLast? := List.getLast?_cons_cons
      rw [hlast]
      cases hv : (c :: rest).getLast? with
      | none => simp at hv
      | some v => exact rotate_last_perm (c :: rest) v hv

theorem acl_remove_appended (x : CStr) (l : List CStr) (h : x ∉ l) :
    acl_remove x (l ++ [x]) = some l := by
  rw [acl_remove_first x l [] h]
  simp

theorem find_file_update_at (root : FileNode) (f : CStr) (node : NodeData)
    (g : NodeData → NodeData) (hf : find_file root f = some node)
    (he : (g node).is_end_of_word = node.is_end_of_word)
    (ht : (g node).is_in_trash = node.is_in_trash) :
    find_file (update_at g f root) f = some (g node) := by
  have hd := find_file_some hf
  unfold find_file
  rw [data_walk_update_at, if_pos rfl, hd.1]
  simp [he, ht, hd.2.1, hd.2.2]

theorem node_at_of_find_file {root : FileNode} {f : CStr} {node : NodeData}
    (hf : find_file root f = some node) : node_at root f = node :=
  node_at_of_data (find_file_some hf).1

/-- A grant followed by its revocation, for either flag: the list that the grant
appended to is given by `sel`, `put`. -/
theorem grant_revoke_steps (root : FileNode) (o f u : CStr) (node : NodeData)
    (hf : f.length ≠ 0) (hu : u.length ≠ 0)
    (hnode : find_file root f = some node) (howner : node.owner = o)
    (hr : u ∉ node.read_users) (hw : u ∉ node.write_users) :
    (node.read_users.length < MAX_USERS →
      handle_ADDACCESS root o FLAG_R f u =
        (Reply.ACK_ADDACCESS_READ,
         update_at (fun d => { d with read_users := d.read_users ++ [u] }) f root) ∧
      (handle_REMACCESS
        (update_at (fun d => { d with read_users := d.read_users ++ [u] }) f root)
        o f u).1 = Reply.ACK_REMACCESS ∧
      ∀ q, node_at (handle_REMACCESS
        (update_at (fun d => { d with read_users := d.read_users ++ [u] }) f root)
        o f u).2 q = node_at root q) ∧
    (node.write_users.length < MAX_USERS →
      handle_ADDACCESS root o FLAG_W f u =
        (Reply.ACK_ADDACCESS_WRITE,
         update_at (fun d => { d with write_users := d.write_users ++ [u] }) f root) ∧
      (handle_REMACCESS
        (update_at (fun d => { d with write_users := d.write_users ++ [u] }) f root)
        o f u).1 = Reply.ACK_REMACCESS ∧
      ∀ q, node_at (handle_REMACCESS
        (update_at (fun d => { d with write_users := d.write_users ++ [u] }) f root)
        o f u).2 q = node_at root q) := by
  have hstreq : streq node.owner o = true := by
    rw [howner]
    simp [streq]
  have hdata : (walk root f).data ≠ none := by
    rw [(find_file_some hnode).1]
    simp
  have hat : node_at root f = node := node_at_of_find_file hnode
  constructor
  · intro hlen
    have hfind1 := find_file_update_at root f node
      (fun d => { d with read_users := d.read_users ++ [u] }) hnode rfl rfl
    have hdata1 : (walk (update_at (fun d => { d with read_users := d.read_users ++ [u] })
        f root) f).data ≠ none := by
      rw [(find_file_some hfind1).1]
      simp
    have hrem : handle_REMACCESS
        (update_at (fun d => { d with read_users := d.read_users ++ [u] }) f root) o f u =
        (Reply.ACK_REMACCESS,
         update_at (fun d => { d with read_users := node.read_users }) f
           (update_at (fun d => { d with read_users := d.read_users ++ [u] }) f root)) := by
      unfold handle_REMACCESS
      rw [if_neg (by simp [hf, hu]), hfind1]
      dsimp only
      rw [if_neg (by rw [hstreq]; simp), acl_remove_none u node.write_users hw]
      dsimp only
      rw [acl_remove_appended u node.read_users hr]
    refine ⟨?_, ?_, ?_⟩
    · unfold handle_ADDACCESS
      rw [if_neg (by simp [hf, hu, FLAG_R]), hnode]
      dsimp only
      rw [if_neg (by rw [hstreq]; simp), if_pos (by simp [streq]), if_pos hlen]
    · rw [hrem]
    · intro q
      rw [hrem]
      dsimp only
      by_cases hq : q = f
      · rw [hq, node_at_update_at _ f _ f hdata1, if_pos rfl,
          node_at_update_at _ f _ f hdata, if_pos rfl, hat]
      · rw [node_at_update_at _ f _ q hdata1, if_neg hq,
          node_at_update_at _ f _ q hdata, if_neg hq]
  · intro hlen
    have hfind1 := find_file_update_at root f node
      (fun d => { d with write_users := d.write_users ++ [u] }) hnode rfl rfl
    have hdata1 : (walk (update_at (fun d => { d with write_users := d.write_users ++ [u] })
        f root) f).data ≠ none := by
      rw [(find_file_some hfind1).1]
      simp
    have hrem : handle_REMACCESS
        (update_at (fun d => { d with write_users := d.write_users ++ [u] }) f root) o f u =
        (Reply.ACK_REMACCESS,
         update_at (fun d => { d with write_users := node.write_users }) f
           (update_at (fun d => { d with write_users := d.write_users ++ [u] }) f root)) := by
      unfold handle_REMACCESS
      rw [if_neg (by simp [hf, hu]), hfind1]
      dsimp only
      rw [if_neg (by rw [hstreq]; simp), acl_remove_appended u node.write_users hw]
    refine ⟨?_, ?_, ?_⟩
    · unfold handle_ADDACCESS
      rw [if_neg (by simp [hf, hu, FLAG_W]), hnode]
      dsimp only
      rw [if_neg (by rw [hstreq]; simp), if_neg (by decide), if_pos (by simp [streq]),
        if_pos hlen]
    · rw [hrem]
    · intro q
      rw [hrem]
      dsimp only
      by_cases hq : q = f
      · rw [hq, node_at_update_at _ f _ f hdata1, if_pos rfl,
          node_at_update_at _ f _ f hdata, if_pos rfl, hat]
      · rw [node_at_update_at _ f _ q hdata1, if_neg hq,
          node_at_update_at _ f _ q hdata, if_neg hq]

theorem grant_refused_steps (root : FileNode) (o f u : CStr) (node : NodeData)
    (hf : f.length ≠ 0) (hu : u.length ≠ 0)
    (hnode : find_file root f = some node) (howner : node.owner = o)
    (hr : u ∉ node.read_users) (hw : u ∉ node.write_users) :
    handle_REMACCESS root o f u = (Reply.ERR_USER_NOT_IN_ACL, root) ∧
    (MAX_USERS ≤ node.read_users.length →
      handle_ADDACCESS root o FLAG_R f u = (Reply.ERR_ACL_FULL, root)) ∧
    (MAX_USERS ≤ node.write_users.length →
      handle_ADDACCESS root o FLAG_W f u = (Reply.ERR_ACL_FULL, root)) := by
  have hstreq : streq node.owner o = true := by
    rw [howner]
    simp [streq]
  refine ⟨?_, ?_, ?_⟩
  · unfold handle_REMACCESS
    rw [if_neg (by simp [hf, hu]), hnode]
    dsimp only
    rw [if_neg (by rw [hstreq]; simp), acl_remove_none u _ hw]
    dsimp only
    rw [acl_remove_none u _ hr]
  · intro hlen
    unfold handle_ADDACCESS
    rw [if_neg (by simp [hf, hu, FLAG_R]), hnode]
    dsimp only
    rw [if_neg (by rw [hstreq]; simp), if_pos (by simp [streq]),
      if_neg (Nat.not_lt.mpr hlen)]
  · intro hlen
    unfold handle_ADDACCESS
    rw [if_neg (by simp [hf, hu, FLAG_W]), hnode]
    dsimp only
    rw [if_neg (by rw [hstreq]; simp), if_neg (by decide), if_pos (by simp [streq]),
      if_neg (Nat.not_lt.mpr hlen)]

theorem access_on_trashed_file (root : FileNode) (o f x flag : CStr) (node : NodeData)
    (hf : f.length ≠ 0) (hx : x.length ≠ 0) (hflag : flag = FLAG_R ∨ flag = FLAG_W)
    (hnode : find_file_any_status root f = some node) (htrash : node.is_in_trash = true) :
    handle_ADDACCESS root o flag f x = (Reply.ERR_FILE_NOT_FOUND_OR_NOT_OWNER, root) ∧
    handle_REMACCESS root o f x = (Reply.ERR_FILE_NOT_FOUND_OR_NOT_OWNER, root) := by
  have hfind : find_file root f = none := by
    rw [find_file_of_any_status hnode, if_pos (by rw [htrash])]
  have hfl : flag.length ≠ 0 := by
    rcases hflag with h | h <;> rw [h] <;> decide
  constructor
  · unfold handle_ADDACCESS
    rw [if_neg (by simp [hf, hx, hfl]), hfind]
  · unfold handle_REMACCESS
    rw [if_neg (by simp [hf, hx]), hfind]

/-- C22, amended: grant then revoke restores the ACL. The file is found by
`find_file` (it is not in trash), `o` owns it, and the user `u` is not `o` and has
no entry in either list, so `check_permission` gives `PERM_NONE`. When the list
that the flag names holds fewer than `MAX_USERS` entries, ADDACCESS by `o` is
acknowledged, the following REMACCESS by `o` replies `ACK_REMACCESS`, and every
node of the directory has the fields it had before the grant. REMACCESS takes one
occurrence of the user out of `write_users` when the user occurs there, out of
`read_users` only otherwise, and replies `ERR_USER_NOT_IN_ACL` without change when
the user is in neither list. When the list that the flag names holds `MAX_USERS`
entries or more, ADDACCESS replies `ERR_ACL_FULL` and the following REMACCESS
replies `ERR_USER_NOT_IN_ACL`, both without change. When the file is in trash,
ADDACCESS with either flag and the following REMACCESS reply
`ERR_FILE_NOT_FOUND_OR_NOT_OWNER`, both without change. -/
theorem grant_then_revoke (root : FileNode) (o f u : CStr) (node : NodeData)
    (hf : f.length ≠ 0) (hu : u.length ≠ 0)
    (hnode : find_file root f = some node) (howner : node.owner = o) (huo : u ≠ o)
    (hr : u ∉ node.read_users) (hw : u ∉ node.write_users) :
    check_permission (some node) (some u) = PermissionLevel.PERM_NONE ∧
    (node.read_users.length < MAX_USERS →
      (handle_ADDACCESS root o FLAG_R f u).1 = Reply.ACK_ADDACCESS_READ ∧
      (handle_REMACCESS (handle_ADDACCESS root o FLAG_R f u).2 o f u).1 =
        Reply.ACK_REMACCESS ∧
      (∀ q, node_at (handle_REMACCESS (handle_ADDACCESS root o FLAG_R f u).2 o f u).2 q =
        node_at root q) ∧
      find_file (handle_REMACCESS (handle_ADDACCESS root o FLAG_R f u).2 o f u).2 f =
        some node) ∧
    (node.write_users.length < MAX_USERS →
      (handle_ADDACCESS root o FLAG_W f u).1 = Reply.ACK_ADDACCESS_WRITE ∧
      (handle_REMACCESS (handle_ADDACCESS root o FLAG_W f u).2 o f u).1 =
        Reply.ACK_REMACCESS ∧
      (∀ q, node_at (handle_REMACCESS (handle_ADDACCESS root o FLAG_W f u).2 o f u).2 q =
        node_at root q) ∧
      find_file (handle_REMACCESS (handle_ADDACCESS root o FLAG_W f u).2 o f u).2 f =
        some node) ∧
    (∀ (root1 : FileNode) (node1 : NodeData) (x : CStr), x.length ≠ 0 →
      find_file root1 f = some node1 → node1.owner = o →
      (x ∈ node1.write_users →
        ∃ w1, (x :: w1).Perm node1.write_users ∧
          handle_REMACCESS root1 o f x =
            (Reply.ACK_REMACCESS,
             update_at (fun d => { d with write_users := w1 }) f root1)) ∧
      (x ∉ node1.write_users → x ∈ node1.read_users →
        ∃ r1, (x :: r1).Perm node1.read_users ∧
          handle_REMACCESS root1 o f x =
            (Reply.ACK_REMACCESS,
             update_at (fun d => { d with read_users := r1 }) f root1)) ∧
      (x ∉ node1.write_users → x ∉ node1.read_users →
        handle_REMACCESS root1 o f x = (Reply.ERR_USER_NOT_IN_ACL, root1))) ∧
    (MAX_USERS ≤ node.read_users.length →
      handle_ADDACCESS root o FLAG_R f u = (Reply.ERR_ACL_FULL, root) ∧
      handle_REMACCESS (handle_ADDACCESS root o FLAG_R f u).2 o f u =
        (Reply.ERR_USER_NOT_IN_ACL, root)) ∧
    (MAX_USERS ≤ node.write_users.length →
      handle_ADDACCESS root o FLAG_W f u = (Reply.ERR_ACL_FULL, root) ∧
      handle_REMACCESS (handle_ADDACCESS root o FLAG_W f u).2 o f u =
        (Reply.ERR_USER_NOT_IN_ACL, root)) ∧
    (∀ (root1 : FileNode) (node1 : NodeData) (flag x : CStr),
      flag = FLAG_R ∨ flag = FLAG_W → x.length ≠ 0 →
      find_file_any_status root1 f = some node1 → node1.is_in_trash = true →
      handle_ADDACCESS root1 o flag f x = (Reply.ERR_FILE_NOT_FOUND_OR_NOT_OWNER, root1) ∧
      handle_REMACCESS (handle_ADDACCESS root1 o flag f x).2 o f x =
        (Reply.ERR_FILE_NOT_FOUND_OR_NOT_OWNER, root1)) := by
  have hfull := grant_refused_steps root o f u node hf hu hnode howner hr hw
  have hsteps := grant_revoke_steps root o f u node hf hu hnode howner hr hw
  have hsame : ∀ t : FileNode, (∀ q, node_at t q = node_at root q) →
      find_file t f = some node := by
    intro t ht
    rw [find_file_eq, ht f, ← find_file_eq, hnode]
  refine ⟨?_, ?_, ?_, ?_, ?_, ?_, ?_⟩
  · rw [check_permission_spec]
    dsimp only
    rw [if_neg (by
      rintro (h | h)
      · exact huo (h.trans howner)
      · exact hw h), if_neg hr]
  · intro hlen
    obtain ⟨hadd, hrem, hall⟩ := hsteps.1 hlen
    rw [hadd]
    exact ⟨rfl, hrem, hall, hsame _ hall⟩
  · intro hlen
    obtain ⟨hadd, hrem, hall⟩ := hsteps.2 hlen
    rw [hadd]
    exact ⟨rfl, hrem, hall, hsame _ hall⟩
  · intro root1 node1 x hx hnode1 howner1
    have hstreq : streq node1.owner o = true := by
      rw [howner1]
      simp [streq]
    have hargs : ¬ (f.length = 0 ∨ x.length = 0) := by simp [hf, hx]
    have howner2 : ¬ ¬ streq node1.owner o = true := by
      rw [hstreq]
      simp
    refine ⟨?_, ?_, ?_⟩
    · intro hmem
      obtain ⟨w1, hw1, hperm⟩ := acl_remove_mem x node1.write_users hmem
      refine ⟨w1, hperm, ?_⟩
      unfold handle_REMACCESS
      rw [if_neg hargs, hnode1]
      dsimp only
      rw [if_neg howner2, hw1]
    · intro hnw hmem
      obtain ⟨r1, hr1, hperm⟩ := acl_remove_mem x node1.read_users hmem
      refine ⟨r1, hperm, ?_⟩
      unfold handle_REMACCESS
      rw [if_neg hargs, hnode1]
      dsimp only
      rw [if_neg howner2, acl_remove_none x _ hnw]
      dsimp only
      rw [hr1]
    · intro hnw hnr
      unfold handle_REMACCESS
      rw [if_neg hargs, hnode1]
      dsimp only
      rw [if_neg howner2, acl_remove_none x _ hnw]
      dsimp only
      rw [acl_remove_none x _ hnr]
  · intro hlen
    have hadd := hfull.2.1 hlen
    rw [hadd]
    exact ⟨rfl, hfull.1⟩
  · intro hlen
    have hadd := hfull.2.2 hlen
    rw [hadd]
    exact ⟨rfl, hfull.1⟩
  · intro root1 node1 flag x hflag hx hnode1 htrash1
    have h := access_on_trashed_file root1 o f x flag node1 hf hx hflag hnode1 htrash1
    rw [h.1]
    exact ⟨rfl, h.2⟩

set_option maxRecDepth 1000000 in
/-- C22, as stated, fails when the grant is refused. The read list of `c.txt` of
`alice` holds `MAX_USERS` entries and `carol` has no entry: ADDACCESS -R replies
`ERR_ACL_FULL` and the REMACCESS that follows replies `ERR_USER_NOT_IN_ACL`. And
when `c.txt` is in trash, both commands reply `ERR_FILE_NOT_FOUND_OR_NOT_OWNER`. -/
theorem revoke_after_refused_grant :
    (find_file root_read_list_full c_txt).map
        (fun d => (d.owner, d.read_users.length, decide (carol ∈ d.read_users),
          decide (carol ∈ d.write_users))) = some (alice, 50, false, false) ∧
    (handle_ADDACCESS root_read_list_full alice FLAG_R c_txt carol).1 = Reply.ERR_ACL_FULL ∧
    (handle_REMACCESS (handle_ADDACCESS root_read_list_full alice FLAG_R c_txt carol).2
      alice c_txt carol).1 = Reply.ERR_USER_NOT_IN_ACL ∧
    (find_file_any_status state_after_trash.file_trie_root c_txt).map
        (fun d => (d.owner, d.read_users, d.write_users)) = some (alice, [], [alice]) ∧
    (handle_ADDACCESS state_after_trash.file_trie_root alice FLAG_R c_txt bob).1 =
      Reply.ERR_FILE_NOT_FOUND_OR_NOT_OWNER ∧
    (handle_REMACCESS
      (handle_ADDACCESS state_after_trash.file_trie_root alice FLAG_R c_txt bob).2
      alice c_txt bob).1 = Reply.ERR_FILE_NOT_FOUND_OR_NOT_OWNER :=
  ⟨by decide, by decide, by decide, by decide, by decide, by decide⟩

set_option maxRecDepth 1000000 in
/-- C22, worked instances: `alice` grants `bob` READ access to her `c.txt` and revokes
it; the node of `c.txt` is as before and `bob` has no permission. With the read list
of `c.txt` full, the grant to `carol` and the revocation are refused. With `c.txt`
in trash, the grant to `bob` and the revocation are refused. -/
theorem grant_then_revoke_witness :
    (find_file state_after_create.file_trie_root c_txt =
        some (node_at state_after_create.file_trie_root c_txt) ∧
      (node_at state_after_create.file_trie_root c_txt).owner = alice ∧
      bob ≠ alice) ∧
    (handle_ADDACCESS state_after_create.file_trie_root alice FLAG_R c_txt bob).1 =
      Reply.ACK_ADDACCESS_READ ∧
    (handle_REMACCESS
      (handle_ADDACCESS state_after_create.file_trie_root alice FLAG_R c_txt bob).2
      alice c_txt bob).1 = Reply.ACK_REMACCESS ∧
    find_file (handle_REMACCESS
      (handle_ADDACCESS state_after_create.file_trie_root alice FLAG_R c_txt bob).2
      alice c_txt bob).2 c_txt = some (node_at state_after_create.file_trie_root c_txt) ∧
    check_permission (some (node_at state_after_create.file_trie_root c_txt)) (some bob) =
      PermissionLevel.PERM_NONE ∧
    (MAX_USERS ≤ (node_at root_read_list_full c_txt).read_users.length ∧
      handle_ADDACCESS root_read_list_full alice FLAG_R c_txt carol =
        (Reply.ERR_ACL_FULL, root_read_list_full) ∧
      handle_REMACCESS (handle_ADDACCESS root_read_list_full alice FLAG_R c_txt carol).2
        alice c_txt carol = (Reply.ERR_USER_NOT_IN_ACL, root_read_list_full)) ∧
    ((node_at state_after_trash.file_trie_root c_txt).is_in_trash = true ∧
      handle_ADDACCESS state_after_trash.file_trie_root alice FLAG_R c_txt bob =
        (Reply.ERR_FILE_NOT_FOUND_OR_NOT_OWNER, state_after_trash.file_trie_root) ∧
      handle_REMACCESS
        (handle_ADDACCESS state_after_trash.file_trie_root alice FLAG_R c_txt bob).2
        alice c_txt bob =
        (Reply.ERR_FILE_NOT_FOUND_OR_NOT_OWNER, state_after_trash.file_trie_root)) :=
  have hnode : find_file state_after_create.file_trie_root c_txt =
      some (node_at state_after_create.file_trie_root c_txt) := by decide
  have h := grant_then_revoke state_after_create.file_trie_root alice c_txt bob
    (node_at state_after_create.file_trie_root c_txt) (by decide) (by decide) hnode
    (by decide) (by decide) (by decide) (by decide)
  have hread := h.2.1 (by decide)
  have hfull_len : MAX_USERS ≤ (node_at root_read_list_full c_txt).read_users.length := by
    decide
  have hfull := (grant_then_revoke root_read_list_full alice c_txt carol
    (node_at root_read_list_full c_txt) (by decide) (by decide) (by decide)
    (by decide) (by decide) (by decide) (by decide)).2.2.2.2.1 hfull_len
  have htrash : (node_at state_after_trash.file_trie_root c_txt).is_in_trash = true := by
    decide
  have hgone := h.2.2.2.2.2.2 state_after_trash.file_trie_root
    (node_at state_after_trash.file_trie_root c_txt) FLAG_R bob (Or.inl rfl) (by decide)
    (by decide) htrash
  ⟨⟨hnode, by decide, by decide⟩, hread.1, hread.2.1, hread.2.2.2, h.1,
    ⟨hfull_len, hfull.1, hfull.2⟩, ⟨htrash, hgone.1, hgone.2⟩⟩

/-! ## Redirect targets -/

theorem redirect_after_permission_of_sufficient (command : Verb) (perm : PermissionLevel)
    (ip : CStr) (port : Int)
    (hr : PermissionLevel.PERM_READ.toNat ≤ perm.toNat)
    (hw : command = Verb.WRITE → perm = PermissionLevel.PERM_WRITE) :
    redirect_after_permission command perm ip port = Reply.ACK_REDIRECT command ip port := by
  unfold redirect_after_permission
  rw [if_neg, if_neg]
  · rintro ⟨_, h⟩
    omega
  · rintro ⟨hc, h⟩
    rw [hw hc] at h
    exact absurd h (by decide)

/-- The replica scan returns the first id of the list that `get_ss_by_id` resolves,
and nothing when it resolves none. -/
theorem first_active_replica_spec (ss_list : List StorageServer) :
    ∀ ids : List CStr,
      (first_active_replica ss_list ids = none ↔
        ∀ id ∈ ids, get_ss_by_id ss_list id = none) ∧
      (∀ id ss, first_active_replica ss_list ids = some (id, ss) →
        ∃ before after, ids = before ++ id :: after ∧
          (∀ x ∈ before, get_ss_by_id ss_list x = none) ∧
          get_ss_by_id ss_list id = some ss ∧ ss ∈ ss_list ∧ ss.is_active = true) := by
  intro ids
  induction ids with
  | nil =>
    refine ⟨by simp [first_active_replica], ?_⟩
    intro id ss h
    simp [first_active_replica] at h
  | cons x rest ih =>
    cases hx : get_ss_by_id ss_list x with
    | none =>
      have hstep : first_active_replica ss_list (x :: rest) =
          first_active_replica ss_list rest := by
        rw [first_active_replica, hx]
      rw [hstep]
      refine ⟨?_, ?_⟩
      · rw [ih.1]
        simp [hx]
      · intro id ss h
        obtain ⟨before, after, hids, hb, hid⟩ := ih.2 id ss h
        refine ⟨x :: before, after, by rw [hids]; rfl, ?_, hid⟩
        intro y hy
        rcases List.mem_cons.mp hy with hy | hy
        · rw [hy]
          exact hx
        · exact hb y hy
    | some s =>
      have hs := get_ss_by_id_active hx
      have hstep : first_active_replica ss_list (x :: rest) = some (x, s) := by
        rw [first_active_replica, hx]
        simp [hs.2]
      rw [hstep]
      refine ⟨?_, ?_⟩
      · constructor
        · intro h
          cases h
        · intro h
          have := h x (List.mem_cons_self _ _)
          rw [hx] at this
          cases this
      · intro id ss h
        simp only [Option.some.injEq, Prod.mk.injEq] at h
        obtain ⟨h1, h2⟩ := h
        subst h1
        subst h2
        exact ⟨[], rest, rfl, by simp, hx, hs.1, hs.2⟩

/-- C23, amended: which storage server a redirect names. The file is found, the
caller has the permission the verb needs, and the cache yields no active server.
READ, STREAM and WRITE redirect to the first server in replica-list order that
`get_ss_by_id` finds active, and reply `ERR_SS_UNREACHABLE` only when no replica is
active. UNDO, CHECKPOINT, REVERT, VIEWCHECKPOINT and LISTCHECKPOINTS look at the
primary (index 0) only: they redirect to it when it is active and reply
`ERR_SS_UNREACHABLE` otherwise, whatever the state of the other replicas. -/
theorem redirect_target (st : NSState) (command : Verb) (u f : CStr) (now : Int)
    (node : NodeData) (hf : f.length ≠ 0)
    (hnode : find_file st.file_trie_root f = some node)
    (hr : PermissionLevel.PERM_READ.toNat ≤ (check_permission (some node) (some u)).toNat)
    (hw : command = Verb.WRITE ∨ command = Verb.UNDO ∨ command = Verb.CHECKPOINT ∨
        command = Verb.REVERT →
      check_permission (some node) (some u) = PermissionLevel.PERM_WRITE)
    (hmiss : (get_cached_ss st.file_cache st.ss_list f now).1.filter
      (fun ss => ss.is_active) = none) :
    (command = Verb.READ ∨ command = Verb.STREAM ∨ command = Verb.WRITE →
      (∀ id ss, first_active_replica st.ss_list node.ss_ids = some (id, ss) →
        (handle_redirect_command st command u f now).reply =
          Reply.ACK_REDIRECT command ss.ip ss.client_port) ∧
      (first_active_replica st.ss_list node.ss_ids = none →
        (handle_redirect_command st command u f now).reply = Reply.ERR_SS_UNREACHABLE)) ∧
    (command = Verb.UNDO ∨ command = Verb.CHECKPOINT ∨ command = Verb.REVERT ∨
        command = Verb.VIEWCHECKPOINT ∨ command = Verb.LISTCHECKPOINTS →
      (∀ ss, get_ss_by_id st.ss_list (node.ss_ids.headD []) = some ss →
        (handle_redirect_command st command u f now).reply =
          Reply.ACK_REDIRECT command ss.ip ss.client_port) ∧
      (get_ss_by_id st.ss_list (node.ss_ids.headD []) = none →
        (handle_redirect_command st command u f now).reply = Reply.ERR_SS_UNREACHABLE)) ∧
    (first_active_replica st.ss_list node.ss_ids = none ↔
      ∀ id ∈ node.ss_ids, get_ss_by_id st.ss_list id = none) ∧
    (∀ id ss, first_active_replica st.ss_list node.ss_ids = some (id, ss) →
      ∃ before after, node.ss_ids = before ++ id :: after ∧
        (∀ x ∈ before, get_ss_by_id st.ss_list x = none) ∧
        get_ss_by_id st.ss_list id = some ss ∧ ss ∈ st.ss_list ∧ ss.is_active = true) := by
  have hrsw : ∀ c : Verb, (c = Verb.WRITE →
        check_permission (some node) (some u) = PermissionLevel.PERM_WRITE) →
      (∀ id ss, first_active_replica st.ss_list node.ss_ids = some (id, ss) →
        (handle_READ_STREAM_WRITE st c u f now).reply =
          Reply.ACK_REDIRECT c ss.ip ss.client_port) ∧
      (first_active_replica st.ss_list node.ss_ids = none →
        (handle_READ_STREAM_WRITE st c u f now).reply = Reply.ERR_SS_UNREACHABLE) := by
    intro c hcw
    unfold handle_READ_STREAM_WRITE
    rw [if_neg hf]
    dsimp only
    rw [hmiss]
    dsimp only
    rw [hnode]
    dsimp only
    constructor
    · intro id ss h
      rw [h]
      exact redirect_after_permission_of_sufficient c _ _ _ hr hcw
    · intro h
      rw [h]
  have hundo : check_permission (some node) (some u) = PermissionLevel.PERM_WRITE →
      (∀ ss, get_ss_by_id st.ss_list (node.ss_ids.headD []) = some ss →
        (handle_UNDO st u f).reply = Reply.ACK_REDIRECT Verb.UNDO ss.ip ss.client_port) ∧
      (get_ss_by_id st.ss_list (node.ss_ids.headD []) = none →
        (handle_UNDO st u f).reply = Reply.ERR_SS_UNREACHABLE) := by
    intro hpw
    unfold handle_UNDO
    rw [hnode]
    dsimp only
    rw [if_neg (by rw [hpw]; decide)]
    constructor
    · intro ss h
      rw [h]
      dsimp only
      rw [if_pos (get_ss_by_id_active h).2]
    · intro h
      rw [h]
  have hck : ∀ c : Verb, (c = Verb.CHECKPOINT ∨ c = Verb.REVERT ∨ c = Verb.VIEWCHECKPOINT ∨
        c = Verb.LISTCHECKPOINTS) →
      (c = Verb.CHECKPOINT ∨ c = Verb.REVERT →
        check_permission (some node) (some u) = PermissionLevel.PERM_WRITE) →
      (∀ ss, get_ss_by_id st.ss_list (node.ss_ids.headD []) = some ss →
        (handle_CHECKPOINT_family st c u f).reply =
          Reply.ACK_REDIRECT c ss.ip ss.client_port) ∧
      (get_ss_by_id st.ss_list (node.ss_ids.headD []) = none →
        (handle_CHECKPOINT_family st c u f).reply = Reply.ERR_SS_UNREACHABLE) := by
    intro c hc hcw
    unfold handle_CHECKPOINT_family
    rw [if_neg hf, hnode]
    dsimp only
    have hverb : (if c = Verb.CHECKPOINT then Verb.CHECKPOINT
        else if c = Verb.REVERT then Verb.REVERT
        else if c = Verb.VIEWCHECKPOINT then Verb.VIEWCHECKPOINT
        else Verb.LISTCHECKPOINTS) = c := by
      rcases hc with h | h | h | h <;> subst h <;> rfl
    have hok : ¬ ((decide (c = Verb.CHECKPOINT ∨ c = Verb.REVERT) = true ∧
          (check_permission (some node) (some u)).toNat <
            PermissionLevel.PERM_WRITE.toNat) ∨
        (¬ decide (c = Verb.CHECKPOINT ∨ c = Verb.REVERT) = true ∧
          (check_permission (some node) (some u)).toNat <
            PermissionLevel.PERM_READ.toNat)) := by
      rintro (⟨h1, h2⟩ | ⟨_, h2⟩)
      · rw [hcw (of_decide_eq_true h1)] at h2
        exact absurd h2 (by decide)
      · omega
    rw [if_neg hok]
    constructor
    · intro ss h
      rw [h]
      dsimp only
      rw [if_pos (get_ss_by_id_active h).2, hverb]
    · intro h
      rw [h]
  refine ⟨?_, ?_, (first_active_replica_spec st.ss_list node.ss_ids).1,
    (first_active_replica_spec st.ss_list node.ss_ids).2⟩
  · rintro (h | h | h)
    · subst h
      exact hrsw Verb.READ (fun hc => by cases hc)
    · subst h
      exact hrsw Verb.STREAM (fun hc => by cases hc)
    · subst h
      exact hrsw Verb.WRITE (fun _ => hw (Or.inl rfl))
  · rintro (h | h | h | h | h)
    · subst h
      exact hundo (hw (Or.inr (Or.inl rfl)))
    · subst h
      exact hck Verb.CHECKPOINT (Or.inl rfl) (fun _ => hw (Or.inr (Or.inr (Or.inl rfl))))
    · subst h
      exact hck Verb.REVERT (Or.inr (Or.inl rfl))
        (fun _ => hw (Or.inr (Or.inr (Or.inr rfl))))
    · subst h
      exact hck Verb.VIEWCHECKPOINT (Or.inr (Or.inr (Or.inl rfl)))
        (fun hc => by rcases hc with hc | hc <;> cases hc)
    · subst h
      exact hck Verb.LISTCHECKPOINTS (Or.inr (Or.inr (Or.inr rfl)))
        (fun hc => by rcases hc with hc | hc <;> cases hc)

set_option maxRecDepth 1000000 in
/-- C23, as stated, fails for UNDO and the CHECKPOINT family: `c.txt` of `alice` has
the replica list `[ss1, ss2]`, `ss1` is inactive and `ss2` is active; READ is
redirected to `ss2`, while UNDO and CHECKPOINT reply `ERR_SS_UNREACHABLE`. -/
theorem undo_ignores_active_replica :
    (find_file state_primary_down.file_trie_root c_txt).map (fun d => d.ss_ids) =
      some [id_ss1, id_ss2] ∧
    (first_active_replica state_primary_down.ss_list [id_ss1, id_ss2]).map
      (fun r => r.1) = some id_ss2 ∧
    (handle_redirect_command state_primary_down Verb.READ alice c_txt 150).reply =
      Reply.ACK_REDIRECT Verb.READ localhost 9002 ∧
    (handle_redirect_command state_primary_down Verb.UNDO alice c_txt 150).reply =
      Reply.ERR_SS_UNREACHABLE ∧
    (handle_redirect_command state_primary_down Verb.CHECKPOINT alice c_txt 150).reply =
      Reply.ERR_SS_UNREACHABLE ∧
    (handle_redirect_command state_primary_down Verb.LISTCHECKPOINTS alice c_txt 150).reply =
      Reply.ERR_SS_UNREACHABLE :=
  ⟨by decide, by decide, by decide, by decide, by decide, by decide⟩

set_option maxRecDepth 1000000 in
/-- C23, worked instance: with `ss1` inactive, a WRITE of `alice` on her `c.txt` is
redirected to `ss2`, the first active replica. -/
theorem redirect_target_witness :
    (c_txt.length ≠ 0 ∧
      find_file state_primary_down.file_trie_root c_txt =
        some (node_at state_primary_down.file_trie_root c_txt) ∧
      (get_cached_ss state_primary_down.file_cache state_primary_down.ss_list c_txt
        150).1.filter (fun ss => ss.is_active) = none ∧
      first_active_replica state_primary_down.ss_list
        (node_at state_primary_down.file_trie_root c_txt).ss_ids = some (id_ss2, sample_ss2)) ∧
    (handle_redirect_command state_primary_down Verb.WRITE alice c_txt 150).reply =
      Reply.ACK_REDIRECT Verb.WRITE sample_ss2.ip sample_ss2.client_port :=
  have hnode : find_file state_primary_down.file_trie_root c_txt =
      some (node_at state_primary_down.file_trie_root c_txt) := by decide
  have hmiss : (get_cached_ss state_primary_down.file_cache state_primary_down.ss_list c_txt
      150).1.filter (fun ss => ss.is_active) = none := by decide
  have hfirst : first_active_replica state_primary_down.ss_list
      (node_at state_primary_down.file_trie_root c_txt).ss_ids =
        some (id_ss2, sample_ss2) := by decide
  ⟨⟨by decide, hnode, hmiss, hfirst⟩,
   ((redirect_target state_primary_down Verb.WRITE alice c_txt 150
      (node_at state_primary_down.file_trie_root c_txt) (by decide) hnode (by decide)
      (fun _ => by decide) hmiss).1 (Or.inr (Or.inr rfl))).1 id_ss2 sample_ss2 hfirst⟩

/-! ## Locks -/

/-- The lock loop of DELETE reports a lock exactly when an active replica answers
`FILE_LOCKED`, and sends `NM_CHECK_LOCKS` only. -/
theorem delete_check_locks_spec (env : Env) (ss_list : List StorageServer) (f : CStr) :
    ∀ ids : List CStr,
      ((delete_check_locks env ss_list f ids).1 = true ↔
        ∃ id ∈ ids, ∃ ss, get_ss_by_id ss_list id = some ss ∧
          env.nm_check_locks ss f = true) ∧
      (∀ m ∈ (delete_check_locks env ss_list f ids).2, m.cmd = SSCommand.NM_CHECK_LOCKS f) := by
  intro ids
  induction ids with
  | nil => simp [delete_check_locks]
  | cons x rest ih =>
    cases hx : get_ss_by_id ss_list x with
    | none =>
      have hstep : delete_check_locks env ss_list f (x :: rest) =
          delete_check_locks env ss_list f rest := by
        rw [delete_check_locks, hx]
        rfl
      rw [hstep]
      refine ⟨?_, ih.2⟩
      rw [ih.1]
      simp [hx]
    | some s =>
      have hs := get_ss_by_id_active hx
      have hfilter : (get_ss_by_id ss_list x).filter (fun ss => ss.is_active) = some s := by
        rw [hx]
        simp [Option.filter, hs.2]
      by_cases hl : env.nm_check_locks s f = true
      · have hstep : delete_check_locks env ss_list f (x :: rest) =
            (true, [SSMsg.mk s.id (SSCommand.NM_CHECK_LOCKS f)]) := by
          rw [delete_check_locks, hfilter]
          dsimp only
          rw [if_pos hl]
        rw [hstep]
        refine ⟨?_, ?_⟩
        · simp only [true_iff]
          exact ⟨x, List.mem_cons_self _ _, s, hx, hl⟩
        · intro m hm
          rw [List.mem_singleton] at hm
          rw [hm]
      · have hstep : delete_check_locks env ss_list f (x :: rest) =
            ((delete_check_locks env ss_list f rest).1,
             SSMsg.mk s.id (SSCommand.NM_CHECK_LOCKS f) ::
               (delete_check_locks env ss_list f rest).2) := by
          rw [delete_check_locks, hfilter]
          dsimp only
          rw [if_neg hl]
        rw [hstep]
        refine ⟨?_, ?_⟩
        · dsimp only
          rw [ih.1]
          constructor
          · rintro ⟨id, hid, ss, hss, hlock⟩
            exact ⟨id, List.mem_cons_of_mem _ hid, ss, hss, hlock⟩
          · rintro ⟨id, hid, ss, hss, hlock⟩
            rcases List.mem_cons.mp hid with h | h
            · subst h
              rw [hx] at hss
              cases hss
              exact absurd hlock hl
            · exact ⟨id, h, ss, hss, hlock⟩
        · intro m hm
          rcases List.mem_cons.mp hm with h | h
          · rw [h]
          · exact ih.2 m h

/-- The lock checks of TRASH and DELETE. The owner issues TRASH or DELETE on a file
that is neither a folder nor in trash. TRASH asks the primary only: when the
primary (index 0 of the replica list) is registered active and answers
`FILE_LOCKED`, the reply is `ERR_FILE_LOCKED`. DELETE asks every active server of
the replica list in turn: when one of them answers `FILE_LOCKED`, the reply is
`ERR_FILE_LOCKED`. In both cases the state of the Name Server is unchanged and only
`NM_CHECK_LOCKS` commands have been sent. -/
theorem locked_file_stays (env : Env) (st : NSState) (u f : CStr) (now : Int)
    (node : NodeData) (howner : node.owner = u) (hfolder : node.is_folder = false)
    (htrash : node.is_in_trash = false)
    (hnode : find_file_any_status st.file_trie_root f = some node) :
    (∀ primary rest ss, node.ss_ids = primary :: rest →
      get_ss_by_id st.ss_list primary = some ss → env.nm_check_locks ss f = true →
      (handle_TRASH env st u f now).reply = Reply.ERR_FILE_LOCKED ∧
      (handle_TRASH env st u f now).state = st ∧
      ∀ m ∈ (handle_TRASH env st u f now).sent, m.cmd = SSCommand.NM_CHECK_LOCKS f) ∧
    ((∃ id ∈ node.ss_ids, ∃ ss, get_ss_by_id st.ss_list id = some ss ∧
        env.nm_check_locks ss f = true) →
      (handle_DELETE env st u f).reply = Reply.ERR_FILE_LOCKED ∧
      (handle_DELETE env st u f).state = st ∧
      ∀ m ∈ (handle_DELETE env st u f).sent, m.cmd = SSCommand.NM_CHECK_LOCKS f) := by
  have hstreq : streq node.owner u = true := by
    rw [howner]
    simp [streq]
  constructor
  · intro primary rest ss hids hss hlock
    unfold handle_TRASH
    rw [hnode]
    dsimp only
    rw [if_neg (by rw [hstreq]; simp), if_neg (by rw [htrash]; simp),
      if_neg (by rw [hfolder]; simp), hids]
    dsimp only
    rw [hss]
    dsimp only
    rw [if_pos hlock]
    refine ⟨rfl, rfl, ?_⟩
    intro m hm
    rw [List.mem_singleton] at hm
    rw [hm]
  · intro hex
    have hfind : find_file st.file_trie_root f = some node := by
      rw [find_file_of_any_status hnode, if_neg (by rw [htrash]; simp)]
    have hspec := delete_check_locks_spec env st.ss_list f node.ss_ids
    unfold handle_DELETE
    rw [hfind]
    dsimp only
    rw [if_neg (by rw [hstreq]; simp), if_neg (by rw [hfolder]; simp),
      if_pos (hspec.1.mpr hex)]
    exact ⟨rfl, rfl, hspec.2⟩

set_option maxRecDepth 1000000 in
/-- C24: TRASH of a file that is locked on a replica. `c.txt` of `alice` has the
replica list `[ss1, ss2]` and `ss2`, which is active, answers `FILE_LOCKED` to
`NM_CHECK_LOCKS c.txt`. With `ss1` active and unlocked, TRASH asks `ss1` only,
replies `ACK_TRASHED` and puts the file in trash. With `ss1` marked inactive, TRASH
asks no server at all, replies `ACK_TRASHED` and puts the file in trash. DELETE in
the same two states asks every active replica and replies `ERR_FILE_LOCKED`. -/
theorem trash_ignores_locked_replica :
    (find_file state_two_replicas.file_trie_root c_txt).map (fun d => d.ss_ids) =
      some [id_ss1, id_ss2] ∧
    get_ss_by_id state_two_replicas.ss_list id_ss2 = some sample_ss2 ∧
    (env_locked_on id_ss2).nm_check_locks sample_ss2 c_txt = true ∧
    (handle_TRASH (env_locked_on id_ss2) state_two_replicas alice c_txt 200).reply =
      Reply.ACK_TRASHED ∧
    (handle_TRASH (env_locked_on id_ss2) state_two_replicas alice c_txt 200).sent =
      [SSMsg.mk id_ss1 (SSCommand.NM_CHECK_LOCKS c_txt)] ∧
    (find_file_any_status
      (handle_TRASH (env_locked_on id_ss2) state_two_replicas alice c_txt
        200).state.file_trie_root c_txt).map (fun d => d.is_in_trash) = some true ∧
    (handle_DELETE (env_locked_on id_ss2) state_two_replicas alice c_txt).reply =
      Reply.ERR_FILE_LOCKED ∧
    (find_file state_primary_down.file_trie_root c_txt).map (fun d => d.ss_ids) =
      some [id_ss1, id_ss2] ∧
    get_ss_by_id state_primary_down.ss_list id_ss1 = none ∧
    get_ss_by_id state_primary_down.ss_list id_ss2 = some sample_ss2 ∧
    (handle_TRASH (env_locked_on id_ss2) state_primary_down alice c_txt 200).reply =
      Reply.ACK_TRASHED ∧
    (handle_TRASH (env_locked_on id_ss2) state_primary_down alice c_txt 200).sent = [] ∧
    (find_file_any_status
      (handle_TRASH (env_locked_on id_ss2) state_primary_down alice c_txt
        200).state.file_trie_root c_txt).map (fun d => d.is_in_trash) = some true ∧
    (handle_DELETE (env_locked_on id_ss2) state_primary_down alice c_txt).reply =
      Reply.ERR_FILE_LOCKED :=
  ⟨by decide, by decide, by decide, by decide, by decide, by decide, by decide, by decide,
    by decide, by decide, by decide, by decide, by decide, by decide⟩

set_option maxRecDepth 1000000 in
/-- The lock checks, worked instance: `ss1`, the primary of `c.txt`, answers
`FILE_LOCKED`; TRASH and DELETE by `alice` reply `ERR_FILE_LOCKED` and leave the
state as it is. -/
theorem locked_file_stays_witness :
    (find_file_any_status state_two_replicas.file_trie_root c_txt =
        some (node_at state_two_replicas.file_trie_root c_txt) ∧
      (node_at state_two_replicas.file_trie_root c_txt).ss_ids = [id_ss1, id_ss2] ∧
      get_ss_by_id state_two_replicas.ss_list id_ss1 = some sample_ss1 ∧
      (env_locked_on id_ss1).nm_check_locks sample_ss1 c_txt = true) ∧
    ((handle_TRASH (env_locked_on id_ss1) state_two_replicas alice c_txt 200).reply =
        Reply.ERR_FILE_LOCKED ∧
      (handle_TRASH (env_locked_on id_ss1) state_two_replicas alice c_txt 200).state =
        state_two_replicas) ∧
    ((handle_DELETE (env_locked_on id_ss1) state_two_replicas alice c_txt).reply =
        Reply.ERR_FILE_LOCKED ∧
      (handle_DELETE (env_locked_on id_ss1) state_two_replicas alice c_txt).state =
        state_two_replicas) :=
  have hnode : find_file_any_status state_two_replicas.file_trie_root c_txt =
      some (node_at state_two_replicas.file_trie_root c_txt) := by decide
  have hids : (node_at state_two_replicas.file_trie_root c_txt).ss_ids =
      [id_ss1, id_ss2] := by decide
  have hss : get_ss_by_id state_two_replicas.ss_list id_ss1 = some sample_ss1 := by decide
  have hlock : (env_locked_on id_ss1).nm_check_locks sample_ss1 c_txt = true := by decide
  have h := locked_file_stays (env_locked_on id_ss1) state_two_replicas alice c_txt 200
    (node_at state_two_replicas.file_trie_root c_txt) (by decide) (by decide) (by decide)
    hnode
  have ht := h.1 id_ss1 [id_ss2] sample_ss1 hids hss hlock
  have hd := h.2 ⟨id_ss1, by rw [hids]; exact List.mem_cons_self _ _, sample_ss1, hss, hlock⟩
  ⟨⟨hnode, hids, hss, hlock⟩, ⟨ht.1, ht.2.1⟩, ⟨hd.1, hd.2.1⟩⟩

/-! ## Lookup cache -/

/-- C25, amended: the hit condition of the lookup cache. `hash_filename` is below
`CACHE_SIZE`; `get_cached_ss` treats the slot at that index as a hit exactly when
the slot is valid, its stored filename equals the name, and `now - last_access` is
strictly below `CACHE_EXPIRY_SECONDS` (300); a hit sets the slot's `last_access` to
`now` and returns what `get_ss_by_id` finds for the stored id; a miss returns
`NULL` and leaves the cache unchanged. At the boundary `now - last_access = 300`
the lookup is a miss. -/
theorem cache_hit_condition (file_cache : Nat → CacheEntry) (ss_list : List StorageServer)
    (f : CStr) (now : Int) :
    hash_filename f < CACHE_SIZE ∧
    get_cached_ss file_cache ss_list f now =
      (if (file_cache (hash_filename f)).valid = true ∧
          (file_cache (hash_filename f)).filename = f ∧
          now - (file_cache (hash_filename f)).last_access < CACHE_EXPIRY_SECONDS then
        (get_ss_by_id ss_list (file_cache (hash_filename f)).ss_id,
         Function.update file_cache (hash_filename f)
           { file_cache (hash_filename f) with last_access := now })
       else (none, file_cache)) ∧
    ((file_cache (hash_filename f)).valid = true →
      (file_cache (hash_filename f)).filename = f →
      now - (file_cache (hash_filename f)).last_access = CACHE_EXPIRY_SECONDS →
      get_cached_ss file_cache ss_list f now = (none, file_cache)) := by
  have hmain : get_cached_ss file_cache ss_list f now =
      (if (file_cache (hash_filename f)).valid = true ∧
          (file_cache (hash_filename f)).filename = f ∧
          now - (file_cache (hash_filename f)).last_access < CACHE_EXPIRY_SECONDS then
        (get_ss_by_id ss_list (file_cache (hash_filename f)).ss_id,
         Function.update file_cache (hash_filename f)
           { file_cache (hash_filename f) with last_access := now })
       else (none, file_cache)) := by
    unfold get_cached_ss
    dsimp only
    by_cases h : (file_cache (hash_filename f)).valid = true ∧
        (file_cache (hash_filename f)).filename = f ∧
        now - (file_cache (hash_filename f)).last_access < CACHE_EXPIRY_SECONDS
    · rw [if_pos h, if_pos]
      simp [streq, h.1, h.2.1, h.2.2]
    · rw [if_neg h, if_neg]
      intro hc
      apply h
      simp only [streq, Bool.and_eq_true, beq_iff_eq, decide_eq_true_eq] at hc
      exact ⟨hc.1.1, hc.1.2, hc.2⟩
  refine ⟨?_, hmain, ?_⟩
  · unfold hash_filename
    exact Nat.mod_lt _ (by decide)
  · intro _ _ hb
    rw [hmain, if_neg]
    rintro ⟨_, _, h⟩
    rw [hb] at h
    exact absurd h (lt_irrefl _)

set_option maxRecDepth 1000000 in
/-- C25, as stated, fails at the boundary: `c.txt` was cached at time 100 by CREATE;
a lookup at time 400, when `now - last_access` is exactly 300, is a miss and leaves
`last_access` at 100, while a lookup at time 399 is a hit. -/
theorem cache_boundary_is_miss :
    hash_filename c_txt < CACHE_SIZE ∧
    (state_after_create.file_cache (hash_filename c_txt)).valid = true ∧
    (state_after_create.file_cache (hash_filename c_txt)).filename = c_txt ∧
    (400 : Int) - (state_after_create.file_cache (hash_filename c_txt)).last_access =
      CACHE_EXPIRY_SECONDS ∧
    (get_cached_ss state_after_create.file_cache state_after_create.ss_list c_txt 400).1 =
      none ∧
    ((get_cached_ss state_after_create.file_cache state_after_create.ss_list c_txt 400).2
      (hash_filename c_txt)).last_access = 100 ∧
    (get_cached_ss state_after_create.file_cache state_after_create.ss_list c_txt 399).1 =
      some sample_ss1 ∧
    ((get_cached_ss state_after_create.file_cache state_after_create.ss_list c_txt 399).2
      (hash_filename c_txt)).last_access = 399 :=
  ⟨by decide, by decide, by decide, by decide, by decide, by decide, by decide, by decide⟩

/-- C25, worked instance: the lookup of `c.txt` at time 400 returns `NULL` and the
cache as it was. -/
theorem cache_hit_condition_witness :
    get_cached_ss state_after_create.file_cache state_after_create.ss_list c_txt 400 =
      (none, state_after_create.file_cache) :=
  (cache_hit_condition state_after_create.file_cache state_after_create.ss_list c_txt
    400).2.2 (by decide) (by decide) (by decide)

/-! ## The owner in `write_users` -/

set_option maxRecDepth 1000000 in
/-- C27: CREATEFOLDER on a name that is in trash. `alice` sends `CREATE c.txt`,
`TRASH c.txt` and `EMPTYTRASH`: the Name Server tells `ss1` to delete `c.txt`
(`NM_DELETE`, so the file is gone from the storage server) and keeps the node in the
directory, in trash. CREATE of the same name by `bob` replies `ERR_FILE_IN_TRASH`,
but CREATEFOLDER by `bob` replies `ACK_CREATEFOLDER` once `ss1` has made the
directory: it sends `NM_CREATEFOLDER` to `ss1` and rewrites the trashed node, whose
owner becomes `bob`, whose `write_users` gets `bob` appended and whose times are
replaced. -/
theorem createfolder_overwrites_trashed_node :
    (handle_EMPTYTRASH state_after_trash alice).reply = Reply.ACK_EMPTYTRASH 1 ∧
    (handle_EMPTYTRASH state_after_trash alice).sent =
      [SSMsg.mk id_ss1 (SSCommand.NM_DELETE c_txt)] ∧
    (find_file_any_status state_after_emptytrash.file_trie_root c_txt).map
        (fun d => (d.owner, d.write_users, d.is_folder, d.is_in_trash)) =
      some (alice, [alice], false, true) ∧
    (find_file_any_status state_after_emptytrash.file_trie_root c_txt).map
        (fun d => (d.ss_ids, d.creation_time, d.last_modified)) =
      some ([id_ss1], 100, 200) ∧
    (handle_CREATE sample_env state_after_emptytrash bob c_txt 300).reply =
      Reply.ERR_FILE_IN_TRASH ∧
    (handle_CREATEFOLDER sample_env state_after_emptytrash bob c_txt 300).reply =
      Reply.ACK_CREATEFOLDER ∧
    (handle_CREATEFOLDER sample_env state_after_emptytrash bob c_txt 300).sent =
      [SSMsg.mk id_ss1 (SSCommand.NM_CREATEFOLDER c_txt)] ∧
    (find_file_any_status
        (handle_CREATEFOLDER sample_env state_after_emptytrash bob c_txt
          300).state.file_trie_root
        c_txt).map (fun d => (d.owner, d.write_users, d.is_folder, d.is_in_trash)) =
      some (bob, [alice, bob], false, true) ∧
    (find_file_any_status
        (handle_CREATEFOLDER sample_env state_after_emptytrash bob c_txt
          300).state.file_trie_root
        c_txt).map (fun d => (d.ss_ids, d.creation_time, d.last_modified)) =
      some ([id_ss1], 300, 300) :=
  ⟨by decide, by decide, by decide, by decide, by decide, by decide, by decide, by decide,
    by decide⟩

set_option maxRecDepth 1000000 in
/-- C28: MOVE contacts the storage server before its destination is checked.
`alice` owns `c.txt` and no folder `F` exists: `MOVE c.txt F` sends
`NM_CREATEFOLDER F` and `NM_MOVE c.txt F` to `ss1` and then replies
`ERR_MOVE_FAILED`. The same happens for `MOVE b F` when `F/b` already exists. -/
theorem move_sends_before_destination_check :
    find_folder state_after_create.file_trie_root name_F = none ∧
    (handle_MOVE sample_env state_after_create alice c_txt name_F 300).reply =
      Reply.ERR_MOVE_FAILED ∧
    (handle_MOVE sample_env state_after_create alice c_txt name_F 300).sent =
      [SSMsg.mk id_ss1 (SSCommand.NM_CREATEFOLDER name_F),
       SSMsg.mk id_ss1 (SSCommand.NM_MOVE c_txt name_F)] ∧
    (find_folder state_b_F_Fb.file_trie_root name_F).isSome = true ∧
    (find_file state_b_F_Fb.file_trie_root name_F_b).isSome = true ∧
    (handle_MOVE sample_env state_b_F_Fb alice name_b name_F 300).reply =
      Reply.ERR_MOVE_FAILED ∧
    (handle_MOVE sample_env state_b_F_Fb alice name_b name_F 300).sent =
      [SSMsg.mk id_ss1 (SSCommand.NM_CREATEFOLDER name_F),
       SSMsg.mk id_ss1 (SSCommand.NM_MOVE name_b name_F)] :=
  ⟨by decide, by decide, by decide, by decide, by decide, by decide, by decide⟩

set_option maxRecDepth 1000000 in
/-- C29: a re-created name inherits the ACL of the deleted file. `c.txt` of `alice`,
readable by `bob` and writable by `carol`, is removed with `delete_file`; after
`insert_file` of `c.txt` for `dave` the node has `write_users = [alice, carol, dave]`
and `read_users = [bob]`, so `bob` and `carol` keep their permissions. A name that
was a folder stays a folder after `delete_file` and `insert_file`. -/
theorem recreated_name_keeps_acl :
    find_file_any_status root_deleted_with_acl c_txt = none ∧
    (find_file (insert_file root_deleted_with_acl c_txt dave id_ss1 200) c_txt).map
        (fun d => (d.owner, d.write_users, d.read_users)) =
      some (dave, [alice, carol, dave], [bob]) ∧
    (find_file (insert_file_with_replicas root_deleted_with_acl c_txt dave
        [id_ss1, id_ss2] 200) c_txt).map
        (fun d => (d.owner, d.write_users, d.read_users)) =
      some (dave, [alice, carol, dave], [bob]) ∧
    check_permission (find_file (insert_file root_deleted_with_acl c_txt dave id_ss1 200)
      c_txt) (some bob) = PermissionLevel.PERM_READ ∧
    check_permission (find_file (insert_file root_deleted_with_acl c_txt dave id_ss1 200)
      c_txt) (some carol) = PermissionLevel.PERM_WRITE ∧
    find_file_any_status root_deleted_folder name_F = none ∧
    (find_file (insert_file root_deleted_folder name_F dave id_ss1 200) name_F).map
        (fun d => (d.owner, d.is_folder)) = some (dave, true) :=
  ⟨by decide, by decide, by decide, by decide, by decide, by decide, by decide⟩

/-! ## Task queue -/

theorem queue_slots_snoc (tasks : Int → Task) :
    ∀ (n : Nat) (i : Int), 0 ≤ i → i < MAX_QUEUE_SIZE →
      queue_slots tasks (n + 1) i =
        queue_slots tasks n i ++ [tasks ((i + n) % MAX_QUEUE_SIZE)] := by
  intro n
  induction n with
  | zero =>
    intro i h0 h1
    have hi : (i + ((0 : Nat) : Int)) % MAX_QUEUE_SIZE = i := by
      unfold MAX_QUEUE_SIZE at h1 ⊢
      omega
    rw [hi]
    rfl
  | succ n ih =>
    intro i h0 h1
    have hstep : ∀ m, queue_slots tasks (m + 1) i =
        tasks i :: queue_slots tasks m ((i + 1) % MAX_QUEUE_SIZE) := fun _ => rfl
    rw [hstep (n + 1), ih ((i + 1) % MAX_QUEUE_SIZE)
      (by unfold MAX_QUEUE_SIZE; omega) (by unfold MAX_QUEUE_SIZE; omega), hstep n]
    have hidx : ((i + 1) % MAX_QUEUE_SIZE + (n : Int)) % MAX_QUEUE_SIZE =
        (i + ((n + 1 : Nat) : Int)) % MAX_QUEUE_SIZE := by
      unfold MAX_QUEUE_SIZE
      push_cast
      omega
    rw [hidx]
    rfl

theorem queue_slots_update (tasks : Int → Task) (j : Int) (t : Task) :
    ∀ (n : Nat) (i : Int), 0 ≤ i → i < MAX_QUEUE_SIZE →
      (∀ k : Nat, k < n → (i + k) % MAX_QUEUE_SIZE ≠ j) →
      queue_slots (Function.update tasks j t) n i = queue_slots tasks n i := by
  intro n
  induction n with
  | zero =>
    intro _ _ _ _
    rfl
  | succ n ih =>
    intro i h0 h1 hne
    have hstep : ∀ (g : Int → Task), queue_slots g (n + 1) i =
        g i :: queue_slots g n ((i + 1) % MAX_QUEUE_SIZE) := fun _ => rfl
    rw [hstep, hstep, ih ((i + 1) % MAX_QUEUE_SIZE)
      (by unfold MAX_QUEUE_SIZE; omega) (by unfold MAX_QUEUE_SIZE; omega)]
    · have hi : i ≠ j := by
        have := hne 0 (Nat.succ_pos n)
        unfold MAX_QUEUE_SIZE at this h1
        intro hij
        apply this
        rw [← hij]
        push_cast
        omega
      rw [Function.update_noteq hi]
    · intro k hk
      have := hne (k + 1) (by omega)
      unfold MAX_QUEUE_SIZE at this ⊢
      push_cast at this
      intro hc
      apply this
      rw [← hc]
      omega

theorem enqueue_task_content (q : TaskQueue) (task : Task)
    (hc0 : 0 ≤ q.count) (hc1 : q.count < MAX_QUEUE_SIZE)
    (hf0 : 0 ≤ q.front) (hf1 : q.front < MAX_QUEUE_SIZE)
    (hrear : q.rear = (q.front + q.count) % MAX_QUEUE_SIZE) :
    ∃ q1, enqueue_task q task = some q1 ∧
      q1.count = q.count + 1 ∧ q1.front = q.front ∧
      q1.rear = (q.rear + 1) % MAX_QUEUE_SIZE ∧
      queue_content q1 = queue_content q ++ [task] := by
  refine ⟨{ tasks := Function.update q.tasks q.rear task, front := q.front,
            rear := (q.rear + 1) % MAX_QUEUE_SIZE, count := q.count + 1 }, ?_, rfl, rfl, rfl, ?_⟩
  · unfold enqueue_task
    rw [if_neg (by omega)]
  · unfold queue_content
    dsimp only
    have hn : (q.count + 1).toNat = q.count.toNat + 1 := by omega
    have hcast : ((q.count.toNat : Nat) : Int) = q.count := Int.toNat_of_nonneg hc0
    rw [hn, queue_slots_snoc _ _ _ hf0 hf1, hcast, ← hrear, Function.update_same,
      queue_slots_update _ _ _ _ _ hf0 hf1]
    intro k hk
    rw [hrear]
    unfold MAX_QUEUE_SIZE at hc1 hf1 ⊢
    omega

theorem dequeue_task_content (q : TaskQueue) (sd : Bool) (hc : 0 < q.count) :
    dequeue_task q sd =
      Dequeued.task (q.tasks q.front)
        { tasks := q.tasks, front := (q.front + 1) % MAX_QUEUE_SIZE, rear := q.rear,
          count := q.count - 1 } ∧
    queue_content q = q.tasks q.front ::
      queue_content { tasks := q.tasks, front := (q.front + 1) % MAX_QUEUE_SIZE,
                      rear := q.rear, count := q.count - 1 } := by
  constructor
  · unfold dequeue_task
    rw [if_neg (by omega)]
  · unfold queue_content
    dsimp only
    have hn : q.count.toNat = (q.count - 1).toNat + 1 := by omega
    rw [hn]
    rfl

/-- C30: the task queue is a bounded FIFO. In every state reachable through
`init_task_queue`, `enqueue_task` and `dequeue_task`, `0 ≤ count ≤ MAX_QUEUE_SIZE`,
`front` and `rear` are below `MAX_QUEUE_SIZE`, `rear = (front + count) mod
MAX_QUEUE_SIZE`, and the tasks enqueued so far are the tasks dequeued so far
followed by the content of the queue: tasks leave in the order in which they
entered. An enqueue on a queue that is not full appends the task to the content,
and a dequeue on a queue that is not empty returns the first task of the content
and leaves the rest. -/
theorem task_queue_bounded_fifo (q : TaskQueue) (enq deq : List Task)
    (h : ReachableQueue q enq deq) :
    (0 ≤ q.count ∧ q.count ≤ MAX_QUEUE_SIZE) ∧
    (0 ≤ q.front ∧ q.front < MAX_QUEUE_SIZE) ∧
    (0 ≤ q.rear ∧ q.rear < MAX_QUEUE_SIZE) ∧
    q.rear = (q.front + q.count) % MAX_QUEUE_SIZE ∧
    enq = deq ++ queue_content q ∧
    (queue_content q).length = q.count.toNat ∧
    (∀ task, q.count < MAX_QUEUE_SIZE →
      ∃ q1, enqueue_task q task = some q1 ∧
        queue_content q1 = queue_content q ++ [task]) ∧
    (∀ sd, 0 < q.count →
      ∃ task q1, dequeue_task q sd = Dequeued.task task q1 ∧
        queue_content q = task :: queue_content q1) := by
  have hlen : ∀ (tasks : Int → Task) (n : Nat) (i : Int),
      (queue_slots tasks n i).length = n := by
    intro tasks n
    induction n with
    | zero => exact fun _ => rfl
    | succ n ih =>
      intro i
      have hstep : queue_slots tasks (n + 1) i =
          tasks i :: queue_slots tasks n ((i + 1) % MAX_QUEUE_SIZE) := rfl
      rw [hstep, List.length_cons, ih]
  have hinv : (0 ≤ q.count ∧ q.count ≤ MAX_QUEUE_SIZE) ∧
      (0 ≤ q.front ∧ q.front < MAX_QUEUE_SIZE) ∧
      (0 ≤ q.rear ∧ q.rear < MAX_QUEUE_SIZE) ∧
      q.rear = (q.front + q.count) % MAX_QUEUE_SIZE ∧
      enq = deq ++ queue_content q := by
    induction h with
    | init =>
      refine ⟨⟨?_, ?_⟩, ⟨?_, ?_⟩, ⟨?_, ?_⟩, ?_, ?_⟩ <;> decide
    | by_enqueue q q1 enq deq task _ hstep ih =>
      obtain ⟨⟨hc0, hc1⟩, ⟨hf0, hf1⟩, ⟨hr0, hr1⟩, hrear, hfifo⟩ := ih
      have hnotfull : q.count < MAX_QUEUE_SIZE := by
        by_contra hge
        unfold enqueue_task at hstep
        rw [if_pos (by omega)] at hstep
        cases hstep
      obtain ⟨q2, hq2, hcount, hfront, hrear2, hcontent⟩ :=
        enqueue_task_content q task hc0 hnotfull hf0 hf1 hrear
      rw [hstep] at hq2
      cases hq2
      rw [hcount, hfront, hrear2, hcontent, hfifo, List.append_assoc]
      unfold MAX_QUEUE_SIZE at hc1 hf1 hr1 hnotfull hrear ⊢
      refine ⟨⟨by omega, by omega⟩, ⟨hf0, hf1⟩, ⟨by omega, by omega⟩, by omega, rfl⟩
    | by_dequeue q q1 enq deq sd task _ hstep ih =>
      obtain ⟨⟨hc0, hc1⟩, ⟨hf0, hf1⟩, ⟨hr0, hr1⟩, hrear, hfifo⟩ := ih
      have hnotempty : 0 < q.count := by
        by_contra hle
        have h0 : q.count = 0 := by omega
        unfold dequeue_task at hstep
        rw [if_pos h0] at hstep
        cases sd <;> cases hstep
      obtain ⟨hdq, hcontent⟩ := dequeue_task_content q sd hnotempty
      rw [hstep] at hdq
      cases hdq
      rw [hfifo, hcontent]
      dsimp only
      unfold MAX_QUEUE_SIZE at hc1 hf1 hr1 hrear ⊢
      refine ⟨⟨by omega, by omega⟩, ⟨by omega, by omega⟩, ⟨hr0, hr1⟩, by omega, by simp⟩
  obtain ⟨⟨hc0, hc1⟩, ⟨hf0, hf1⟩, hr, hrear, hfifo⟩ := hinv
  refine ⟨⟨hc0, hc1⟩, ⟨hf0, hf1⟩, hr, hrear, hfifo, hlen _ _ _, ?_, ?_⟩
  · intro task hnotfull
    obtain ⟨q1, hq1, _, _, _, hcontent⟩ :=
      enqueue_task_content q task hc0 hnotfull hf0 hf1 hrear
    exact ⟨q1, hq1, hcontent⟩
  · intro sd hnotempty
    obtain ⟨hdq, hcontent⟩ := dequeue_task_content q sd hnotempty
    exact ⟨_, _, hdq, hcontent⟩

/-- C30, worked instance: `task_a` and `task_b` are enqueued on the initial queue;
the content is `[task_a, task_b]` and the next dequeue returns `task_a`. -/
theorem task_queue_bounded_fifo_witness :
    ReachableQueue queue_ab [task_a, task_b] [] ∧
    [task_a, task_b] = [] ++ queue_content queue_ab ∧
    queue_ab.rear = (queue_ab.front + queue_ab.count) % MAX_QUEUE_SIZE ∧
    (∃ task q1, dequeue_task queue_ab false = Dequeued.task task q1 ∧
      queue_content queue_ab = task :: queue_content q1) ∧
    queue_content queue_ab = [task_a, task_b] :=
  have h1 : ReachableQueue queue_a [task_a] [] :=
    ReachableQueue.by_enqueue init_task_queue queue_a [] [] task_a ReachableQueue.init rfl
  have hreach : ReachableQueue queue_ab [task_a, task_b] [] :=
    ReachableQueue.by_enqueue queue_a queue_ab [task_a] [] task_b h1 rfl
  have h := task_queue_bounded_fifo queue_ab [task_a, task_b] [] hreach
  ⟨hreach, h.2.2.2.2.1, h.2.2.2.1, h.2.2.2.2.2.2.2 false (by decide), by decide⟩

/-! ## Listings on the arrays of VIEW and VIEWTRASH -/

/-- A `strcat` that stays inside the array appends, and the text fits with its NUL. -/
theorem strcat_in_some {size : Nat} {dest src r : CStr}
    (h : strcat_in size dest src = some r) : r = dest ++ src ∧ r.length < size := by
  unfold strcat_in at h
  by_cases hc : dest.length + src.length < size
  · rw [if_pos hc] at h
    cases h
    exact ⟨rfl, by rw [List.length_append]; exact hc⟩
  · rw [if_neg hc] at h
    cases h

theorem foldl_bind_none {α β : Type} (fb : β → α → Option β) (l : List α) :
    l.foldl (fun out i => out.bind fun o => fb o i) none = none := by
  induction l with
  | nil => rfl
  | cons i l ih => exact ih

theorem foldl_in_some {α : Type} (size : Nat) (fb : CStr → α → Option CStr)
    (fu : CStr → α → CStr) (l : List α)
    (hstep : ∀ o i r, i ∈ l → fb o i = some r → r = fu o i ∧ (r = o ∨ r.length < size)) :
    ∀ o r, l.foldl (fun out i => out.bind fun o => fb o i) (some o) = some r →
      r = l.foldl fu o ∧ (r = o ∨ r.length < size) := by
  induction l with
  | nil =>
    intro o r h
    cases h
    exact ⟨rfl, Or.inl rfl⟩
  | cons i l ih =>
    intro o r h
    rw [List.foldl_cons] at h
    cases hfb : fb o i with
    | none =>
      rw [show (some o).bind (fun o => fb o i) = fb o i from rfl, hfb, foldl_bind_none] at h
      cases h
    | some o1 =>
      rw [show (some o).bind (fun o => fb o i) = fb o i from rfl, hfb] at h
      obtain ⟨h1, h2⟩ := hstep o i o1 (List.mem_cons_self _ _) hfb
      obtain ⟨h3, h4⟩ := ih (fun o i r hi => hstep o i r (List.mem_cons_of_mem _ hi)) o1 r h
      refine ⟨by rw [h3, h1, List.foldl_cons], ?_⟩
      rcases h4 with h4 | h4
      · rw [h4]
        exact h2
      · exact Or.inr h4

theorem listing_entry_in_some {size : Nat} {out cur r : CStr} {is_folder : Bool}
    (h : ((strcat_in size out cur).bind fun o1 =>
      (if is_folder then strcat_in size o1 [SLASH] else some o1).bind fun o2 =>
        strcat_in size o2 [NEWLINE]) = some r) :
    r = out ++ cur ++ (if is_folder then [SLASH] else []) ++ [NEWLINE] ∧ r.length < size := by
  cases h1 : strcat_in size out cur with
  | none =>
    rw [h1] at h
    cases h
  | some o1 =>
    rw [h1] at h
    obtain ⟨e1, _⟩ := strcat_in_some h1
    cases is_folder with
    | false =>
      simp only [Bool.false_eq_true, if_false, Option.some_bind, List.append_nil] at h ⊢
      obtain ⟨e2, l2⟩ := strcat_in_some h
      exact ⟨by rw [e2, e1], l2⟩
    | true =>
      simp only [if_true, Option.some_bind] at h ⊢
      cases h2 : strcat_in size o1 [SLASH] with
      | none =>
        rw [h2] at h
        cases h
      | some o2 =>
        rw [h2] at h
        obtain ⟨e2, _⟩ := strcat_in_some h2
        obtain ⟨e3, l3⟩ := strcat_in_some h
        exact ⟨by rw [e3, e2, e1], l3⟩

set_option maxRecDepth 100000 in
/-- A run of `traverse_trie_recursive` that stays inside its arrays writes the text
of the list model, and the text fits the output array when something was
written. -/
theorem traverse_in_some (out_size path_size : Nat) (username : CStr)
    (list_all show_details : Bool) :
    ∀ (t : FileNode) (out cur r : CStr),
      traverse_trie_recursive_in out_size path_size t username list_all show_details
          out cur = some r →
        r = traverse_trie_recursive t username list_all show_details out cur ∧
          (r = out ∨ r.length < out_size) := by
  intro t
  induction t with
  | null =>
    intro out cur r h
    unfold traverse_trie_recursive_in at h
    cases h
    exact ⟨by unfold traverse_trie_recursive; rfl, Or.inl rfl⟩
  | node d ch ih =>
    intro out cur r h
    unfold traverse_trie_recursive_in at h
    unfold traverse_trie_recursive
    dsimp only at h ⊢
    have hstep : ∀ o i r1, i ∈ child_indices →
        (match ch i with
          | FileNode.null => some o
          | FileNode.node _ _ =>
              if cur.length + 1 < path_size then
                traverse_trie_recursive_in out_size path_size (ch i) username list_all
                  show_details o (cur ++ [i])
              else none) = some r1 →
        r1 = traverse_trie_recursive (ch i) username list_all show_details o (cur ++ [i]) ∧
          (r1 = o ∨ r1.length < out_size) := by
      intro o i r1 _ hr
      cases hch : ch i with
      | null =>
        rw [hch] at hr
        cases hr
        exact ⟨by unfold traverse_trie_recursive; rfl, Or.inl rfl⟩
      | node d1 ch1 =>
        have hih := ih i o (cur ++ [i]) r1
        rw [hch] at hr hih
        dsimp only at hr
        by_cases hc : cur.length + 1 < path_size
        · rw [if_pos hc] at hr
          exact hih hr
        · rw [if_neg hc] at hr
          cases hr
    by_cases hlist : (d.is_end_of_word && !d.is_in_trash) = true ∧
        (list_all || decide (PermissionLevel.PERM_READ.toNat ≤
          (check_permission (some d) (some username)).toNat)) = true
    · rw [if_pos hlist.1, if_pos hlist.2] at h ⊢
      cases hout : ((strcat_in out_size out cur).bind fun o1 =>
          (if d.is_folder then strcat_in out_size o1 [SLASH] else some o1).bind fun o2 =>
            strcat_in out_size o2 [NEWLINE]) with
      | none =>
        rw [hout, foldl_bind_none] at h
        cases h
      | some o1 =>
        rw [hout] at h
        obtain ⟨e1, l1⟩ := listing_entry_in_some hout
        obtain ⟨e2, l2⟩ := foldl_in_some out_size _ _ child_indices hstep o1 r h
        refine ⟨by rw [e2, e1], Or.inr ?_⟩
        rcases l2 with l2 | l2
        · rw [l2]
          exact l1
        · exact l2
    · have hsame : (if (d.is_end_of_word && !d.is_in_trash) = true then
            if (list_all || decide (PermissionLevel.PERM_READ.toNat ≤
                (check_permission (some d) (some username)).toNat)) = true then
              (strcat_in out_size out cur).bind fun o1 =>
                (if d.is_folder then strcat_in out_size o1 [SLASH] else some o1).bind
                  fun o2 => strcat_in out_size o2 [NEWLINE]
            else some out
          else some out) = some out := by
        by_cases h1 : (d.is_end_of_word && !d.is_in_trash) = true
        · rw [if_pos h1, if_neg (fun h2 => hlist ⟨h1, h2⟩)]
        · rw [if_neg h1]
      have hsame2 : (if (d.is_end_of_word && !d.is_in_trash) = true then
            if (list_all || decide (PermissionLevel.PERM_READ.toNat ≤
                (check_permission (some d) (some username)).toNat)) = true then
              out ++ cur ++ (if d.is_folder then [SLASH] else []) ++ [NEWLINE]
            else out
          else out) = out := by
        by_cases h1 : (d.is_end_of_word && !d.is_in_trash) = true
        · rw [if_pos h1, if_neg (fun h2 => hlist ⟨h1, h2⟩)]
        · rw [if_neg h1]
      rw [hsame] at h
      rw [hsame2]
      exact foldl_in_some out_size _ _ child_indices hstep out r h


theorem foldl_length_le {α : Type} (fu : CStr → α → CStr) (l : List α)
    (hmono : ∀ o i, i ∈ l → o.length ≤ (fu o i).length) :
    ∀ o, o.length ≤ (l.foldl fu o).length := by
  induction l with
  | nil =>
    intro o
    exact Nat.le_refl _
  | cons i l ih =>
    intro o
    rw [List.foldl_cons]
    exact Nat.le_trans (hmono o i (List.mem_cons_self _ _))
      (ih (fun o i hi => hmono o i (List.mem_cons_of_mem _ hi)) (fu o i))

theorem foldl_in_of_fits {α : Type} (size : Nat) (fb : CStr → α → Option CStr)
    (fu : CStr → α → CStr) (l : List α)
    (hmono : ∀ o i, i ∈ l → o.length ≤ (fu o i).length)
    (hstep : ∀ o i, i ∈ l → (fu o i).length < size → fb o i = some (fu o i)) :
    ∀ o, (l.foldl fu o).length < size →
      l.foldl (fun out i => out.bind fun o => fb o i) (some o) = some (l.foldl fu o) := by
  induction l with
  | nil =>
    intro o _
    rfl
  | cons i l ih =>
    intro o h
    rw [List.foldl_cons] at h ⊢
    have hmono1 : ∀ o i, i ∈ l → o.length ≤ (fu o i).length :=
      fun o i hi => hmono o i (List.mem_cons_of_mem _ hi)
    have h1 : (fu o i).length < size :=
      Nat.lt_of_le_of_lt (foldl_length_le fu l hmono1 (fu o i)) h
    rw [show (some o).bind (fun o => fb o i) = fb o i from rfl,
      hstep o i (List.mem_cons_self _ _) h1]
    exact ih hmono1 (fun o i hi => hstep o i (List.mem_cons_of_mem _ hi)) (fu o i) h

theorem listing_entry_in_of_fits {size : Nat} {out cur : CStr} {is_folder : Bool}
    (h : (out ++ cur ++ (if is_folder then [SLASH] else []) ++ [NEWLINE]).length < size) :
    ((strcat_in size out cur).bind fun o1 =>
      (if is_folder then strcat_in size o1 [SLASH] else some o1).bind fun o2 =>
        strcat_in size o2 [NEWLINE]) =
      some (out ++ cur ++ (if is_folder then [SLASH] else []) ++ [NEWLINE]) := by
  cases is_folder with
  | false =>
    simp only [Bool.false_eq_true, if_false, List.append_nil, List.length_append,
      List.length_singleton] at h ⊢
    unfold strcat_in
    rw [if_pos (by omega)]
    simp only [Option.some_bind, List.length_append, List.length_singleton]
    rw [if_pos (by omega)]
  | true =>
    simp only [if_true, List.length_append, List.length_singleton] at h ⊢
    unfold strcat_in
    rw [if_pos (by omega)]
    simp only [Option.some_bind, List.length_append, List.length_singleton]
    rw [if_pos (by omega)]
    simp only [Option.some_bind, List.length_append, List.length_singleton]
    rw [if_pos (by omega)]

theorem traverse_length_le (username : CStr) (list_all show_details : Bool) (t : FileNode)
    (out cur : CStr) :
    out.length ≤ (traverse_trie_recursive t username list_all show_details out cur).length := by
  rw [traverse_eq_terminals, List.length_append]
  exact Nat.le_add_right _ _

set_option maxRecDepth 100000 in
/-- A run of `traverse_trie_recursive` whose prefixes fit the prefix array and whose
text fits the output array stays inside both arrays. -/
theorem traverse_in_of_fits (out_size path_size : Nat) (username : CStr)
    (list_all show_details : Bool) :
    ∀ (t : FileNode) (out cur : CStr),
      (∀ q, walk t q ≠ FileNode.null → cur.length + q.length < path_size) →
      (traverse_trie_recursive t username list_all show_details out cur).length < out_size →
      traverse_trie_recursive_in out_size path_size t username list_all show_details
          out cur =
        some (traverse_trie_recursive t username list_all show_details out cur) := by
  intro t
  induction t with
  | null =>
    intro out cur _ _
    unfold traverse_trie_recursive_in traverse_trie_recursive
    rfl
  | node d ch ih =>
    intro out cur hdepth hfit
    unfold traverse_trie_recursive_in
    unfold traverse_trie_recursive at hfit ⊢
    dsimp only at hfit ⊢
    have hmono : ∀ o i, i ∈ child_indices → o.length ≤
        (traverse_trie_recursive (ch i) username list_all show_details o
          (cur ++ [i])).length :=
      fun o i _ => traverse_length_le username list_all show_details (ch i) o (cur ++ [i])
    have hstep : ∀ o i, i ∈ child_indices →
        (traverse_trie_recursive (ch i) username list_all show_details o
          (cur ++ [i])).length < out_size →
        (match ch i with
          | FileNode.null => some o
          | FileNode.node _ _ =>
              if cur.length + 1 < path_size then
                traverse_trie_recursive_in out_size path_size (ch i) username list_all
                  show_details o (cur ++ [i])
              else none) =
          some (traverse_trie_recursive (ch i) username list_all show_details o
            (cur ++ [i])) := by
      intro o i _ hlen
      have hd : ∀ q, walk (ch i) q ≠ FileNode.null →
          (cur ++ [i]).length + q.length < path_size := by
        intro q hq
        have := hdepth (i :: q) (by rw [walk]; exact hq)
        rw [List.length_append, List.length_singleton]
        rw [List.length_cons] at this
        omega
      have hih := ih i o (cur ++ [i]) hd hlen
      cases hch : ch i with
      | null =>
        rw [hch] at hih
        unfold traverse_trie_recursive
        rfl
      | node d1 ch1 =>
        have h1 : cur.length + 1 < path_size := by
          have := hdepth [i] (by rw [walk, walk, hch]; simp)
          rw [List.length_singleton] at this
          exact this
        rw [hch] at hih
        dsimp only
        rw [if_pos h1]
        exact hih
    have hfirst := foldl_length_le _ child_indices hmono
    by_cases hlist : (d.is_end_of_word && !d.is_in_trash) = true ∧
        (list_all || decide (PermissionLevel.PERM_READ.toNat ≤
          (check_permission (some d) (some username)).toNat)) = true
    · rw [if_pos hlist.1, if_pos hlist.2] at hfit
      rw [if_pos hlist.1, if_pos hlist.2, if_pos hlist.1, if_pos hlist.2]
      rw [listing_entry_in_of_fits (Nat.lt_of_le_of_lt (hfirst _) hfit)]
      exact foldl_in_of_fits out_size _ _ child_indices hmono hstep _ hfit
    · have hsame : (if (d.is_end_of_word && !d.is_in_trash) = true then
            if (list_all || decide (PermissionLevel.PERM_READ.toNat ≤
                (check_permission (some d) (some username)).toNat)) = true then
              (strcat_in out_size out cur).bind fun o1 =>
                (if d.is_folder then strcat_in out_size o1 [SLASH] else some o1).bind
                  fun o2 => strcat_in out_size o2 [NEWLINE]
            else some out
          else some out) = some out := by
        by_cases h1 : (d.is_end_of_word && !d.is_in_trash) = true
        · rw [if_pos h1, if_neg (fun h2 => hlist ⟨h1, h2⟩)]
        · rw [if_neg h1]
      have hsame2 : (if (d.is_end_of_word && !d.is_in_trash) = true then
            if (list_all || decide (PermissionLevel.PERM_READ.toNat ≤
                (check_permission (some d) (some username)).toNat)) = true then
              out ++ cur ++ (if d.is_folder then [SLASH] else []) ++ [NEWLINE]
            else out
          else out) = out := by
        by_cases h1 : (d.is_end_of_word && !d.is_in_trash) = true
        · rw [if_pos h1, if_neg (fun h2 => hlist ⟨h1, h2⟩)]
        · rw [if_neg h1]
      rw [hsame]
      rw [hsame2] at hfit ⊢
      exact foldl_in_of_fits out_size _ _ child_indices hmono hstep _ hfit


set_option maxRecDepth 100000 in
/-- A run of `list_trash_recursive` that stays inside its arrays writes the text
of the list model, and the text fits the output array when something was
written. -/
theorem list_trash_in_some (out_size path_size : Nat) (username : CStr) :
    ∀ (t : FileNode) (out cur r : CStr),
      list_trash_recursive_in out_size path_size t username
          out cur = some r →
        r = list_trash_recursive t username out cur ∧
          (r = out ∨ r.length < out_size) := by
  intro t
  induction t with
  | null =>
    intro out cur r h
    unfold list_trash_recursive_in at h
    cases h
    exact ⟨by unfold list_trash_recursive; rfl, Or.inl rfl⟩
  | node d ch ih =>
    intro out cur r h
    unfold list_trash_recursive_in at h
    unfold list_trash_recursive
    dsimp only at h ⊢
    have hstep : ∀ o i r1, i ∈ child_indices →
        (match ch i with
          | FileNode.null => some o
          | FileNode.node _ _ =>
              if cur.length + 1 < path_size then
                list_trash_recursive_in out_size path_size (ch i) username o (cur ++ [i])
              else none) = some r1 →
        r1 = list_trash_recursive (ch i) username o (cur ++ [i]) ∧
          (r1 = o ∨ r1.length < out_size) := by
      intro o i r1 _ hr
      cases hch : ch i with
      | null =>
        rw [hch] at hr
        cases hr
        exact ⟨by unfold list_trash_recursive; rfl, Or.inl rfl⟩
      | node d1 ch1 =>
        have hih := ih i o (cur ++ [i]) r1
        rw [hch] at hr hih
        dsimp only at hr
        by_cases hc : cur.length + 1 < path_size
        · rw [if_pos hc] at hr
          exact hih hr
        · rw [if_neg hc] at hr
          cases hr
    by_cases hlist : (d.is_end_of_word && d.is_in_trash) = true ∧
        streq d.owner username = true
    · rw [if_pos hlist.1, if_pos hlist.2] at h ⊢
      cases hout : ((strcat_in out_size out cur).bind fun o1 =>
          (if d.is_folder then strcat_in out_size o1 [SLASH] else some o1).bind fun o2 =>
            strcat_in out_size o2 [NEWLINE]) with
      | none =>
        rw [hout, foldl_bind_none] at h
        cases h
      | some o1 =>
        rw [hout] at h
        obtain ⟨e1, l1⟩ := listing_entry_in_some hout
        obtain ⟨e2, l2⟩ := foldl_in_some out_size _ _ child_indices hstep o1 r h
        refine ⟨by rw [e2, e1], Or.inr ?_⟩
        rcases l2 with l2 | l2
        · rw [l2]
          exact l1
        · exact l2
    · have hsame : (if (d.is_end_of_word && d.is_in_trash) = true then
            if streq d.owner username = true then
              (strcat_in out_size out cur).bind fun o1 =>
                (if d.is_folder then strcat_in out_size o1 [SLASH] else some o1).bind
                  fun o2 => strcat_in out_size o2 [NEWLINE]
            else some out
          else some out) = some out := by
        by_cases h1 : (d.is_end_of_word && d.is_in_trash) = true
        · rw [if_pos h1, if_neg (fun h2 => hlist ⟨h1, h2⟩)]
        · rw [if_neg h1]
      have hsame2 : (if (d.is_end_of_word && d.is_in_trash) = true then
            if streq d.owner username = true then
              out ++ cur ++ (if d.is_folder then [SLASH] else []) ++ [NEWLINE]
            else out
          else out) = out := by
        by_cases h1 : (d.is_end_of_word && d.is_in_trash) = true
        · rw [if_pos h1, if_neg (fun h2 => hlist ⟨h1, h2⟩)]
        · rw [if_neg h1]
      rw [hsame] at h
      rw [hsame2]
      exact foldl_in_some out_size _ _ child_indices hstep out r h


theorem list_trash_length_le (username : CStr) (t : FileNode)
    (out cur : CStr) :
    out.length ≤ (list_trash_recursive t username out cur).length := by
  rw [list_trash_eq_terminals, List.length_append]
  exact Nat.le_add_right _ _


set_option maxRecDepth 100000 in
/-- A run of `list_trash_recursive` whose prefixes fit the prefix array and whose
text fits the output array stays inside both arrays. -/
theorem list_trash_in_of_fits (out_size path_size : Nat) (username : CStr) :
    ∀ (t : FileNode) (out cur : CStr),
      (∀ q, walk t q ≠ FileNode.null → cur.length + q.length < path_size) →
      (list_trash_recursive t username out cur).length < out_size →
      list_trash_recursive_in out_size path_size t username
          out cur =
        some (list_trash_recursive t username out cur) := by
  intro t
  induction t with
  | null =>
    intro out cur _ _
    unfold list_trash_recursive_in list_trash_recursive
    rfl
  | node d ch ih =>
    intro out cur hdepth hfit
    unfold list_trash_recursive_in
    unfold list_trash_recursive at hfit ⊢
    dsimp only at hfit ⊢
    have hmono : ∀ o i, i ∈ child_indices → o.length ≤
        (list_trash_recursive (ch i) username o
          (cur ++ [i])).length :=
      fun o i _ => list_trash_length_le username (ch i) o (cur ++ [i])
    have hstep : ∀ o i, i ∈ child_indices →
        (list_trash_recursive (ch i) username o
          (cur ++ [i])).length < out_size →
        (match ch i with
          | FileNode.null => some o
          | FileNode.node _ _ =>
              if cur.length + 1 < path_size then
                list_trash_recursive_in out_size path_size (ch i) username o (cur ++ [i])
              else none) =
          some (list_trash_recursive (ch i) username o
            (cur ++ [i])) := by
      intro o i _ hlen
      have hd : ∀ q, walk (ch i) q ≠ FileNode.null →
          (cur ++ [i]).length + q.length < path_size := by
        intro q hq
        have := hdepth (i :: q) (by rw [walk]; exact hq)
        rw [List.length_append, List.length_singleton]
        rw [List.length_cons] at this
        omega
      have hih := ih i o (cur ++ [i]) hd hlen
      cases hch : ch i with
      | null =>
        rw [hch] at hih
        unfold list_trash_recursive
        rfl
      | node d1 ch1 =>
        have h1 : cur.length + 1 < path_size := by
          have := hdepth [i] (by rw [walk, walk, hch]; simp)
          rw [List.length_singleton] at this
          exact this
        rw [hch] at hih
        dsimp only
        rw [if_pos h1]
        exact hih
    have hfirst := foldl_length_le _ child_indices hmono
    by_cases hlist : (d.is_end_of_word && d.is_in_trash) = true ∧
        streq d.owner username = true
    · rw [if_pos hlist.1, if_pos hlist.2] at hfit
      rw [if_pos hlist.1, if_pos hlist.2, if_pos hlist.1, if_pos hlist.2]
      rw [listing_entry_in_of_fits (Nat.lt_of_le_of_lt (hfirst _) hfit)]
      exact foldl_in_of_fits out_size _ _ child_indices hmono hstep _ hfit
    · have hsame : (if (d.is_end_of_word && d.is_in_trash) = true then
            if streq d.owner username = true then
              (strcat_in out_size out cur).bind fun o1 =>
                (if d.is_folder then strcat_in out_size o1 [SLASH] else some o1).bind
                  fun o2 => strcat_in out_size o2 [NEWLINE]
            else some out
          else some out) = some out := by
        by_cases h1 : (d.is_end_of_word && d.is_in_trash) = true
        · rw [if_pos h1, if_neg (fun h2 => hlist ⟨h1, h2⟩)]
        · rw [if_neg h1]
      have hsame2 : (if (d.is_end_of_word && d.is_in_trash) = true then
            if streq d.owner username = true then
              out ++ cur ++ (if d.is_folder then [SLASH] else []) ++ [NEWLINE]
            else out
          else out) = out := by
        by_cases h1 : (d.is_end_of_word && d.is_in_trash) = true
        · rw [if_pos h1, if_neg (fun h2 => hlist ⟨h1, h2⟩)]
        · rw [if_neg h1]
      rw [hsame]
      rw [hsame2] at hfit ⊢
      exact foldl_in_of_fits out_size _ _ child_indices hmono hstep _ hfit



theorem flatMap_length_le_of_sublist {α β : Type} (f : α → List β) {l₁ l₂ : List α}
    (h : l₁.Sublist l₂) : (l₁.flatMap f).length ≤ (l₂.flatMap f).length := by
  induction h with
  | slnil => exact Nat.le_refl _
  | cons a _ ih =>
    rw [List.flatMap_cons, List.length_append]
    omega
  | cons₂ a _ ih =>
    rw [List.flatMap_cons, List.flatMap_cons, List.length_append, List.length_append]
    omega

theorem flatMap_length_le_of_nodup_subset {α β : Type} [DecidableEq α] (f : α → List β)
    {l₁ l₂ : List α} (hd : l₁.Nodup) (hs : l₁ ⊆ l₂) :
    (l₁.flatMap f).length ≤ (l₂.flatMap f).length := by
  obtain ⟨l, hp, hsub⟩ := List.subperm_of_subset hd hs
  rw [← (hp.flatMap_right f).length_eq]
  exact flatMap_length_le_of_sublist f hsub

/-- The run of `list_files` on an output array of `out_size` bytes and the text of the
list model. A run that stays inside its arrays returns the text of `list_files`,
which then fits the output array with its NUL. When every node lies less than
`MAX_FILENAME * 2` steps below the root and the text fits, the run stays inside
its arrays. When the text does not fit, the run writes past the end of the output
array. -/
theorem list_files_in_spec (out_size : Nat) (root : FileNode) (username : CStr)
    (list_all show_details : Bool) :
    (∀ r, list_files_in out_size root username list_all show_details = some r →
      r = list_files root username list_all show_details ∧ r.length < out_size) ∧
    ((∀ q, walk root q ≠ FileNode.null → q.length < MAX_FILENAME * 2) →
      (list_files root username list_all show_details).length < out_size →
      list_files_in out_size root username list_all show_details =
        some (list_files root username list_all show_details)) ∧
    (out_size ≤ (list_files root username list_all show_details).length →
      list_files_in out_size root username list_all show_details = none) := by
  have hsome : ∀ r, list_files_in out_size root username list_all show_details = some r →
      r = list_files root username list_all show_details ∧ r.length < out_size := by
    intro r h
    unfold list_files_in at h
    by_cases h0 : out_size = 0
    · rw [if_pos h0] at h
      cases h
    · rw [if_neg h0] at h
      obtain ⟨e, l⟩ := traverse_in_some out_size _ username list_all show_details root [] []
        r h
      refine ⟨e, ?_⟩
      rcases l with l | l
      · rw [l]
        exact Nat.pos_of_ne_zero h0
      · exact l
  refine ⟨hsome, ?_, ?_⟩
  · intro hdepth hfit
    unfold list_files_in
    rw [if_neg (by omega)]
    exact traverse_in_of_fits out_size _ username list_all show_details root [] []
      (fun q hq => by
        have := hdepth q hq
        rw [List.length_nil]
        omega) hfit
  · intro hlong
    cases h : list_files_in out_size root username list_all show_details with
    | none => rfl
    | some r =>
      obtain ⟨e, l⟩ := hsome r h
      rw [e] at l
      omega

/-- The run of `list_trash` on an output array of `out_size` bytes and the text of the
list model, as `list_files_in_spec`. -/
theorem list_trash_in_spec (out_size : Nat) (root : FileNode) (username : CStr) :
    (∀ r, list_trash_in out_size root username = some r →
      r = list_trash root username ∧ r.length < out_size) ∧
    ((∀ q, walk root q ≠ FileNode.null → q.length < MAX_FILENAME * 2) →
      (list_trash root username).length < out_size →
      list_trash_in out_size root username = some (list_trash root username)) ∧
    (out_size ≤ (list_trash root username).length →
      list_trash_in out_size root username = none) := by
  have hsome : ∀ r, list_trash_in out_size root username = some r →
      r = list_trash root username ∧ r.length < out_size := by
    intro r h
    unfold list_trash_in at h
    by_cases h0 : out_size = 0
    · rw [if_pos h0] at h
      cases h
    · rw [if_neg h0] at h
      obtain ⟨e, l⟩ := list_trash_in_some out_size _ username root [] [] r h
      refine ⟨e, ?_⟩
      rcases l with l | l
      · rw [l]
        exact Nat.pos_of_ne_zero h0
      · exact l
  refine ⟨hsome, ?_, ?_⟩
  · intro hdepth hfit
    unfold list_trash_in
    rw [if_neg (by omega)]
    exact list_trash_in_of_fits out_size _ username root [] []
      (fun q hq => by
        have := hdepth q hq
        rw [List.length_nil]
        omega) hfit
  · intro hlong
    cases h : list_trash_in out_size root username with
    | none => rfl
    | some r =>
      obtain ⟨e, l⟩ := hsome r h
      rw [e] at l
      omega

set_option maxRecDepth 1000000 in
/-- Each of the 90 names is found in the directory of `state_ninety_files` and is
listed for `alice`. -/
theorem ninety_files_found :
    ∀ n ∈ names_ninety,
      find_file_any_status state_ninety_files.file_trie_root n =
          some (node_at state_ninety_files.file_trie_root n) ∧
        listed_by_view alice false (n, node_at state_ninety_files.file_trie_root n) = true := by
  decide

set_option maxRecDepth 1000000 in
/-- The 90 names are pairwise different. -/
theorem ninety_names_nodup : names_ninety.Nodup := by
  decide

theorem flatMap_listing_entry_length (names : List CStr) (data : CStr → NodeData) :
    (names.map (fun n => n.length + 1)).sum ≤
      ((names.map (fun n => (n, data n))).flatMap listing_entry).length := by
  induction names with
  | nil => exact Nat.le_refl _
  | cons n rest ih =>
    rw [List.map_cons, List.map_cons, List.sum_cons, List.flatMap_cons, List.length_append]
    have h : n.length + 1 ≤ (listing_entry (n, data n)).length := by
      unfold listing_entry
      dsimp only
      rw [List.length_append, List.length_append, List.length_singleton]
      omega
    omega

set_option maxRecDepth 1000000 in
/-- The 90 names with one newline each take 4185 bytes. -/
theorem ninety_names_bytes : (names_ninety.map (fun n => n.length + 1)).sum = 4185 := by
  decide

theorem ninety_entries_length :
    BUFFER_SIZE * 4 ≤
      ((names_ninety.map (fun n => (n, node_at state_ninety_files.file_trie_root n))).flatMap
        listing_entry).length := by
  refine Nat.le_trans ?_ (flatMap_listing_entry_length names_ninety _)
  rw [ninety_names_bytes]
  decide

/-- The listing of the 90 files for `alice` does not fit 4096 bytes. -/
theorem ninety_listing_length :
    BUFFER_SIZE * 4 ≤ (list_files state_ninety_files.file_trie_root alice false false).length := by
  refine Nat.le_trans ninety_entries_length ?_
  unfold list_files
  rw [traverse_eq_terminals, List.nil_append]
  apply flatMap_length_le_of_nodup_subset
  · apply List.Nodup.of_map (fun p => p.1)
    rw [List.map_map]
    exact (List.map_id _).symm ▸ ninety_names_nodup
  · intro p hp
    obtain ⟨n, hn, rfl⟩ := List.mem_map.mp hp
    obtain ⟨hf, hv⟩ := ninety_files_found n hn
    exact List.mem_filter.mpr
      ⟨(mem_terminals_iff _ [] n _).mpr ⟨n, rfl, hf⟩, hv⟩

set_option maxRecDepth 1000000 in
/-- C20: VIEW on a directory whose listing does not fit the array of VIEW. `alice` has
created the 90 files `a`, `aa`, `aaa` and so on up to 90 letters; each of them is
found, owned by `alice`, not a folder and not in trash. The text of the listing for
`alice` has at least `BUFFER_SIZE * 4`, that is 4096, bytes (the entries of the 90
names take 4185), so the run of `list_files` on
`char file_list_buffer[BUFFER_SIZE * 4]` writes past the end of the array:
`list_files_in` and the VIEW branch have no result. -/
theorem view_overruns_listing_buffer :
    names_ninety.length = 90 ∧
    (∀ n ∈ names_ninety, n.length ≤ 90 ∧
      (find_file_any_status state_ninety_files.file_trie_root n).map
        (fun d => (d.owner, d.is_folder, d.is_in_trash)) = some (alice, false, false)) ∧
    BUFFER_SIZE * 4 ≤
      (list_files state_ninety_files.file_trie_root alice false false).length ∧
    list_files_in (BUFFER_SIZE * 4) state_ninety_files.file_trie_root alice false false =
      none ∧
    handle_VIEW state_ninety_files alice false = none := by
  have hnone := (list_files_in_spec (BUFFER_SIZE * 4) state_ninety_files.file_trie_root
    alice false false).2.2 ninety_listing_length
  refine ⟨by decide, by decide, ninety_listing_length, hnone, ?_⟩
  unfold handle_VIEW
  rw [hnone]
  rfl

end DirtyDocs
